import Mathlib

/-!
Verification of the ONNX `EvalPeepholeONNX` pass
(`torch/csrc/jit/passes/onnx/eval_peephole.cpp`): a peephole optimizer that
fuses a `Conv` node with a downstream `BatchNormalization` node, folding the
normalization statistics into the convolution weight and bias.

The development is a shallow embedding of the pass.  The JIT graph IR
(nodes, values with use lists, nested blocks, the value-to-parameter map) is
modelled as a finite state record over association lists; the C++ in-place
mutations become pure state transformers.  `at::Tensor` is modelled as a
shape/dtype-tagged flat list of scalars.  Scalars are modelled by `Int`
and the (external) elementwise `sqrt` by an abstract function parameter
`sq : Int → Int`: every arithmetic fact proved here is symbolic in the
element operations, exactly as the specification states them, so the choice
of the scalar carrier does not matter (floating-point rounding itself is not
modelled).  C++ calls that throw (`Node::f` on a missing attribute,
`std::vector::at` out of range) are modelled by an error outcome.
-/

/-- Element dtype tag of a tensor.  Only "floating or not" is relevant to the
pass (`is_floating_point`). -/
inductive DType where
  | float
  | nonfloat
deriving DecidableEq, Repr

/-- Model of `at::Tensor`: a shape, an element dtype and a flat row-major
data list.  A well-formed tensor has `data.length = shape.prod`. -/
structure Tensor where
  shape : List Nat
  dtype : DType
  data : List Int
deriving DecidableEq, Repr

/-- Default tensor (used only for out-of-range list access defaults). -/
def dT : Tensor := ⟨[], DType.nonfloat, []⟩

/-- `at::Tensor::clone`: in the purely functional model a clone is the same
tensor value; the original stored tensors are separate immutable data. -/
def Tensor.clone (t : Tensor) : Tensor := t

/-- `t.is_floating_point()`. -/
def Tensor.isFloat (t : Tensor) : Bool := t.dtype = DType.float

/-- `t.dim()`: the rank. -/
def Tensor.dim (t : Tensor) : Nat := t.shape.length

/-- `t.size(0)`: the size of the leading dimension. -/
def Tensor.size0 (t : Tensor) : Nat := t.shape.headD 0

/-- `t.add(c)` with a scalar: elementwise addition of a scalar. -/
def Tensor.addScalar (t : Tensor) (c : Int) : Tensor :=
  { t with data := t.data.map (· + c) }

/-- `t.sqrt()`: elementwise square root, via the abstract scalar `sq`. -/
def Tensor.sqrtAll (sq : Int → Int) (t : Tensor) : Tensor :=
  { t with data := t.data.map sq }

/-- `a.div(b)`: elementwise division (same-shaped operands after the
pass's shape checks). -/
def Tensor.div2 (a b : Tensor) : Tensor :=
  { a with data := List.zipWith (· / ·) a.data b.data }

/-- `a.sub(b)`: elementwise subtraction. -/
def Tensor.sub2 (a b : Tensor) : Tensor :=
  { a with data := List.zipWith (· - ·) a.data b.data }

/-- `a.mul(b)`: elementwise multiplication. -/
def Tensor.mul2 (a b : Tensor) : Tensor :=
  { a with data := List.zipWith (· * ·) a.data b.data }

/-- `a.add(b)`: elementwise addition. -/
def Tensor.add2 (a b : Tensor) : Tensor :=
  { a with data := List.zipWith (· + ·) a.data b.data }

/-- The loop `for i in irange(convW.size(0)) : convW[i] = convW[i].mul(bnScale[i])`:
every element of channel `i` (flat indices `j` with `j / rowSize = i < size0`)
is multiplied by the per-channel scalar `s[i]`. -/
def scaleChannels (w s : Tensor) : Tensor :=
  let rowSize := (w.shape.drop 1).prod
  { w with data := w.data.enum.map (fun p =>
      if p.1 / rowSize < w.size0 then p.2 * s.data.getD (p.1 / rowSize) 0 else p.2) }

/-- Lines 97-99: `bnVar = bnVar.add(epsilon); bnVar = bnVar.sqrt();
bnScale = bnScale.div(bnVar)`. -/
def foldScale (sq : Int → Int) (bnScale bnVar : Tensor) (eps : Int) : Tensor :=
  Tensor.div2 bnScale (Tensor.sqrtAll sq (Tensor.addScalar bnVar eps))

/-- Lines 107-116: the fused bias.  With three convolution inputs the original
bias (the second resolved tensor) participates; otherwise only the
normalization statistics do. -/
def foldBias (convVals : List Tensor) (numConvInputs : Nat)
    (bnScale2 bnB bnMean : Tensor) : Tensor :=
  if numConvInputs = 3 then
    Tensor.add2 (Tensor.mul2 (Tensor.sub2 (convVals.getD 1 dT) bnMean) bnScale2) bnB
  else
    Tensor.sub2 bnB (Tensor.mul2 bnMean bnScale2)

/-- Node kinds relevant to the pass.  `paramK` is `prim::Param` (the kind of
the defining node of graph/block inputs), `other` covers every remaining
operator kind. -/
inductive Kind where
  | conv
  | batchNorm
  | constant
  | paramK
  | other (tag : Nat)
deriving DecidableEq, Repr

/-- A node attribute value: a float attribute (`Node::f`), a tensor attribute
(`Node::t`), or anything else. -/
inductive AttrVal where
  | fval (x : Int)
  | tval (t : Tensor)
  | oval (tag : Nat)
deriving DecidableEq, Repr

/-- The defining site of a `Value`: the `i`-th output of a node, or an input
of a block (whose `node()` is the block's `prim::Param` node). -/
inductive Definer where
  | byNode (n : Nat) (i : Nat)
  | byBlock (b : Nat)
deriving DecidableEq, Repr

/-- A `Value`: its defining site, its optional type metadata
(shape and dtype), and its recorded use list of
(consuming node, input position) pairs. -/
structure ValueData where
  definer : Definer
  vtype : Option (List Nat × DType)
  uses : List (Nat × Nat)
deriving DecidableEq, Repr

/-- A `Node`: kind, ordered input and output value ids, named attributes and
nested block ids. -/
structure NodeData where
  kind : Kind
  inputs : List Nat
  outputs : List Nat
  attrs : List (String × AttrVal)
  blocks : List Nat
deriving DecidableEq, Repr

/-- A `Block`: its own input values and its ordered node list. -/
structure BlockData where
  binputs : List Nat
  nodes : List Nat
deriving DecidableEq, Repr

/-- The whole mutable world of the pass: the graph (nodes, blocks, values),
the value-to-parameter map (`ValueToParamPairMap`, mapping a graph-input
value to its symbolic name and bound tensor), the root block, and fresh-id
counters for node and value creation. -/
structure State where
  nodes : List (Nat × NodeData)
  blocksT : List (Nat × BlockData)
  values : List (Nat × ValueData)
  vmap : List (Nat × (Nat × Tensor))
  rootBlock : Nat
  freshNode : Nat
  freshValue : Nat
deriving DecidableEq, Repr

/-- Association-list lookup (first match). -/
def alookup {κ α : Type} [DecidableEq κ] : List (κ × α) → κ → Option α
  | [], _ => none
  | (k, a) :: rest, k' => if k = k' then some a else alookup rest k'

/-- Association-list update: replace the first binding of `k`, or append a new
binding at the end. -/
def aset {κ α : Type} [DecidableEq κ] : List (κ × α) → κ → α → List (κ × α)
  | [], k, a => [(k, a)]
  | (k', a') :: rest, k, a =>
    if k' = k then (k, a) :: rest else (k', a') :: aset rest k a

/-- Association-list removal of every binding of `k`. -/
def aerase {κ α : Type} [DecidableEq κ] : List (κ × α) → κ → List (κ × α)
  | [], _ => []
  | (k', a') :: rest, k =>
    if k' = k then aerase rest k else (k', a') :: aerase rest k

/-- `node->kind()`; a dangling id gets an inert kind. -/
def kindOf (st : State) (n : Nat) : Kind :=
  match alookup st.nodes n with
  | some nd => nd.kind
  | none => Kind.other 0

/-- `node->inputs()`. -/
def nodeInputs (st : State) (n : Nat) : List Nat :=
  match alookup st.nodes n with
  | some nd => nd.inputs
  | none => []

/-- `node->outputs()`. -/
def nodeOutputs (st : State) (n : Nat) : List Nat :=
  match alookup st.nodes n with
  | some nd => nd.outputs
  | none => []

/-- `node->attributes`, as copied wholesale by `copyAttributes`. -/
def nodeAttrs (st : State) (n : Nat) : List (String × AttrVal) :=
  match alookup st.nodes n with
  | some nd => nd.attrs
  | none => []

/-- `node->blocks()`. -/
def nodeBlocks (st : State) (n : Nat) : List Nat :=
  match alookup st.nodes n with
  | some nd => nd.blocks
  | none => []

/-- `block->nodes()` (the operator nodes, in order). -/
def blockNodes (st : State) (b : Nat) : List Nat :=
  match alookup st.blocksT b with
  | some bd => bd.nodes
  | none => []

/-- `block->inputs()`. -/
def blockBInputs (st : State) (b : Nat) : List Nat :=
  match alookup st.blocksT b with
  | some bd => bd.binputs
  | none => []

/-- `value->uses()`. -/
def valueUses (st : State) (v : Nat) : List (Nat × Nat) :=
  match alookup st.values v with
  | some vd => vd.uses
  | none => []

/-- `value->type()` metadata. -/
def valueType (st : State) (v : Nat) : Option (List Nat × DType) :=
  match alookup st.values v with
  | some vd => vd.vtype
  | none => none

/-- `node->f(name)`: read a float attribute; `none` models the exception
thrown when the attribute is missing or has a different kind. -/
def attrF (st : State) (n : Nat) (name : String) : Option Int :=
  match alookup st.nodes n with
  | some nd =>
    match alookup nd.attrs name with
    | some (AttrVal.fval x) => some x
    | _ => none
  | none => none

/-- `node->t(name)`: read a tensor attribute; `none` models the exception
thrown when the attribute is missing or has a different kind. -/
def attrT (st : State) (n : Nat) (name : String) : Option Tensor :=
  match alookup st.nodes n with
  | some nd =>
    match alookup nd.attrs name with
    | some (AttrVal.tval t) => some t
    | _ => none
  | none => none

/-- Outcome of resolving one node input to a statically known tensor
(the body of the loop in `getValues`, lines 23-34): skipped (`continue`),
resolved to a tensor, or a thrown exception (a `Constant` node without a
tensor `value` attribute). -/
inductive RVal where
  | skip
  | tensor (t : Tensor)
  | err
deriving DecidableEq, Repr

/-- Resolve one input value: a `prim::Param`-defined value is looked up in the
value-to-parameter map (absent entries are skipped), an `onnx::Constant`
yields its `value` tensor attribute, anything else is skipped. -/
def resolveValue (st : State) (v : Nat) : RVal :=
  match alookup st.values v with
  | none => RVal.skip
  | some vd =>
    match vd.definer with
    | Definer.byBlock _ =>
      match alookup st.vmap v with
      | some (_, t) => RVal.tensor t
      | none => RVal.skip
    | Definer.byNode n _ =>
      match kindOf st n with
      | Kind.paramK =>
        match alookup st.vmap v with
        | some (_, t) => RVal.tensor t
        | none => RVal.skip
      | Kind.constant =>
        match attrT st n "value" with
        | some t => RVal.tensor t
        | none => RVal.err
      | _ => RVal.skip

/-- The loop of `getValues`: collect the resolvable input tensors in input
order; `none` models a thrown exception. -/
def resolveInputs (st : State) : List Nat → Option (List Tensor)
  | [] => some []
  | v :: vs =>
    match resolveValue st v with
    | RVal.skip => resolveInputs st vs
    | RVal.err => none
    | RVal.tensor t => (resolveInputs st vs).map (fun l => t :: l)

/-- `getValues(node, valsToParamsMap)` (lines 17-37). -/
def getValues (st : State) (n : Nat) : Option (List Tensor) :=
  resolveInputs st (nodeInputs st n)

/-- The numeric/shape precondition of lines 86-95 (stated positively; the
source skips on the negated disjunction, which is propositionally the
same). -/
def precondOk (convW bnScale bnB bnMean bnVar : Tensor) : Bool :=
  bnScale.isFloat && bnB.isFloat && bnMean.isFloat && bnVar.isFloat &&
  convW.isFloat && (bnScale.dim == 1) && (bnB.dim == 1) &&
  (bnMean.dim == 1) && (bnVar.dim == 1) &&
  (bnScale.size0 == bnB.size0) && (bnB.size0 == bnMean.size0) &&
  (bnMean.size0 == bnVar.size0) && (2 < convW.dim) &&
  (convW.size0 == bnScale.size0)

/-- Outcome of matching one `Conv` candidate (lines 50-95): no match
(`continue`), a thrown exception, or a validated match carrying the
normalization node, the two output values, the convolution's first input and
the resolved tensors and epsilon. -/
inductive MatchRes where
  | skip
  | err
  | fire (bn out0 bnOut0 v0 : Nat) (convVals bnVals : List Tensor) (eps : Int)
deriving DecidableEq, Repr

/-- The matcher of lines 50-95, transcribed check for check.  Note the source
reads `bnNode->f(attr::epsilon)` (line 64) before resolving any input, so a
missing epsilon attribute is an exception even when a later check would have
skipped the candidate. -/
def matchFusion (st : State) (cur : Nat) : MatchRes :=
  match (nodeOutputs st cur).head? with
  | none => MatchRes.err
  | some out0 =>
    match valueUses st out0 with
    | [(bn, _)] =>
      if kindOf st bn ≠ Kind.batchNorm then MatchRes.skip
      else if (nodeOutputs st cur).length ≠ (nodeOutputs st bn).length then MatchRes.skip
      else
        match attrF st bn "epsilon" with
        | none => MatchRes.err
        | some eps =>
          match getValues st cur with
          | none => MatchRes.err
          | some convVals =>
            if convVals.length < 1 ∨
                ((nodeInputs st cur).length = 3 ∧ convVals.length ≠ 2) then
              MatchRes.skip
            else
              match getValues st bn with
              | none => MatchRes.err
              | some bnVals =>
                if bnVals.length ≠ 4 then MatchRes.skip
                else
                  if precondOk (convVals.getD 0 dT) (bnVals.getD 0 dT)
                      (bnVals.getD 1 dT) (bnVals.getD 2 dT) (bnVals.getD 3 dT) then
                    match (nodeOutputs st bn).head?, (nodeInputs st cur).head? with
                    | some bnOut0, some v0 =>
                      MatchRes.fire bn out0 bnOut0 v0 convVals bnVals eps
                    | _, _ => MatchRes.err
                  else MatchRes.skip
    | _ => MatchRes.skip

/-- Update the data of value `v` if present (helper for the primitives). -/
def updValue (st : State) (v : Nat) (f : ValueData → ValueData) : State :=
  match alookup st.values v with
  | some vd => { st with values := aset st.values v (f vd) }
  | none => st

/-- Update the data of node `n` if present. -/
def updNode (st : State) (n : Nat) (f : NodeData → NodeData) : State :=
  match alookup st.nodes n with
  | some nd => { st with nodes := aset st.nodes n (f nd) }
  | none => st

/-- `graph->create(onnx::Conv, 1)` (line 118): allocate a node of kind `Conv`
with one fresh output value and no inputs, attributes or blocks; the node is
not yet inserted into any block. -/
def createConv (st : State) : State :=
  let nid := st.freshNode
  let outv := st.freshValue
  { st with
    nodes := aset st.nodes nid ⟨Kind.conv, [], [outv], [], []⟩
    values := aset st.values outv ⟨Definer.byNode nid 0, none, []⟩
    freshNode := nid + 1
    freshValue := outv + 1 }

/-- `value->setType`/`copyMetadata`/`inferTypeFrom`: set the type metadata of
a value. -/
def setValueType (st : State) (v : Nat) (ty : Option (List Nat × DType)) : State :=
  updValue st v (fun vd => { vd with vtype := ty })

/-- `newConv->copyAttributes(*oldConv)` (line 121): overwrite the node's
attribute table wholesale. -/
def setNodeAttrs (st : State) (n : Nat) (as2 : List (String × AttrVal)) : State :=
  updNode st n (fun nd => { nd with attrs := as2 })

/-- Insert `nid` immediately before the first occurrence of `bn` in a node
list (no-op when `bn` does not occur). -/
def insertBeforeList : List Nat → Nat → Nat → List Nat
  | [], _, _ => []
  | x :: xs, bn, nid =>
    if x = bn then nid :: x :: xs else x :: insertBeforeList xs bn nid

/-- `newConv->insertBefore(bnNode)` (line 122): place the node immediately
before `bn` in whichever block holds `bn`. -/
def insertBeforeOp (st : State) (bn nid : Nat) : State :=
  let f := fun (p : Nat × BlockData) =>
    (p.1, { p.2 with nodes := insertBeforeList p.2.nodes bn nid })
  { st with blocksT := st.blocksT.map f }

/-- `node->addInput(v)`: append `v` to the node's inputs and record the new
use `(n, position)` on `v`. -/
def addInputOp (st : State) (n v : Nat) : State :=
  match alookup st.nodes n with
  | none => st
  | some nd =>
    let pos := nd.inputs.length
    let st1 := { st with nodes := aset st.nodes n { nd with inputs := nd.inputs ++ [v] } }
    updValue st1 v (fun vd => { vd with uses := vd.uses ++ [(n, pos)] })

/-- `graph->addInput()` resp. `block->addInput()`: register a fresh value as
an input of block `b` (for the graph version, `b` is the root block). -/
def addBlockInputOp (st : State) (b : Nat) : State :=
  let v := st.freshValue
  let st1 :=
    match alookup st.blocksT b with
    | some bd => { st with blocksT := aset st.blocksT b { bd with binputs := bd.binputs ++ [v] } }
    | none => st
  { st1 with
    values := aset st1.values v ⟨Definer.byBlock b, none, []⟩
    freshValue := v + 1 }

/-- `valsToParamsMap.insert({v, {debugName, tensor}})`: `std::map::insert`
adds the entry only when the key is absent.  The fresh value's unique debug
name is modelled by its id. -/
def mapInsert (st : State) (v : Nat) (t : Tensor) : State :=
  match alookup st.vmap v with
  | some _ => st
  | none => { st with vmap := (v, (v, t)) :: st.vmap }

/-- Set input slot `i` of node `n` to `v` (leaving the use lists alone);
the slot-rewriting half of `replaceAllUsesWith`. -/
def setInputAt (st : State) (n i v : Nat) : State :=
  updNode st n (fun nd => { nd with inputs := nd.inputs.set i v })

/-- `old->replaceAllUsesWith(new)` (line 137): walk `old`'s recorded use
list, point every listed input slot at `new`, transfer the use entries to
`new`, and clear `old`'s use list. -/
def replaceAllUses (st : State) (old new : Nat) : State :=
  let us := valueUses st old
  let st1 := us.foldl (fun s p => setInputAt s p.1 p.2 new) st
  let st2 := updValue st1 new (fun vd => { vd with uses := vd.uses ++ us })
  updValue st2 old (fun vd => { vd with uses := [] })

/-- Boolean list membership for ids. -/
def memB (x : Nat) : List Nat → Bool
  | [] => false
  | y :: l => if y = x then true else memB x l

/-- Remove the first occurrence of a (node, position) pair from a use list
(`Use` removal in `Node::removeInput`). -/
def removeFirstPair : List (Nat × Nat) → (Nat × Nat) → List (Nat × Nat)
  | [], _ => []
  | q :: l, a => if q = a then l else q :: removeFirstPair l a

/-- `Node::destroy` (lines 138-139): remove, for every input slot `(i, v)`,
the recorded use `(n, i)` from `v`; drop the node from its block's node
list; drop the node's output values; remove the node itself. -/
def destroyNode (st : State) (n : Nat) : State :=
  match alookup st.nodes n with
  | none => st
  | some nd =>
    let st1 := nd.inputs.enum.foldl
      (fun s p => updValue s p.2 (fun vd => { vd with uses := removeFirstPair vd.uses (n, p.1) })) st
    let g := fun (q : Nat × BlockData) =>
      (q.1, { q.2 with nodes := q.2.nodes.filter (· ≠ n) })
    let st2 := { st1 with blocksT := st1.blocksT.map g }
    let st3 := { st2 with values := st2.values.filter (fun q => ! memB q.1 nd.outputs) }
    { st3 with nodes := aerase st3.nodes n }

/-- The graph rewrite of lines 97-139, applied to a validated match: fold the
tensors, create and wire the replacement `Conv`, register the two new
parameters, redirect the normalization's consumers and destroy the old
pair.  `b` is the block being traversed (the receiver of `b->addInput()`
at line 131). -/
def applyFusion (sq : Int → Int) (b cur bn bnOut0 v0 : Nat)
    (convVals bnVals : List Tensor) (eps : Int) (st : State) : State :=
  let bnScale := (bnVals.getD 0 dT).clone
  let bnB := (bnVals.getD 1 dT).clone
  let bnMean := (bnVals.getD 2 dT).clone
  let bnVar := (bnVals.getD 3 dT).clone
  let convW := (convVals.getD 0 dT).clone
  let scaleF := foldScale sq bnScale bnVar eps
  let convW2 := scaleChannels convW scaleF
  let convB2 := foldBias convVals (nodeInputs st cur).length scaleF bnB bnMean
  let nid := st.freshNode
  let outv := st.freshValue
  let st1 := createConv st
  let st2 := setValueType st1 outv (valueType st bnOut0)
  let st3 := setNodeAttrs st2 nid (nodeAttrs st cur)
  let st4 := insertBeforeOp st3 bn nid
  let st5 := addInputOp st4 nid v0
  let wv := st5.freshValue
  let st6 := addBlockInputOp st5 st5.rootBlock
  let st7 := mapInsert st6 wv convW2
  let st8 := setValueType st7 wv (some (convW2.shape, convW2.dtype))
  let st9 := addInputOp st8 nid wv
  let bv := st9.freshValue
  let st10 := addBlockInputOp st9 b
  let st11 := mapInsert st10 bv convB2
  let st12 := setValueType st11 bv (some (convB2.shape, convB2.dtype))
  let st13 := addInputOp st12 nid bv
  let st14 := replaceAllUses st13 bnOut0 outv
  let st15 := destroyNode st14 bn
  destroyNode st15 cur

/-- Process one node of a block (the body of the loop from line 49): a
non-`Conv` node is left alone; a `Conv` node is matched and, on a validated
match, rewritten.  The result carries the new state and, for a fusion,
the pair (destroyed normalization node, created node) so the caller's
iteration can be adjusted; `none` models a thrown exception. -/
def fuseAt (sq : Int → Int) (b cur : Nat) (st : State) :
    Option (State × Option (Nat × Nat)) :=
  if kindOf st cur = Kind.conv then
    match matchFusion st cur with
    | MatchRes.skip => some (st, none)
    | MatchRes.err => none
    | MatchRes.fire bn _ bnOut0 v0 convVals bnVals eps =>
      some (applyFusion sq b cur bn bnOut0 v0 convVals bnVals eps st,
        some (bn, st.freshNode))
  else some (st, none)

/-- Outcome of a (fueled) run of the recursive traversal: a final state, a
thrown exception, or fuel exhaustion (an artifact of the embedding; the C++
recursion always terminates, so every theorem about final states is stated
for runs that return `ok`). -/
inductive PassResult where
  | ok (st : State)
  | err
  | fuelOut
deriving DecidableEq, Repr

/-- A pending piece of the traversal: run a whole block, run the remainder of
a block's node list, or recurse into a list of child blocks.  Defunctionalizing
the mutual recursion of `fuseConvBatchNorm` this way lets the embedding
recurse on a fuel counter alone. -/
inductive WalkTask where
  | block (b : Nat)
  | nodesIn (b : Nat) (pending : List Nat)
  | children (bs : List Nat)
deriving DecidableEq, Repr

/-- Iterator adjustment after processing one node: when a fusion destroyed
`bn` and inserted the new node in its place, the not-yet-visited suffix of
the node list sees the new node where `bn` was (the C++ intrusive-list
iterator then visits the inserted node and never the destroyed one). -/
def applyRep : Option (Nat × Nat) → List Nat → List Nat
  | none, l => l
  | some (bn, nid), l => l.map (fun n => if n = bn then nid else n)

/-- The fueled interpreter of `fuseConvBatchNorm` (lines 44-142):
`WalkTask.block b` is a call `fuseConvBatchNorm(b, valsToParamsMap)`;
`WalkTask.nodesIn b pending` is the loop over the remaining nodes of `b`
(child blocks of each node are recursed into first, then the node itself is
matched and possibly rewritten); `WalkTask.children bs` is the inner loop
`for (auto* child_block : it->blocks())`. -/
def fuseRun (sq : Int → Int) : Nat → WalkTask → State → PassResult
  | 0, _, _ => PassResult.fuelOut
  | fuel + 1, WalkTask.block b, st => fuseRun sq fuel (WalkTask.nodesIn b (blockNodes st b)) st
  | _ + 1, WalkTask.nodesIn _ [], st => PassResult.ok st
  | fuel + 1, WalkTask.nodesIn b (cur :: rest), st =>
    match fuseRun sq fuel (WalkTask.children (nodeBlocks st cur)) st with
    | PassResult.err => PassResult.err
    | PassResult.fuelOut => PassResult.fuelOut
    | PassResult.ok st1 =>
      match fuseAt sq b cur st1 with
      | none => PassResult.err
      | some (st2, rep) => fuseRun sq fuel (WalkTask.nodesIn b (applyRep rep rest)) st2
  | _ + 1, WalkTask.children [], st => PassResult.ok st
  | fuel + 1, WalkTask.children (c :: cs), st =>
    match fuseRun sq fuel (WalkTask.block c) st with
    | PassResult.err => PassResult.err
    | PassResult.fuelOut => PassResult.fuelOut
    | PassResult.ok st1 => fuseRun sq fuel (WalkTask.children cs) st1

/-- `fuseConvBatchNorm(b, valsToParamsMap)` on block `b`. -/
def fuseConvBatchNorm (sq : Int → Int) (fuel : Nat) (b : Nat) (st : State) : PassResult :=
  fuseRun sq fuel (WalkTask.block b) st

/-- Modelled from the spec: `buildValueToParamsMap` lives in
`torch/csrc/jit/passes/onnx/helper.cpp`, which is not part of the sources
under verification.  Per the spec the Parameter Binding Table is the mapping
from graph-input values to (symbolic name, dense tensor) pairs, which is
exactly the state's `vmap`; the view construction is therefore the
identity on that table. -/
def buildValueToParamsMap (st : State) : List (Nat × (Nat × Tensor)) := st.vmap

/-- Modelled from the spec: `buildParamsMapFromValueToParamsMap` (also in
`helper.cpp`, outside the verified sources) writes the value-to-parameter
map back into the caller's parameter dictionary; per the spec the output is
"the same Parameter Binding Table, with entries added for newly folded
parameters (and no entries removed by this pass)", i.e. the write-back
preserves the table's entries. -/
def buildParamsMapFromValueToParamsMap (m : List (Nat × (Nat × Tensor)))
    (st : State) : State :=
  { st with vmap := m }

/-- `EvalPeepholeONNX(b, paramsDict, isAllowedToAdjustGraphInputs)`
(lines 144-158): build the value-to-parameter view, run the fusion only when
graph inputs may be adjusted, and write the table back. -/
def EvalPeepholeONNX (sq : Int → Int) (fuel : Nat) (st : State) (allow : Bool) :
    PassResult :=
  let st0 := buildParamsMapFromValueToParamsMap (buildValueToParamsMap st) st
  if allow then
    match fuseConvBatchNorm sq fuel st0.rootBlock st0 with
    | PassResult.ok st1 =>
      PassResult.ok (buildParamsMapFromValueToParamsMap st1.vmap st1)
    | r => r
  else PassResult.ok st0

/-- No duplicate keys in an association list (Boolean). -/
def nodupKeysB {α : Type} : List (Nat × α) → Bool
  | [] => true
  | (k, _) :: rest => rest.all (fun q => q.1 != k) && nodupKeysB rest

/-- No duplicate elements (Boolean). -/
def nodupB : List Nat → Bool
  | [] => true
  | x :: xs => xs.all (fun y => y != x) && nodupB xs

/-- Well-formedness of a state, as guaranteed by the JIT graph factory:
fresh-id counters dominate every allocated id (node ids, value ids, map
keys, block node lists, block inputs, node input/output wiring), and the
tables and block node lists have no duplicates.  These are invariants of
the real `Graph` object, which allocates nodes and values from monotone
counters. -/
def WfB (st : State) : Bool :=
  st.nodes.all (fun p => decide (p.1 < st.freshNode)
    && p.2.inputs.all (fun v => decide (v < st.freshValue))
    && p.2.outputs.all (fun v => decide (v < st.freshValue))) &&
  st.values.all (fun p => decide (p.1 < st.freshValue)) &&
  st.vmap.all (fun p => decide (p.1 < st.freshValue)) &&
  st.blocksT.all (fun p => p.2.nodes.all (fun n => decide (n < st.freshNode))
    && nodupB p.2.nodes
    && p.2.binputs.all (fun v => decide (v < st.freshValue))) &&
  nodupKeysB st.nodes && nodupKeysB st.values && nodupKeysB st.blocksT

/-- The (node, input position) slots of `inputs` holding value `v`, for a
node `n`. -/
def slotsOf (n : Nat) (inputs : List Nat) (v : Nat) : List (Nat × Nat) :=
  inputs.enum.filterMap (fun q => if q.2 = v then some (n, q.1) else none)

/-- All (node, input position) places where value `v` appears as an input of
some node of a node table. -/
def occL (l : List (Nat × NodeData)) (v : Nat) : List (Nat × Nat) :=
  l.foldr (fun p acc => slotsOf p.1 p.2.inputs v ++ acc) []

/-- All (node, input position) places where value `v` appears as an input of
some node of the graph. -/
def occList (st : State) (v : Nat) : List (Nat × Nat) := occL st.nodes v

/-- Use-list integrity: every recorded use list holds exactly the places
where the value appears as an input (as a multiset, i.e. up to
permutation). -/
def Integrity (st : State) : Prop :=
  ∀ v vd, alookup st.values v = some vd → List.Perm vd.uses (occList st v)

/-- Boolean use-list integrity check, for concrete states. -/
def integB (st : State) : Bool :=
  st.values.all (fun p => p.2.uses.isPerm (occList st p.1))

/-! ### Association-list lemmas -/

theorem alookup_aset_self {κ α : Type} [DecidableEq κ] (l : List (κ × α)) (k : κ) (a : α) :
    alookup (aset l k a) k = some a := by
  induction l with
  | nil => simp [aset, alookup]
  | cons p rest ih =>
    by_cases h : p.1 = k
    · simp [aset, h, alookup]
    · simp [aset, h, alookup, ih]

theorem alookup_aset_ne {κ α : Type} [DecidableEq κ] (l : List (κ × α)) (k k' : κ) (a : α)
    (h : k' ≠ k) : alookup (aset l k a) k' = alookup l k' := by
  induction l with
  | nil => simp [aset, alookup, Ne.symm h]
  | cons p rest ih =>
    by_cases hp : p.1 = k
    · simp [aset, hp, alookup, Ne.symm h]
    · simp [aset, hp, alookup, ih]

theorem aset_absent {κ α : Type} [DecidableEq κ] (l : List (κ × α)) (k : κ) (a : α)
    (h : alookup l k = none) : aset l k a = l ++ [(k, a)] := by
  induction l with
  | nil => simp [aset]
  | cons p rest ih =>
    by_cases hp : p.1 = k
    · simp [alookup, hp] at h
    · simp [alookup, hp] at h
      simp [aset, hp, ih h]

theorem alookup_aerase_self {κ α : Type} [DecidableEq κ] (l : List (κ × α)) (k : κ) :
    alookup (aerase l k) k = none := by
  induction l with
  | nil => simp [aerase, alookup]
  | cons p rest ih =>
    by_cases hp : p.1 = k
    · simp [aerase, hp, ih]
    · simp [aerase, hp, alookup, hp, ih]

theorem alookup_aerase_ne {κ α : Type} [DecidableEq κ] (l : List (κ × α)) (k k' : κ)
    (h : k' ≠ k) : alookup (aerase l k) k' = alookup l k' := by
  induction l with
  | nil => simp [aerase]
  | cons p rest ih =>
    by_cases hp : p.1 = k
    · simp [aerase, hp, alookup, Ne.symm h, ih]
    · simp [aerase, hp, alookup, ih]

theorem alookup_mem {κ α : Type} [DecidableEq κ] (l : List (κ × α)) (k : κ) (a : α)
    (h : alookup l k = some a) : (k, a) ∈ l := by
  induction l with
  | nil => simp [alookup] at h
  | cons p rest ih =>
    by_cases hp : p.1 = k
    · simp [alookup, hp] at h
      have hpe : p = (k, a) := by
        cases p
        simp_all
      rw [← hpe]
      exact List.mem_cons_self _ _
    · simp [alookup, hp] at h
      exact List.mem_cons_of_mem _ (ih h)

theorem aset_length_absent {κ α : Type} [DecidableEq κ] (l : List (κ × α)) (k : κ) (a : α)
    (h : alookup l k = none) : (aset l k a).length = l.length + 1 := by
  rw [aset_absent l k a h]
  simp

theorem aset_length_present {κ α : Type} [DecidableEq κ] (l : List (κ × α)) (k : κ) (a b : α)
    (h : alookup l k = some b) : (aset l k a).length = l.length := by
  induction l with
  | nil => simp [alookup] at h
  | cons p rest ih =>
    by_cases hp : p.1 = k
    · simp [aset, hp]
    · simp [alookup, hp] at h
      simp [aset, hp, ih h]

theorem mem_aset {κ α : Type} [DecidableEq κ] (l : List (κ × α)) (k : κ) (a : α)
    (q : κ × α) (h : q ∈ aset l k a) : q = (k, a) ∨ q ∈ l := by
  induction l with
  | nil => simpa [aset] using h
  | cons p rest ih =>
    by_cases hp : p.1 = k
    · rcases (by simpa [aset, hp] using h : q = (k, a) ∨ q ∈ rest) with h1 | h1
      · exact Or.inl h1
      · exact Or.inr (List.mem_cons_of_mem _ h1)
    · rcases (by simpa [aset, hp] using h : q = p ∨ q ∈ aset rest k a) with h1 | h1
      · exact Or.inr (by simp [h1])
      · rcases ih h1 with h2 | h2
        · exact Or.inl h2
        · exact Or.inr (List.mem_cons_of_mem _ h2)

theorem mem_aerase {κ α : Type} [DecidableEq κ] (l : List (κ × α)) (k : κ)
    (q : κ × α) (h : q ∈ aerase l k) : q ∈ l := by
  induction l with
  | nil => simp [aerase] at h
  | cons p rest ih =>
    by_cases hp : p.1 = k
    · simp [aerase, hp] at h
      exact List.mem_cons_of_mem _ (ih h)
    · rcases (by simpa [aerase, hp] using h : q = p ∨ q ∈ aerase rest k) with h1 | h1
      · exact by simp [h1]
      · exact List.mem_cons_of_mem _ (ih h1)

theorem alookup_none_iff {κ α : Type} [DecidableEq κ] (l : List (κ × α)) (k : κ) :
    alookup l k = none ↔ ∀ q ∈ l, q.1 ≠ k := by
  induction l with
  | nil => simp [alookup]
  | cons p rest ih =>
    by_cases hp : p.1 = k
    · constructor
      · intro h
        simp [alookup, hp] at h
      · intro h
        exact absurd hp (h p (List.mem_cons_self _ _))
    · simp [alookup, hp, ih]

theorem aerase_absent {κ α : Type} [DecidableEq κ] (l : List (κ × α)) (k : κ)
    (h : alookup l k = none) : aerase l k = l := by
  induction l with
  | nil => simp [aerase]
  | cons p rest ih =>
    by_cases hp : p.1 = k
    · simp [alookup, hp] at h
    · simp [alookup, hp] at h
      simp [aerase, hp, ih h]

theorem nodupKeysB_aset {α : Type} (l : List (Nat × α)) (k : Nat) (a : α)
    (h : nodupKeysB l = true) : nodupKeysB (aset l k a) = true := by
  induction l with
  | nil => simp [aset, nodupKeysB]
  | cons p rest ih =>
    simp only [nodupKeysB, Bool.and_eq_true, List.all_eq_true] at h
    obtain ⟨h1, h2⟩ := h
    by_cases hp : p.1 = k
    · simp only [aset, if_pos hp, nodupKeysB, Bool.and_eq_true, List.all_eq_true]
      refine ⟨?_, h2⟩
      intro q hq
      simpa [← hp] using h1 q hq
    · simp only [aset, if_neg hp, nodupKeysB, Bool.and_eq_true, List.all_eq_true]
      refine ⟨?_, ih h2⟩
      intro q hq
      rcases mem_aset rest k a q hq with h3 | h3
      · simp only [h3, bne_iff_ne]
        exact fun he => hp he.symm
      · exact h1 q h3

theorem nodupKeysB_aerase {α : Type} (l : List (Nat × α)) (k : Nat)
    (h : nodupKeysB l = true) : nodupKeysB (aerase l k) = true := by
  induction l with
  | nil => simp [aerase, nodupKeysB]
  | cons p rest ih =>
    simp only [nodupKeysB, Bool.and_eq_true, List.all_eq_true] at h
    obtain ⟨h1, h2⟩ := h
    by_cases hp : p.1 = k
    · simp only [aerase, if_pos hp]
      exact ih h2
    · simp only [aerase, if_neg hp, nodupKeysB, Bool.and_eq_true, List.all_eq_true]
      exact ⟨fun q hq => h1 q (mem_aerase rest k q hq), ih h2⟩

theorem aerase_length {α : Type} (l : List (Nat × α)) (k : Nat) (a : α)
    (hnd : nodupKeysB l = true) (h : alookup l k = some a) :
    (aerase l k).length + 1 = l.length := by
  induction l with
  | nil => simp [alookup] at h
  | cons p rest ih =>
    simp only [nodupKeysB, Bool.and_eq_true, List.all_eq_true] at hnd
    obtain ⟨h1, h2⟩ := hnd
    by_cases hp : p.1 = k
    · have hnone : alookup rest k = none := by
        rw [alookup_none_iff]
        intro q hq
        rw [← hp]
        simpa using h1 q hq
      simp [aerase, hp, aerase_absent rest k hnone]
    · simp [alookup, hp] at h
      have := ih h2 h
      simp only [aerase, if_neg hp, List.length_cons]
      omega

/-! ### Field behavior of the primitive state operations -/

theorem alookup_mapSnd {α β : Type} (l : List (Nat × α)) (g : α → β) (k : Nat) :
    alookup (l.map (fun p => (p.1, g p.2))) k = (alookup l k).map g := by
  induction l with
  | nil => simp [alookup]
  | cons p rest ih =>
    by_cases hp : p.1 = k
    · simp [alookup, hp]
    · simp [alookup, hp, ih]

theorem updValue_nodes (st : State) (v : Nat) (f : ValueData → ValueData) :
    (updValue st v f).nodes = st.nodes := by
  unfold updValue
  cases alookup st.values v <;> rfl

theorem updValue_blocksT (st : State) (v : Nat) (f : ValueData → ValueData) :
    (updValue st v f).blocksT = st.blocksT := by
  unfold updValue
  cases alookup st.values v <;> rfl

theorem updValue_vmap (st : State) (v : Nat) (f : ValueData → ValueData) :
    (updValue st v f).vmap = st.vmap := by
  unfold updValue
  cases alookup st.values v <;> rfl

theorem updValue_rootBlock (st : State) (v : Nat) (f : ValueData → ValueData) :
    (updValue st v f).rootBlock = st.rootBlock := by
  unfold updValue
  cases alookup st.values v <;> rfl

theorem updValue_freshNode (st : State) (v : Nat) (f : ValueData → ValueData) :
    (updValue st v f).freshNode = st.freshNode := by
  unfold updValue
  cases alookup st.values v <;> rfl

theorem updValue_freshValue (st : State) (v : Nat) (f : ValueData → ValueData) :
    (updValue st v f).freshValue = st.freshValue := by
  unfold updValue
  cases alookup st.values v <;> rfl

theorem alookup_updValue_self (st : State) (v : Nat) (f : ValueData → ValueData)
    (vd : ValueData) (h : alookup st.values v = some vd) :
    alookup (updValue st v f).values v = some (f vd) := by
  unfold updValue
  rw [h]
  exact alookup_aset_self _ _ _

theorem alookup_updValue_ne (st : State) (v v' : Nat) (f : ValueData → ValueData)
    (h : v' ≠ v) : alookup (updValue st v f).values v' = alookup st.values v' := by
  unfold updValue
  cases he : alookup st.values v with
  | none => rfl
  | some vd => exact alookup_aset_ne _ _ _ _ h

theorem updValue_absent (st : State) (v : Nat) (f : ValueData → ValueData)
    (h : alookup st.values v = none) : updValue st v f = st := by
  unfold updValue
  rw [h]

theorem updNode_values (st : State) (n : Nat) (f : NodeData → NodeData) :
    (updNode st n f).values = st.values := by
  unfold updNode
  cases alookup st.nodes n <;> rfl

theorem updNode_blocksT (st : State) (n : Nat) (f : NodeData → NodeData) :
    (updNode st n f).blocksT = st.blocksT := by
  unfold updNode
  cases alookup st.nodes n <;> rfl

theorem updNode_vmap (st : State) (n : Nat) (f : NodeData → NodeData) :
    (updNode st n f).vmap = st.vmap := by
  unfold updNode
  cases alookup st.nodes n <;> rfl

theorem updNode_rootBlock (st : State) (n : Nat) (f : NodeData → NodeData) :
    (updNode st n f).rootBlock = st.rootBlock := by
  unfold updNode
  cases alookup st.nodes n <;> rfl

theorem updNode_freshNode (st : State) (n : Nat) (f : NodeData → NodeData) :
    (updNode st n f).freshNode = st.freshNode := by
  unfold updNode
  cases alookup st.nodes n <;> rfl

theorem updNode_freshValue (st : State) (n : Nat) (f : NodeData → NodeData) :
    (updNode st n f).freshValue = st.freshValue := by
  unfold updNode
  cases alookup st.nodes n <;> rfl

theorem alookup_updNode_self (st : State) (n : Nat) (f : NodeData → NodeData)
    (nd : NodeData) (h : alookup st.nodes n = some nd) :
    alookup (updNode st n f).nodes n = some (f nd) := by
  unfold updNode
  rw [h]
  exact alookup_aset_self _ _ _

theorem alookup_updNode_ne (st : State) (n n' : Nat) (f : NodeData → NodeData)
    (h : n' ≠ n) : alookup (updNode st n f).nodes n' = alookup st.nodes n' := by
  unfold updNode
  cases he : alookup st.nodes n with
  | none => rfl
  | some nd => exact alookup_aset_ne _ _ _ _ h

theorem updNode_absent (st : State) (n : Nat) (f : NodeData → NodeData)
    (h : alookup st.nodes n = none) : updNode st n f = st := by
  unfold updNode
  rw [h]

theorem createConv_nodes (st : State) :
    (createConv st).nodes =
      aset st.nodes st.freshNode ⟨Kind.conv, [], [st.freshValue], [], []⟩ := rfl

theorem createConv_values (st : State) :
    (createConv st).values =
      aset st.values st.freshValue ⟨Definer.byNode st.freshNode 0, none, []⟩ := rfl

theorem createConv_blocksT (st : State) : (createConv st).blocksT = st.blocksT := rfl

theorem createConv_vmap (st : State) : (createConv st).vmap = st.vmap := rfl

theorem createConv_rootBlock (st : State) : (createConv st).rootBlock = st.rootBlock := rfl

theorem createConv_freshNode (st : State) : (createConv st).freshNode = st.freshNode + 1 := rfl

theorem createConv_freshValue (st : State) : (createConv st).freshValue = st.freshValue + 1 := rfl

theorem insertBeforeOp_nodes (st : State) (bn nid : Nat) :
    (insertBeforeOp st bn nid).nodes = st.nodes := rfl

theorem insertBeforeOp_values (st : State) (bn nid : Nat) :
    (insertBeforeOp st bn nid).values = st.values := rfl

theorem insertBeforeOp_vmap (st : State) (bn nid : Nat) :
    (insertBeforeOp st bn nid).vmap = st.vmap := rfl

theorem insertBeforeOp_rootBlock (st : State) (bn nid : Nat) :
    (insertBeforeOp st bn nid).rootBlock = st.rootBlock := rfl

theorem insertBeforeOp_freshNode (st : State) (bn nid : Nat) :
    (insertBeforeOp st bn nid).freshNode = st.freshNode := rfl

theorem insertBeforeOp_freshValue (st : State) (bn nid : Nat) :
    (insertBeforeOp st bn nid).freshValue = st.freshValue := rfl

theorem alookup_insertBeforeOp (st : State) (bn nid b : Nat) :
    alookup (insertBeforeOp st bn nid).blocksT b =
      (alookup st.blocksT b).map
        (fun bd => { bd with nodes := insertBeforeList bd.nodes bn nid }) := by
  simp only [insertBeforeOp]
  exact alookup_mapSnd st.blocksT
    (fun bd => { bd with nodes := insertBeforeList bd.nodes bn nid }) b

theorem addInputOp_vmap (st : State) (n v : Nat) :
    (addInputOp st n v).vmap = st.vmap := by
  unfold addInputOp
  cases alookup st.nodes n
  · rfl
  · rw [updValue_vmap]

theorem addInputOp_blocksT (st : State) (n v : Nat) :
    (addInputOp st n v).blocksT = st.blocksT := by
  unfold addInputOp
  cases alookup st.nodes n
  · rfl
  · rw [updValue_blocksT]

theorem addInputOp_rootBlock (st : State) (n v : Nat) :
    (addInputOp st n v).rootBlock = st.rootBlock := by
  unfold addInputOp
  cases alookup st.nodes n
  · rfl
  · rw [updValue_rootBlock]

theorem addInputOp_freshNode (st : State) (n v : Nat) :
    (addInputOp st n v).freshNode = st.freshNode := by
  unfold addInputOp
  cases alookup st.nodes n
  · rfl
  · rw [updValue_freshNode]

theorem addInputOp_freshValue (st : State) (n v : Nat) :
    (addInputOp st n v).freshValue = st.freshValue := by
  unfold addInputOp
  cases alookup st.nodes n
  · rfl
  · rw [updValue_freshValue]

theorem addInputOp_some (st : State) (n v : Nat) (nd : NodeData)
    (h : alookup st.nodes n = some nd) :
    addInputOp st n v =
      updValue { st with nodes := aset st.nodes n { nd with inputs := nd.inputs ++ [v] } }
        v (fun vd => { vd with uses := vd.uses ++ [(n, nd.inputs.length)] }) := by
  unfold addInputOp
  rw [h]

theorem addBlockInputOp_nodes (st : State) (b : Nat) :
    (addBlockInputOp st b).nodes = st.nodes := by
  unfold addBlockInputOp
  cases alookup st.blocksT b <;> rfl

theorem addBlockInputOp_vmap (st : State) (b : Nat) :
    (addBlockInputOp st b).vmap = st.vmap := by
  unfold addBlockInputOp
  cases alookup st.blocksT b <;> rfl

theorem addBlockInputOp_rootBlock (st : State) (b : Nat) :
    (addBlockInputOp st b).rootBlock = st.rootBlock := by
  unfold addBlockInputOp
  cases alookup st.blocksT b <;> rfl

theorem addBlockInputOp_freshNode (st : State) (b : Nat) :
    (addBlockInputOp st b).freshNode = st.freshNode := by
  unfold addBlockInputOp
  cases alookup st.blocksT b <;> rfl

theorem addBlockInputOp_freshValue (st : State) (b : Nat) :
    (addBlockInputOp st b).freshValue = st.freshValue + 1 := by
  unfold addBlockInputOp
  cases alookup st.blocksT b <;> rfl

theorem addBlockInputOp_values (st : State) (b : Nat) :
    (addBlockInputOp st b).values =
      aset st.values st.freshValue ⟨Definer.byBlock b, none, []⟩ := by
  unfold addBlockInputOp
  cases alookup st.blocksT b <;> rfl

theorem alookup_addBlockInputOp_self (st : State) (b : Nat) (bd : BlockData)
    (h : alookup st.blocksT b = some bd) :
    alookup (addBlockInputOp st b).blocksT b =
      some { bd with binputs := bd.binputs ++ [st.freshValue] } := by
  unfold addBlockInputOp
  rw [h]
  exact alookup_aset_self _ _ _

theorem alookup_addBlockInputOp_ne (st : State) (b b' : Nat) (h : b' ≠ b) :
    alookup (addBlockInputOp st b).blocksT b' = alookup st.blocksT b' := by
  unfold addBlockInputOp
  cases he : alookup st.blocksT b
  · rfl
  · exact alookup_aset_ne _ _ _ _ h

theorem mapInsert_nodes (st : State) (v : Nat) (t : Tensor) :
    (mapInsert st v t).nodes = st.nodes := by
  unfold mapInsert
  cases alookup st.vmap v <;> rfl

theorem mapInsert_values (st : State) (v : Nat) (t : Tensor) :
    (mapInsert st v t).values = st.values := by
  unfold mapInsert
  cases alookup st.vmap v <;> rfl

theorem mapInsert_blocksT (st : State) (v : Nat) (t : Tensor) :
    (mapInsert st v t).blocksT = st.blocksT := by
  unfold mapInsert
  cases alookup st.vmap v <;> rfl

theorem mapInsert_rootBlock (st : State) (v : Nat) (t : Tensor) :
    (mapInsert st v t).rootBlock = st.rootBlock := by
  unfold mapInsert
  cases alookup st.vmap v <;> rfl

theorem mapInsert_freshNode (st : State) (v : Nat) (t : Tensor) :
    (mapInsert st v t).freshNode = st.freshNode := by
  unfold mapInsert
  cases alookup st.vmap v <;> rfl

theorem mapInsert_freshValue (st : State) (v : Nat) (t : Tensor) :
    (mapInsert st v t).freshValue = st.freshValue := by
  unfold mapInsert
  cases alookup st.vmap v <;> rfl

theorem alookup_mapInsert_preserve (st : State) (v v' : Nat) (t : Tensor) (p : Nat × Tensor)
    (h : alookup st.vmap v' = some p) :
    alookup (mapInsert st v t).vmap v' = some p := by
  unfold mapInsert
  cases he : alookup st.vmap v with
  | some q => exact h
  | none =>
    have hne : v ≠ v' := fun heq => by rw [heq, h] at he; cases he
    simpa [alookup, hne] using h

theorem alookup_mapInsert_absent (st : State) (v : Nat) (t : Tensor)
    (h : alookup st.vmap v = none) :
    alookup (mapInsert st v t).vmap v = some (v, t) := by
  unfold mapInsert
  rw [h]
  simp [alookup]

theorem setInputAt_values (st : State) (n i v : Nat) :
    (setInputAt st n i v).values = st.values := by
  unfold setInputAt
  rw [updNode_values]

theorem setInputAt_blocksT (st : State) (n i v : Nat) :
    (setInputAt st n i v).blocksT = st.blocksT := by
  unfold setInputAt
  rw [updNode_blocksT]

theorem setInputAt_vmap (st : State) (n i v : Nat) :
    (setInputAt st n i v).vmap = st.vmap := by
  unfold setInputAt
  rw [updNode_vmap]

theorem setInputAt_rootBlock (st : State) (n i v : Nat) :
    (setInputAt st n i v).rootBlock = st.rootBlock := by
  unfold setInputAt
  rw [updNode_rootBlock]

theorem setInputAt_freshNode (st : State) (n i v : Nat) :
    (setInputAt st n i v).freshNode = st.freshNode := by
  unfold setInputAt
  rw [updNode_freshNode]

theorem setInputAt_freshValue (st : State) (n i v : Nat) :
    (setInputAt st n i v).freshValue = st.freshValue := by
  unfold setInputAt
  rw [updNode_freshValue]

theorem foldSet_values (us : List (Nat × Nat)) (st : State) (nv : Nat) :
    (us.foldl (fun s p => setInputAt s p.1 p.2 nv) st).values = st.values := by
  induction us generalizing st with
  | nil => rfl
  | cons p rest ih => rw [List.foldl_cons, ih, setInputAt_values]

theorem foldSet_blocksT (us : List (Nat × Nat)) (st : State) (nv : Nat) :
    (us.foldl (fun s p => setInputAt s p.1 p.2 nv) st).blocksT = st.blocksT := by
  induction us generalizing st with
  | nil => rfl
  | cons p rest ih => rw [List.foldl_cons, ih, setInputAt_blocksT]

theorem foldSet_vmap (us : List (Nat × Nat)) (st : State) (nv : Nat) :
    (us.foldl (fun s p => setInputAt s p.1 p.2 nv) st).vmap = st.vmap := by
  induction us generalizing st with
  | nil => rfl
  | cons p rest ih => rw [List.foldl_cons, ih, setInputAt_vmap]

theorem foldSet_rootBlock (us : List (Nat × Nat)) (st : State) (nv : Nat) :
    (us.foldl (fun s p => setInputAt s p.1 p.2 nv) st).rootBlock = st.rootBlock := by
  induction us generalizing st with
  | nil => rfl
  | cons p rest ih => rw [List.foldl_cons, ih, setInputAt_rootBlock]

theorem foldSet_freshNode (us : List (Nat × Nat)) (st : State) (nv : Nat) :
    (us.foldl (fun s p => setInputAt s p.1 p.2 nv) st).freshNode = st.freshNode := by
  induction us generalizing st with
  | nil => rfl
  | cons p rest ih => rw [List.foldl_cons, ih, setInputAt_freshNode]

theorem foldSet_freshValue (us : List (Nat × Nat)) (st : State) (nv : Nat) :
    (us.foldl (fun s p => setInputAt s p.1 p.2 nv) st).freshValue = st.freshValue := by
  induction us generalizing st with
  | nil => rfl
  | cons p rest ih => rw [List.foldl_cons, ih, setInputAt_freshValue]

theorem replaceAllUses_vmap (st : State) (old nv : Nat) :
    (replaceAllUses st old nv).vmap = st.vmap := by
  unfold replaceAllUses
  rw [updValue_vmap, updValue_vmap, foldSet_vmap]

theorem replaceAllUses_blocksT (st : State) (old nv : Nat) :
    (replaceAllUses st old nv).blocksT = st.blocksT := by
  unfold replaceAllUses
  rw [updValue_blocksT, updValue_blocksT, foldSet_blocksT]

theorem replaceAllUses_rootBlock (st : State) (old nv : Nat) :
    (replaceAllUses st old nv).rootBlock = st.rootBlock := by
  unfold replaceAllUses
  rw [updValue_rootBlock, updValue_rootBlock, foldSet_rootBlock]

theorem replaceAllUses_freshNode (st : State) (old nv : Nat) :
    (replaceAllUses st old nv).freshNode = st.freshNode := by
  unfold replaceAllUses
  rw [updValue_freshNode, updValue_freshNode, foldSet_freshNode]

theorem replaceAllUses_freshValue (st : State) (old nv : Nat) :
    (replaceAllUses st old nv).freshValue = st.freshValue := by
  unfold replaceAllUses
  rw [updValue_freshValue, updValue_freshValue, foldSet_freshValue]

theorem foldErase_nodes (l : List (Nat × Nat)) (st : State) (n : Nat) :
    (l.foldl (fun s p => updValue s p.2 (fun vd => { vd with uses := removeFirstPair vd.uses (n, p.1) })) st).nodes
      = st.nodes := by
  induction l generalizing st with
  | nil => rfl
  | cons p rest ih => rw [List.foldl_cons, ih, updValue_nodes]

theorem foldErase_blocksT (l : List (Nat × Nat)) (st : State) (n : Nat) :
    (l.foldl (fun s p => updValue s p.2 (fun vd => { vd with uses := removeFirstPair vd.uses (n, p.1) })) st).blocksT
      = st.blocksT := by
  induction l generalizing st with
  | nil => rfl
  | cons p rest ih => rw [List.foldl_cons, ih, updValue_blocksT]

theorem foldErase_vmap (l : List (Nat × Nat)) (st : State) (n : Nat) :
    (l.foldl (fun s p => updValue s p.2 (fun vd => { vd with uses := removeFirstPair vd.uses (n, p.1) })) st).vmap
      = st.vmap := by
  induction l generalizing st with
  | nil => rfl
  | cons p rest ih => rw [List.foldl_cons, ih, updValue_vmap]

theorem foldErase_rootBlock (l : List (Nat × Nat)) (st : State) (n : Nat) :
    (l.foldl (fun s p => updValue s p.2 (fun vd => { vd with uses := removeFirstPair vd.uses (n, p.1) })) st).rootBlock
      = st.rootBlock := by
  induction l generalizing st with
  | nil => rfl
  | cons p rest ih => rw [List.foldl_cons, ih, updValue_rootBlock]

theorem foldErase_freshNode (l : List (Nat × Nat)) (st : State) (n : Nat) :
    (l.foldl (fun s p => updValue s p.2 (fun vd => { vd with uses := removeFirstPair vd.uses (n, p.1) })) st).freshNode
      = st.freshNode := by
  induction l generalizing st with
  | nil => rfl
  | cons p rest ih => rw [List.foldl_cons, ih, updValue_freshNode]

theorem foldErase_freshValue (l : List (Nat × Nat)) (st : State) (n : Nat) :
    (l.foldl (fun s p => updValue s p.2 (fun vd => { vd with uses := removeFirstPair vd.uses (n, p.1) })) st).freshValue
      = st.freshValue := by
  induction l generalizing st with
  | nil => rfl
  | cons p rest ih => rw [List.foldl_cons, ih, updValue_freshValue]

theorem destroyNode_vmap (st : State) (n : Nat) :
    (destroyNode st n).vmap = st.vmap := by
  unfold destroyNode
  cases alookup st.nodes n
  · rfl
  · simp only []
    rw [foldErase_vmap]

theorem destroyNode_rootBlock (st : State) (n : Nat) :
    (destroyNode st n).rootBlock = st.rootBlock := by
  unfold destroyNode
  cases alookup st.nodes n
  · rfl
  · simp only []
    rw [foldErase_rootBlock]

theorem destroyNode_freshNode (st : State) (n : Nat) :
    (destroyNode st n).freshNode = st.freshNode := by
  unfold destroyNode
  cases alookup st.nodes n
  · rfl
  · simp only []
    rw [foldErase_freshNode]

theorem destroyNode_freshValue (st : State) (n : Nat) :
    (destroyNode st n).freshValue = st.freshValue := by
  unfold destroyNode
  cases alookup st.nodes n
  · rfl
  · simp only []
    rw [foldErase_freshValue]

theorem destroyNode_nodes_some (st : State) (n : Nat) (nd : NodeData)
    (h : alookup st.nodes n = some nd) :
    (destroyNode st n).nodes = aerase st.nodes n := by
  unfold destroyNode
  rw [h]
  simp only []
  rw [foldErase_nodes]

/-! ### Counting occurrences

All multiset reasoning about use lists goes through `pcount`, a multiplicity
function with one fixed `BEq` instance, so that counting lemmas from
different libraries cannot disagree about instances. -/

/-- Multiplicity of a (node, position) pair in a list of pairs (defined
structurally, independent of any equality type-class instance). -/
def pcount (p : Nat × Nat) : List (Nat × Nat) → Nat
  | [] => 0
  | q :: l => pcount p l + if q = p then 1 else 0

theorem pcount_nil (p : Nat × Nat) : pcount p [] = 0 := rfl

theorem pcount_cons (p x : Nat × Nat) (l : List (Nat × Nat)) :
    pcount p (x :: l) = pcount p l + if x = p then 1 else 0 := rfl

theorem pcount_append (p : Nat × Nat) (l1 l2 : List (Nat × Nat)) :
    pcount p (l1 ++ l2) = pcount p l1 + pcount p l2 := by
  induction l1 with
  | nil => simp [pcount_nil]
  | cons x xs ih =>
    rw [List.cons_append, pcount_cons, pcount_cons, ih]
    omega

theorem pcount_pos_iff (p : Nat × Nat) (l : List (Nat × Nat)) :
    0 < pcount p l ↔ p ∈ l := by
  induction l with
  | nil => simp [pcount_nil]
  | cons q rest ih =>
    rw [pcount_cons]
    constructor
    · intro h
      by_cases hq : q = p
      · rw [hq]
        exact List.mem_cons_self _ _
      · rw [if_neg hq, Nat.add_zero] at h
        exact List.mem_cons_of_mem _ (ih.mp h)
    · intro h
      rcases List.mem_cons.mp h with h1 | h1
      · rw [if_pos h1.symm]
        omega
      · have := ih.mpr h1
        omega

theorem pcount_removeFirstPair (p a : Nat × Nat) (l : List (Nat × Nat)) :
    pcount p (removeFirstPair l a) =
      if a = p ∧ a ∈ l then pcount p l - 1 else pcount p l := by
  induction l with
  | nil => simp [removeFirstPair]
  | cons q rest ih =>
    by_cases hq : q = a
    · have hr : removeFirstPair (q :: rest) a = rest := by
        unfold removeFirstPair
        rw [if_pos hq]
      rw [hr]
      by_cases hap : a = p
      · have hc : a = p ∧ a ∈ q :: rest := by
          refine ⟨hap, ?_⟩
          rw [← hq]
          exact List.mem_cons_self _ _
        rw [if_pos hc, pcount_cons, if_pos (hq.trans hap)]
        omega
      · have hc : ¬ (a = p ∧ a ∈ q :: rest) := by
          rintro ⟨h1, _⟩
          exact hap h1
        have hqp : ¬ (q = p) := by
          intro h1
          exact hap (hq.symm.trans h1)
        rw [if_neg hc, pcount_cons, if_neg hqp]
        omega
    · have hr : removeFirstPair (q :: rest) a = q :: removeFirstPair rest a := by
        show (if q = a then rest else q :: removeFirstPair rest a) = q :: removeFirstPair rest a
        rw [if_neg hq]
      rw [hr, pcount_cons, ih, pcount_cons]
      by_cases hmem : a = p ∧ a ∈ rest
      · have hpos : 0 < pcount p rest := by
          have h1 := (pcount_pos_iff a rest).mpr hmem.2
          rw [hmem.1] at h1
          exact h1
        have hc : a = p ∧ a ∈ q :: rest := ⟨hmem.1, List.mem_cons_of_mem _ hmem.2⟩
        rw [if_pos hmem, if_pos hc]
        omega
      · have hc2 : ¬ (a = p ∧ a ∈ q :: rest) := by
          rintro ⟨h1, h2⟩
          rcases List.mem_cons.mp h2 with h3 | h3
          · exact hq h3.symm
          · exact hmem ⟨h1, h3⟩
        rw [if_neg hmem, if_neg hc2]

theorem pcount_eq_zero_of_not_mem (p : Nat × Nat) (l : List (Nat × Nat))
    (h : ¬ p ∈ l) : pcount p l = 0 := by
  by_cases h0 : pcount p l = 0
  · exact h0
  · exact absurd ((pcount_pos_iff p l).mp (by omega)) h

theorem Perm.pcount_congr (l1 l2 : List (Nat × Nat)) (h : List.Perm l1 l2)
    (p : Nat × Nat) : pcount p l1 = pcount p l2 := by
  induction h with
  | nil => rfl
  | cons x _ ih => rw [pcount_cons, pcount_cons, ih]
  | swap x y l =>
    rw [pcount_cons, pcount_cons, pcount_cons, pcount_cons]
    omega
  | trans _ _ ih1 ih2 => rw [ih1, ih2]

theorem perm_of_pcount (l1 l2 : List (Nat × Nat))
    (h : ∀ p, pcount p l1 = pcount p l2) : List.Perm l1 l2 := by
  induction l1 generalizing l2 with
  | nil =>
    cases l2 with
    | nil => exact List.Perm.refl _
    | cons q t =>
      have h1 := h q
      rw [pcount_nil, pcount_cons, if_pos rfl] at h1
      omega
  | cons x t ih =>
    have hx : x ∈ l2 := by
      have h1 := h x
      rw [pcount_cons, if_pos rfl] at h1
      exact (pcount_pos_iff x l2).mp (by omega)
    obtain ⟨s1, s2, rfl⟩ := List.append_of_mem hx
    have hmid : List.Perm (s1 ++ x :: s2) (x :: (s1 ++ s2)) :=
      List.perm_middle
    have hrest : ∀ p, pcount p t = pcount p (s1 ++ s2) := by
      intro p
      have h1 := h p
      have h2 := Perm.pcount_congr _ _ hmid p
      rw [pcount_cons] at h1 h2
      rw [h2] at h1
      omega
    exact ((ih _ hrest).cons x).trans hmid.symm

theorem perm_iff_pcount (l1 l2 : List (Nat × Nat)) :
    List.Perm l1 l2 ↔ ∀ p, pcount p l1 = pcount p l2 :=
  ⟨fun h p => Perm.pcount_congr l1 l2 h p, perm_of_pcount l1 l2⟩

theorem nodup_of_pcount_le_one (l : List (Nat × Nat))
    (h : ∀ p, pcount p l ≤ 1) : l.Nodup := by
  induction l with
  | nil => exact List.nodup_nil
  | cons x xs ih =>
    rw [List.nodup_cons]
    constructor
    · intro hmem
      have h1 := h x
      rw [pcount_cons, if_pos rfl] at h1
      have h2 := (pcount_pos_iff x xs).mpr hmem
      omega
    · refine ih (fun p => ?_)
      have h1 := h p
      rw [pcount_cons] at h1
      omega

theorem pcount_nodup (l : List (Nat × Nat)) (hnd : l.Nodup) (p : Nat × Nat) :
    pcount p l = if p ∈ l then 1 else 0 := by
  induction l with
  | nil => simp [pcount_nil]
  | cons x xs ih =>
    obtain ⟨hx, hxs⟩ := List.nodup_cons.mp hnd
    rw [pcount_cons, ih hxs]
    by_cases hpx : x = p
    · subst hpx
      rw [if_neg hx, if_pos (List.mem_cons_self _ _), if_pos rfl]
    · rw [if_neg hpx, Nat.add_zero]
      by_cases hm : p ∈ xs
      · rw [if_pos hm, if_pos (List.mem_cons_of_mem _ hm)]
      · rw [if_neg hm, if_neg (by
          intro hc
          rcases List.mem_cons.mp hc with hc1 | hc1
          · exact hpx hc1.symm
          · exact hm hc1)]

theorem pcount_slots_from (n v : Nat) (p : Nat × Nat) (inputs : List Nat) (k : Nat) :
    pcount p ((List.enumFrom k inputs).filterMap
        (fun q => if q.2 = v then some (n, q.1) else none)) =
      if p.1 = n ∧ k ≤ p.2 ∧ inputs.get? (p.2 - k) = some v then 1 else 0 := by
  induction inputs generalizing k with
  | nil => simp [pcount_nil]
  | cons x xs ih =>
    have hstep : List.enumFrom k (x :: xs) = (k, x) :: List.enumFrom (k + 1) xs := rfl
    rw [hstep, List.filterMap_cons]
    rcases Nat.lt_trichotomy p.2 k with hlt | heq | hgt
    · have hnot : ¬ (p.1 = n ∧ k ≤ p.2 ∧ (x :: xs).get? (p.2 - k) = some v) := by
        rintro ⟨_, hk, _⟩
        omega
      have hnot2 : ¬ (p.1 = n ∧ k + 1 ≤ p.2 ∧ xs.get? (p.2 - (k + 1)) = some v) := by
        rintro ⟨_, hk, _⟩
        omega
      by_cases hx : x = v
      · simp only [if_pos hx]
        rw [pcount_cons, ih (k + 1), if_neg hnot2, if_neg hnot]
        have hne : ((n, k) : Nat × Nat) ≠ p := by
          intro he
          rw [← he] at hlt
          simp at hlt
        simp [hne]
      · simp only [if_neg hx]
        rw [ih (k + 1), if_neg hnot2, if_neg hnot]
    · have hd : p.2 - k = 0 := by omega
      have hget : (x :: xs).get? (p.2 - k) = some x := by
        rw [hd]
        rfl
      have hnot2 : ¬ (p.1 = n ∧ k + 1 ≤ p.2 ∧ xs.get? (p.2 - (k + 1)) = some v) := by
        rintro ⟨_, hk, _⟩
        omega
      by_cases hx : x = v
      · simp only [if_pos hx]
        rw [pcount_cons, ih (k + 1), if_neg hnot2]
        by_cases hpn : p.1 = n
        · have hc : p.1 = n ∧ k ≤ p.2 ∧ (x :: xs).get? (p.2 - k) = some v := by
            refine ⟨hpn, by omega, ?_⟩
            rw [hget, hx]
          rw [if_pos hc]
          have hpe : p = (n, k) := by
            cases p
            simp_all
          simp [hpe]
        · have hc : ¬ (p.1 = n ∧ k ≤ p.2 ∧ (x :: xs).get? (p.2 - k) = some v) := by
            rintro ⟨h1, _, _⟩
            exact hpn h1
          rw [if_neg hc]
          have hne : ((n, k) : Nat × Nat) ≠ p := by
            intro he
            exact hpn (by rw [← he])
          simp [hne]
      · simp only [if_neg hx]
        rw [ih (k + 1), if_neg hnot2]
        have hc : ¬ (p.1 = n ∧ k ≤ p.2 ∧ (x :: xs).get? (p.2 - k) = some v) := by
          rintro ⟨_, _, hg⟩
          rw [hget] at hg
          exact hx (by injection hg)
        rw [if_neg hc]
    · have hsub : p.2 - k = (p.2 - (k + 1)) + 1 := by omega
      have hget : (x :: xs).get? (p.2 - k) = xs.get? (p.2 - (k + 1)) := by
        rw [hsub]
        rfl
      have hcond : (p.1 = n ∧ k ≤ p.2 ∧ (x :: xs).get? (p.2 - k) = some v) ↔
          (p.1 = n ∧ k + 1 ≤ p.2 ∧ xs.get? (p.2 - (k + 1)) = some v) := by
        rw [hget]
        constructor
        · rintro ⟨h1, _, h3⟩
          exact ⟨h1, by omega, h3⟩
        · rintro ⟨h1, _, h3⟩
          exact ⟨h1, by omega, h3⟩
      by_cases hx : x = v
      · simp only [if_pos hx]
        rw [pcount_cons, ih (k + 1)]
        have hne : ((n, k) : Nat × Nat) ≠ p := by
          intro he
          rw [← he] at hgt
          simp at hgt
        rw [if_congr hcond.symm rfl rfl]
        simp [hne]
      · simp only [if_neg hx]
        rw [ih (k + 1), if_congr hcond.symm rfl rfl]

theorem pcount_slotsOf (n v : Nat) (p : Nat × Nat) (inputs : List Nat) :
    pcount p (slotsOf n inputs v) =
      if p.1 = n ∧ inputs.get? p.2 = some v then 1 else 0 := by
  unfold slotsOf
  unfold List.enum
  rw [pcount_slots_from]
  by_cases h1 : p.1 = n ∧ inputs.get? p.2 = some v
  · rw [if_pos ⟨h1.1, Nat.zero_le _, by simpa using h1.2⟩, if_pos h1]
  · rw [if_neg ?_, if_neg h1]
    rintro ⟨ha, _, hb⟩
    exact h1 ⟨ha, by simpa using hb⟩

theorem occL_cons (q : Nat × NodeData) (rest : List (Nat × NodeData)) (v : Nat) :
    occL (q :: rest) v = slotsOf q.1 q.2.inputs v ++ occL rest v := rfl

theorem pcount_occL (l : List (Nat × NodeData)) (v : Nat) (p : Nat × Nat)
    (hnd : nodupKeysB l = true) :
    pcount p (occL l v) =
      (match alookup l p.1 with
       | some nd => if nd.inputs.get? p.2 = some v then 1 else 0
       | none => 0) := by
  induction l with
  | nil => simp [occL, alookup, pcount_nil]
  | cons q rest ih =>
    simp only [nodupKeysB, Bool.and_eq_true, List.all_eq_true] at hnd
    obtain ⟨h1, h2⟩ := hnd
    rw [occL_cons, pcount_append, pcount_slotsOf, ih h2]
    by_cases hq : q.1 = p.1
    · have hrest : alookup rest p.1 = none := by
        rw [alookup_none_iff]
        intro r hr
        rw [← hq]
        simpa using h1 r hr
      simp [alookup, hq, hrest]
    · have hnq : ¬ (p.1 = q.1 ∧ q.2.inputs.get? p.2 = some v) := by
        rintro ⟨h3, _⟩
        exact hq h3.symm
      simp only [alookup, if_neg hq, if_neg hnq]
      omega

theorem slots_from_not_mem (n v : Nat) (inputs : List Nat) (k : Nat) (h : ¬ v ∈ inputs) :
    (List.enumFrom k inputs).filterMap
        (fun q => if q.2 = v then some (n, q.1) else none) = [] := by
  induction inputs generalizing k with
  | nil => rfl
  | cons x xs ih =>
    have hx : ¬ x = v := fun he => h (by simp [he])
    have hstep : List.enumFrom k (x :: xs) = (k, x) :: List.enumFrom (k + 1) xs := rfl
    rw [hstep, List.filterMap_cons]
    simp only [if_neg hx]
    exact ih (k + 1) (fun hm => h (List.mem_cons_of_mem _ hm))

theorem slotsOf_not_mem (n v : Nat) (inputs : List Nat) (h : ¬ v ∈ inputs) :
    slotsOf n inputs v = [] :=
  slots_from_not_mem n v inputs 0 h

theorem occL_fresh (l : List (Nat × NodeData)) (v : Nat)
    (h : ∀ q ∈ l, ∀ w ∈ q.2.inputs, w < v) : occL l v = [] := by
  induction l with
  | nil => rfl
  | cons q rest ih =>
    rw [occL_cons, slotsOf_not_mem, List.nil_append]
    · exact ih (fun r hr => h r (List.mem_cons_of_mem _ hr))
    · intro hm
      exact absurd rfl (Nat.ne_of_lt (h q (List.mem_cons_self _ _) v hm))

/-- `node->input(i)`: the value in input slot `i` of node `n`. -/
def inputAt (st : State) (n i : Nat) : Option Nat :=
  match alookup st.nodes n with
  | some nd => nd.inputs.get? i
  | none => none

/-- Everything about a node except its input values: used to state that an
operation only rewires inputs in place. -/
def nodeShape (nd : NodeData) : Kind × List Nat × List (String × AttrVal) × List Nat × Nat :=
  (nd.kind, nd.outputs, nd.attrs, nd.blocks, nd.inputs.length)

theorem alookup_setInputAt (st : State) (n i v m : Nat) :
    alookup (setInputAt st n i v).nodes m =
      if m = n then (alookup st.nodes n).map (fun nd => { nd with inputs := nd.inputs.set i v })
      else alookup st.nodes m := by
  unfold setInputAt updNode
  cases he : alookup st.nodes n with
  | none =>
    by_cases hm : m = n
    · simp [hm, he]
    · simp [hm]
  | some nd =>
    by_cases hm : m = n
    · subst hm
      simp [alookup_aset_self, he]
    · simp [hm, alookup_aset_ne st.nodes n m _ hm]

theorem setInputAt_shape (st : State) (n i v m : Nat) :
    (alookup (setInputAt st n i v).nodes m).map nodeShape =
      (alookup st.nodes m).map nodeShape := by
  rw [alookup_setInputAt]
  by_cases hm : m = n
  · subst hm
    cases alookup st.nodes m <;> simp [nodeShape]
  · simp [hm]

theorem inputAt_setInputAt (st : State) (n i v m j : Nat)
    (hvalid : (inputAt st n i).isSome) :
    inputAt (setInputAt st n i v) m j =
      if m = n ∧ j = i then some v else inputAt st m j := by
  unfold inputAt at hvalid ⊢
  rw [alookup_setInputAt]
  by_cases hm : m = n
  · subst hm
    cases he : alookup st.nodes m with
    | none =>
      rw [he] at hvalid
      simp at hvalid
    | some nd =>
      rw [he] at hvalid
      simp only [Option.isSome_iff_exists] at hvalid
      obtain ⟨w, hw⟩ := hvalid
      obtain ⟨hlt, -⟩ := List.get?_eq_some.mp hw
      simp only [eq_self_iff_true, if_true, true_and, Option.map_some']
      by_cases hj : j = i
      · subst hj
        rw [if_pos rfl]
        show (nd.inputs.set j v).get? j = some v
        rw [List.get?_eq_getElem?]
        exact List.getElem?_set_self hlt
      · rw [if_neg hj]
        show (nd.inputs.set i v).get? j = nd.inputs.get? j
        rw [List.get?_eq_getElem?, List.get?_eq_getElem?]
        exact List.getElem?_set_ne (fun hc2 => hj hc2.symm)
  · have hc : ¬ (m = n ∧ j = i) := fun hc => hm hc.1
    rw [if_neg hc, if_neg hm]

theorem foldSet_shape (us : List (Nat × Nat)) (st : State) (nv m : Nat) :
    (alookup (us.foldl (fun s p => setInputAt s p.1 p.2 nv) st).nodes m).map nodeShape =
      (alookup st.nodes m).map nodeShape := by
  induction us generalizing st with
  | nil => rfl
  | cons p rest ih => rw [List.foldl_cons, ih, setInputAt_shape]

theorem foldSet_inputAt (us : List (Nat × Nat)) (st : State) (old nv : Nat)
    (hold : ∀ p ∈ us, inputAt st p.1 p.2 = some old) (hnd : us.Nodup) (m j : Nat) :
    inputAt (us.foldl (fun s p => setInputAt s p.1 p.2 nv) st) m j =
      if (m, j) ∈ us then some nv else inputAt st m j := by
  induction us generalizing st with
  | nil => simp
  | cons p rest ih =>
    rw [List.foldl_cons]
    have hv : (inputAt st p.1 p.2).isSome := by
      rw [hold p (List.mem_cons_self _ _)]
      rfl
    obtain ⟨hpnot, hndr⟩ := List.nodup_cons.mp hnd
    have hold2 : ∀ q ∈ rest, inputAt (setInputAt st p.1 p.2 nv) q.1 q.2 = some old := by
      intro q hq
      rw [inputAt_setInputAt st p.1 p.2 nv q.1 q.2 hv]
      have hqp : ¬ (q.1 = p.1 ∧ q.2 = p.2) := by
        rintro ⟨ha, hb⟩
        have hqe : q = p := by
          cases q
          cases p
          simp_all
        rw [hqe] at hq
        exact hpnot hq
      rw [if_neg hqp]
      exact hold q (List.mem_cons_of_mem _ hq)
    rw [ih _ hold2 hndr]
    rw [inputAt_setInputAt st p.1 p.2 nv m j hv]
    by_cases hmem : (m, j) ∈ rest
    · simp [hmem]
    · rw [if_neg hmem]
      by_cases hp : (m, j) = p
      · have h1 : m = p.1 ∧ j = p.2 := by
          cases p
          exact ⟨congrArg Prod.fst hp, congrArg Prod.snd hp⟩
        rw [if_pos h1, if_pos (by simp [hp])]
      · have h1 : ¬ (m = p.1 ∧ j = p.2) := by
          rintro ⟨ha, hb⟩
          exact hp (by cases p; simp_all)
        rw [if_neg h1, if_neg (by
          intro hmm
          rcases List.mem_cons.mp hmm with h2 | h2
          · exact hp h2
          · exact hmem h2)]

theorem pcount_occList (st : State) (w : Nat) (p : Nat × Nat)
    (hnd : nodupKeysB st.nodes = true) :
    pcount p (occList st w) = if inputAt st p.1 p.2 = some w then 1 else 0 := by
  unfold occList inputAt
  rw [pcount_occL st.nodes w p hnd]
  cases alookup st.nodes p.1 with
  | none => simp
  | some nd => rfl

theorem valueUses_of_none (st : State) (v : Nat) (h : alookup st.values v = none) :
    valueUses st v = [] := by
  unfold valueUses
  rw [h]

theorem valueUses_of_some (st : State) (v : Nat) (vd : ValueData)
    (h : alookup st.values v = some vd) : valueUses st v = vd.uses := by
  unfold valueUses
  rw [h]

theorem valueUses_replaceAllUses_old (st : State) (old nv : Nat) :
    valueUses (replaceAllUses st old nv) old = [] := by
  simp only [replaceAllUses]
  set st1 := (valueUses st old).foldl (fun s p => setInputAt s p.1 p.2 nv) st with hst1
  set st2 := updValue st1 nv (fun vd => { vd with uses := vd.uses ++ valueUses st old }) with hst2
  cases he : alookup st2.values old with
  | none =>
    rw [updValue_absent _ _ _ he]
    exact valueUses_of_none _ _ he
  | some vd =>
    exact valueUses_of_some _ _ _ (alookup_updValue_self _ _ _ _ he)

theorem valueUses_replaceAllUses_new (st : State) (old nv : Nat) (hne : old ≠ nv)
    (vd : ValueData) (h : alookup st.values nv = some vd) :
    valueUses (replaceAllUses st old nv) nv = vd.uses ++ valueUses st old := by
  simp only [replaceAllUses]
  set st1 := (valueUses st old).foldl (fun s p => setInputAt s p.1 p.2 nv) st with hst1
  have h1 : alookup st1.values nv = some vd := by
    rw [hst1, foldSet_values]
    exact h
  set st2 := updValue st1 nv (fun vd => { vd with uses := vd.uses ++ valueUses st old }) with hst2
  have h2 : alookup st2.values nv = some { vd with uses := vd.uses ++ valueUses st old } :=
    alookup_updValue_self _ _ _ _ h1
  have h3 : alookup (updValue st2 old (fun vd => { vd with uses := [] })).values nv =
      some { vd with uses := vd.uses ++ valueUses st old } := by
    rw [alookup_updValue_ne _ _ _ _ (fun he2 => hne he2.symm)]
    exact h2
  exact valueUses_of_some _ _ _ h3

theorem valueUses_replaceAllUses_other (st : State) (old nv w : Nat)
    (hwo : w ≠ old) (hwn : w ≠ nv) :
    valueUses (replaceAllUses st old nv) w = valueUses st w := by
  simp only [replaceAllUses]
  set st1 := (valueUses st old).foldl (fun s p => setInputAt s p.1 p.2 nv) st with hst1
  set st2 := updValue st1 nv (fun vd => { vd with uses := vd.uses ++ valueUses st old }) with hst2
  unfold valueUses
  rw [alookup_updValue_ne _ _ _ _ hwo, hst2, alookup_updValue_ne _ _ _ _ hwn, hst1,
    foldSet_values]

theorem alookup_values_replaceAllUses_isSome (st : State) (old nv w : Nat) :
    (alookup (replaceAllUses st old nv).values w).isSome =
      (alookup st.values w).isSome := by
  simp only [replaceAllUses]
  set st1 := (valueUses st old).foldl (fun s p => setInputAt s p.1 p.2 nv) st with hst1
  have hbase : ∀ u : Nat, alookup st1.values u = alookup st.values u := by
    intro u
    rw [hst1, foldSet_values]
  set st2 := updValue st1 nv (fun vd => { vd with uses := vd.uses ++ valueUses st old }) with hst2
  have h2 : ∀ u : Nat, (alookup st2.values u).isSome = (alookup st.values u).isSome := by
    intro u
    by_cases hu : u = nv
    · subst hu
      cases he : alookup st1.values u with
      | none =>
        rw [hst2, updValue_absent _ _ _ he, he, ← hbase u, he]
      | some vd =>
        rw [hst2, alookup_updValue_self _ _ _ _ he, ← hbase u, he]
        rfl
    · rw [hst2, alookup_updValue_ne _ _ _ _ hu, hbase u]
  by_cases hw : w = old
  · subst hw
    cases he : alookup st2.values w with
    | none =>
      rw [updValue_absent _ _ _ he, he, ← h2 w, he]
    | some vd =>
      rw [alookup_updValue_self _ _ _ _ he, ← h2 w, he]
      rfl
  · rw [alookup_updValue_ne _ _ _ _ hw, h2 w]

theorem alookup_values_replaceAllUses_other (st : State) (old nv w : Nat)
    (hwo : w ≠ old) (hwn : w ≠ nv) :
    alookup (replaceAllUses st old nv).values w = alookup st.values w := by
  simp only [replaceAllUses]
  rw [alookup_updValue_ne _ _ _ _ hwo, alookup_updValue_ne _ _ _ _ hwn, foldSet_values]

theorem inputAt_eq_of_nodes (st1 st2 : State) (h : st1.nodes = st2.nodes) (m j : Nat) :
    inputAt st1 m j = inputAt st2 m j := by
  unfold inputAt
  rw [h]

theorem replaceAllUses_nodes_shape (st : State) (old nv m : Nat) :
    (alookup (replaceAllUses st old nv).nodes m).map nodeShape =
      (alookup st.nodes m).map nodeShape := by
  simp only [replaceAllUses]
  rw [updValue_nodes, updValue_nodes]
  exact foldSet_shape _ _ _ _

theorem nodupKeysB_updNode (st : State) (n : Nat) (f : NodeData → NodeData)
    (h : nodupKeysB st.nodes = true) : nodupKeysB (updNode st n f).nodes = true := by
  unfold updNode
  cases alookup st.nodes n with
  | none => exact h
  | some nd => exact nodupKeysB_aset _ _ _ h

theorem foldSet_nodupKeys (us : List (Nat × Nat)) (st : State) (nv : Nat)
    (h : nodupKeysB st.nodes = true) :
    nodupKeysB (us.foldl (fun s p => setInputAt s p.1 p.2 nv) st).nodes = true := by
  induction us generalizing st with
  | nil => exact h
  | cons p rest ih =>
    rw [List.foldl_cons]
    exact ih _ (nodupKeysB_updNode _ _ _ h)

theorem replaceAllUses_nodupKeys (st : State) (old nv : Nat)
    (h : nodupKeysB st.nodes = true) :
    nodupKeysB (replaceAllUses st old nv).nodes = true := by
  simp only [replaceAllUses]
  rw [updValue_nodes, updValue_nodes]
  exact foldSet_nodupKeys _ _ _ h

theorem uses_valid_of_integrity (st : State) (v : Nat)
    (hnd : nodupKeysB st.nodes = true) (hInt : Integrity st) :
    (∀ p ∈ valueUses st v, inputAt st p.1 p.2 = some v) ∧ (valueUses st v).Nodup := by
  cases he : alookup st.values v with
  | none =>
    rw [valueUses_of_none st v he]
    simp
  | some vd =>
    have hperm := hInt v vd he
    rw [valueUses_of_some st v vd he]
    constructor
    · intro p hp
      have hp2 : p ∈ occList st v := hperm.mem_iff.mp hp
      have hc := pcount_occList st v p hnd
      by_cases hcond : inputAt st p.1 p.2 = some v
      · exact hcond
      · rw [if_neg hcond] at hc
        exact absurd ((pcount_pos_iff p _).mpr hp2) (by omega)
    · have hle : ∀ p, pcount p (occList st v) ≤ 1 := by
        intro p
        rw [pcount_occList st v p hnd]
        split <;> omega
      exact hperm.nodup_iff.mpr (nodup_of_pcount_le_one _ hle)

theorem inputAt_replaceAllUses (st : State) (old nv : Nat)
    (hold : ∀ p ∈ valueUses st old, inputAt st p.1 p.2 = some old)
    (hnodup : (valueUses st old).Nodup) (m j : Nat) :
    inputAt (replaceAllUses st old nv) m j =
      if (m, j) ∈ valueUses st old then some nv else inputAt st m j := by
  have hn : (replaceAllUses st old nv).nodes =
      ((valueUses st old).foldl (fun s p => setInputAt s p.1 p.2 nv) st).nodes := by
    simp only [replaceAllUses]
    rw [updValue_nodes, updValue_nodes]
  rw [inputAt_eq_of_nodes _ _ hn]
  exact foldSet_inputAt _ _ _ _ hold hnodup m j

theorem replaceAllUses_integrity (st : State) (old nv : Nat)
    (hnd : nodupKeysB st.nodes = true) (hInt : Integrity st) (hne : old ≠ nv) :
    Integrity (replaceAllUses st old nv) := by
  obtain ⟨hold, hnodup⟩ := uses_valid_of_integrity st old hnd hInt
  have hnd2 := replaceAllUses_nodupKeys st old nv hnd
  have hIA := inputAt_replaceAllUses st old nv hold hnodup
  intro w vd' hw'
  rw [perm_iff_pcount]
  intro p
  rw [pcount_occList _ w p hnd2, hIA p.1 p.2]
  by_cases hw_old : w = old
  · subst hw_old
    have husesnil : vd'.uses = [] := by
      have h1 := valueUses_replaceAllUses_old st w nv
      rw [valueUses_of_some _ _ _ hw'] at h1
      exact h1
    rw [husesnil]
    have hsome : (alookup st.values w).isSome := by
      have h2 := alookup_values_replaceAllUses_isSome st w nv w
      rw [hw'] at h2
      exact h2.symm ▸ rfl
    obtain ⟨vd0, hvd0⟩ := Option.isSome_iff_exists.mp hsome
    by_cases hmem : (p.1, p.2) ∈ valueUses st w
    · rw [if_pos hmem, if_neg (fun he => hne (Option.some.inj he).symm)]
      simp [pcount_nil]
    · rw [if_neg hmem]
      have hno : ¬ inputAt st p.1 p.2 = some w := by
        intro hia
        have h0 := pcount_occList st w (p.1, p.2) hnd
        rw [if_pos hia] at h0
        have hpo : (p.1, p.2) ∈ occList st w := (pcount_pos_iff _ _).mp (by omega)
        have hperm := hInt w vd0 hvd0
        have hin : (p.1, p.2) ∈ valueUses st w := by
          rw [valueUses_of_some _ _ _ hvd0]
          exact hperm.mem_iff.mpr hpo
        exact hmem hin
      rw [if_neg hno]
      simp [pcount_nil]
  · by_cases hw_nv : w = nv
    · subst hw_nv
      have hsome : (alookup st.values w).isSome := by
        have h2 := alookup_values_replaceAllUses_isSome st old w w
        rw [hw'] at h2
        exact h2.symm ▸ rfl
      obtain ⟨vd0, hvd0⟩ := Option.isSome_iff_exists.mp hsome
      have huses : vd'.uses = vd0.uses ++ valueUses st old := by
        have h1 := valueUses_replaceAllUses_new st old w hne vd0 hvd0
        rw [valueUses_of_some _ _ _ hw'] at h1
        exact h1
      rw [huses, pcount_append]
      have hc0 : pcount p vd0.uses = if inputAt st p.1 p.2 = some w then 1 else 0 := by
        rw [Perm.pcount_congr _ _ (hInt w vd0 hvd0) p, pcount_occList st w p hnd]
      have hcu : pcount p (valueUses st old) =
          if (p.1, p.2) ∈ valueUses st old then 1 else 0 := by
        rw [pcount_nodup _ hnodup p]
      by_cases hmem : (p.1, p.2) ∈ valueUses st old
      · have hia : inputAt st p.1 p.2 = some old := hold _ hmem
        rw [hc0, hcu, if_pos hmem, if_pos hmem,
          if_neg (by rw [hia]; exact fun he => hne (Option.some.inj he)), if_pos rfl]
      · rw [hc0, hcu, if_neg hmem, if_neg hmem, Nat.add_zero]
    · have hw2 : alookup st.values w = some vd' := by
        rw [← alookup_values_replaceAllUses_other st old nv w hw_old hw_nv]
        exact hw'
      have hc0 : pcount p vd'.uses = if inputAt st p.1 p.2 = some w then 1 else 0 := by
        rw [Perm.pcount_congr _ _ (hInt w vd' hw2) p, pcount_occList st w p hnd]
      rw [hc0]
      by_cases hmem : (p.1, p.2) ∈ valueUses st old
      · have hia : inputAt st p.1 p.2 = some old := hold _ hmem
        have hL : ¬ inputAt st p.1 p.2 = some w := by
          rw [hia]
          intro he
          exact hw_old (Option.some.inj he).symm
        have hR : ¬ ((some nv : Option Nat) = some w) := by
          intro he
          exact hw_nv (Option.some.inj he).symm
        rw [if_pos hmem, if_neg hL, if_neg hR]
      · rw [if_neg hmem]

theorem memB_iff (x : Nat) (l : List Nat) : memB x l = true ↔ x ∈ l := by
  induction l with
  | nil => simp [memB]
  | cons y ys ih =>
    by_cases hy : y = x
    · simp [memB, hy]
    · simp only [memB, if_neg hy, ih, List.mem_cons]
      constructor
      · exact Or.inr
      · rintro (h1 | h1)
        · exact absurd h1.symm hy
        · exact h1

theorem alookup_filter_key {α : Type} (l : List (Nat × α)) (f : Nat → Bool) (k : Nat) :
    alookup (l.filter (fun q => f q.1)) k = if f k then alookup l k else none := by
  induction l with
  | nil => simp [alookup]
  | cons p rest ih =>
    by_cases hf : f p.1
    · by_cases hp : p.1 = k
      · subst hp
        rw [List.filter_cons_of_pos (by simpa using hf)]
        simp [alookup, hf]
      · rw [List.filter_cons_of_pos (by simpa using hf)]
        simp only [alookup, if_neg hp]
        exact ih
    · by_cases hp : p.1 = k
      · subst hp
        rw [List.filter_cons_of_neg (by simpa using hf)]
        rw [ih, if_neg hf, if_neg hf]
      · rw [List.filter_cons_of_neg (by simpa using hf)]
        simp only [alookup, if_neg hp]
        exact ih

theorem valueUses_updErase (st : State) (x n k w : Nat) :
    valueUses (updValue st x (fun vd => { vd with uses := removeFirstPair vd.uses (n, k) })) w =
      if x = w then removeFirstPair (valueUses st w) (n, k) else valueUses st w := by
  by_cases hx : x = w
  · subst hx
    cases he : alookup st.values x with
    | none =>
      rw [updValue_absent _ _ _ he, if_pos rfl, valueUses_of_none _ _ he]
      rfl
    | some vd =>
      rw [if_pos rfl, valueUses_of_some _ _ _ (alookup_updValue_self _ _ _ _ he),
        valueUses_of_some _ _ _ he]
  · rw [if_neg hx]
    unfold valueUses
    rw [alookup_updValue_ne _ _ _ _ (fun he => hx he.symm)]

theorem updValue_values_isSome (st : State) (v : Nat) (f : ValueData → ValueData) (w : Nat) :
    (alookup (updValue st v f).values w).isSome = (alookup st.values w).isSome := by
  by_cases hv : v = w
  · subst hv
    cases he : alookup st.values v with
    | none => rw [updValue_absent _ _ _ he, he]
    | some vd =>
      rw [alookup_updValue_self _ _ _ _ he]
      rfl
  · rw [alookup_updValue_ne _ _ _ _ (fun he => hv he.symm)]

theorem foldEraseFrom_uses (n : Nat) (l : List Nat) (k : Nat) (st : State) (w : Nat) :
    valueUses ((List.enumFrom k l).foldl
        (fun s p => updValue s p.2
          (fun vd => { vd with uses := removeFirstPair vd.uses (n, p.1) })) st) w =
      ((List.enumFrom k l).filterMap (fun q => if q.2 = w then some (n, q.1) else none)).foldl
        (fun u a => removeFirstPair u a) (valueUses st w) := by
  induction l generalizing k st with
  | nil => rfl
  | cons x xs ih =>
    have hstep : List.enumFrom k (x :: xs) = (k, x) :: List.enumFrom (k + 1) xs := rfl
    rw [hstep, List.foldl_cons, List.filterMap_cons, ih (k + 1)]
    by_cases hx : x = w
    · simp only [if_pos hx, List.foldl_cons]
      rw [valueUses_updErase]
      rw [if_pos hx]
    · simp only [if_neg hx]
      rw [valueUses_updErase]
      rw [if_neg hx]

theorem foldEraseFrom_values_isSome (n : Nat) (l : List (Nat × Nat)) (st : State) (w : Nat) :
    (alookup ((l.foldl (fun s p => updValue s p.2
        (fun vd => { vd with uses := removeFirstPair vd.uses (n, p.1) })) st)).values w).isSome =
      (alookup st.values w).isSome := by
  induction l generalizing st with
  | nil => rfl
  | cons p rest ih =>
    rw [List.foldl_cons, ih, updValue_values_isSome]

theorem pcount_foldl_removeFirstPair (ps : List (Nat × Nat)) (u : List (Nat × Nat))
    (h : ∀ q ∈ ps, pcount q ps ≤ pcount q u) (p : Nat × Nat) :
    pcount p (ps.foldl (fun u a => removeFirstPair u a) u) = pcount p u - pcount p ps := by
  induction ps generalizing u with
  | nil => simp [pcount_nil]
  | cons q ps2 ih =>
    rw [List.foldl_cons]
    have hqmem : q ∈ u := by
      have h1 := h q (List.mem_cons_self _ _)
      rw [pcount_cons, if_pos rfl] at h1
      exact (pcount_pos_iff q u).mp (by omega)
    have hstep : ∀ p2, pcount p2 (removeFirstPair u q) =
        pcount p2 u - if q = p2 then 1 else 0 := by
      intro p2
      rw [pcount_removeFirstPair]
      by_cases hq : q = p2
      · rw [if_pos ⟨hq, hqmem⟩, if_pos hq]
      · rw [if_neg (fun hc => hq hc.1), if_neg hq]
        omega
    have h2 : ∀ r ∈ ps2, pcount r ps2 ≤ pcount r (removeFirstPair u q) := by
      intro r hr
      rw [hstep r]
      have h3 := h r (List.mem_cons_of_mem _ hr)
      rw [pcount_cons] at h3
      by_cases hq : q = r
      · rw [if_pos hq]
        rw [if_pos hq] at h3
        omega
      · rw [if_neg hq]
        rw [if_neg hq] at h3
        omega
    rw [ih _ h2, hstep p, pcount_cons]
    have h4 : pcount p ps2 + (if q = p then 1 else 0) ≤ pcount p u ∨ ¬ (p ∈ (q :: ps2)) := by
      by_cases hm : p ∈ (q :: ps2)
      · left
        have := h p hm
        rw [pcount_cons] at this
        exact this
      · right
        exact hm
    rcases h4 with h4 | h4
    · omega
    · have h5 : pcount p ps2 = 0 := by
        refine pcount_eq_zero_of_not_mem _ _ (fun hc => h4 (List.mem_cons_of_mem _ hc))
      have h6 : ¬ (q = p) := by
        intro hc
        exact h4 (by rw [← hc]; exact List.mem_cons_self _ _)
      rw [h5, if_neg h6]
      omega

theorem destroyNode_absent (st : State) (n : Nat) (h : alookup st.nodes n = none) :
    destroyNode st n = st := by
  unfold destroyNode
  rw [h]

theorem destroyNode_values_some (st : State) (n : Nat) (nd : NodeData)
    (h : alookup st.nodes n = some nd) :
    (destroyNode st n).values =
      (nd.inputs.enum.foldl (fun s p => updValue s p.2
          (fun vd => { vd with uses := removeFirstPair vd.uses (n, p.1) })) st).values.filter
        (fun q => ! memB q.1 nd.outputs) := by
  unfold destroyNode
  rw [h]

theorem destroyNode_integrity (st : State) (n : Nat)
    (hnd : nodupKeysB st.nodes = true) (hInt : Integrity st) :
    Integrity (destroyNode st n) := by
  cases he : alookup st.nodes n with
  | none =>
    rw [destroyNode_absent st n he]
    exact hInt
  | some nd =>
    intro w vd' hw'
    rw [destroyNode_values_some st n nd he] at hw'
    have hw2 : alookup ((nd.inputs.enum.foldl (fun s p => updValue s p.2
        (fun vd => { vd with uses := removeFirstPair vd.uses (n, p.1) })) st)).values w
        = some vd' := by
      rw [alookup_filter_key _ (fun x => ! memB x nd.outputs) w] at hw'
      by_cases hm : memB w nd.outputs
      · rw [hm] at hw'
        simp at hw'
      · simp only [Bool.not_eq_true] at hm
        rw [(by simp [hm] : (! memB w nd.outputs) = true)] at hw'
        simpa using hw'
    have hsome : (alookup st.values w).isSome := by
      have h1 := foldEraseFrom_values_isSome n nd.inputs.enum st w
      rw [hw2] at h1
      exact h1.symm ▸ rfl
    obtain ⟨vd0, hvd0⟩ := Option.isSome_iff_exists.mp hsome
    have huses : vd'.uses =
        (slotsOf n nd.inputs w).foldl (fun u a => removeFirstPair u a) (valueUses st w) := by
      have h1 := foldEraseFrom_uses n nd.inputs 0 st w
      have henum : List.enumFrom 0 nd.inputs = nd.inputs.enum := rfl
      rw [henum] at h1
      rw [valueUses_of_some _ _ _ hw2] at h1
      exact h1
    have hperm0 := hInt w vd0 hvd0
    have husesw : valueUses st w = vd0.uses := valueUses_of_some _ _ _ hvd0
    have hcu : ∀ q, pcount q (valueUses st w) =
        if inputAt st q.1 q.2 = some w then 1 else 0 := by
      intro q
      rw [husesw, Perm.pcount_congr _ _ hperm0 q, pcount_occList st w q hnd]
    have hcslots : ∀ q, pcount q (slotsOf n nd.inputs w) =
        if q.1 = n ∧ nd.inputs.get? q.2 = some w then 1 else 0 := by
      intro q
      exact pcount_slotsOf n w q nd.inputs
    have hsub : ∀ q ∈ slotsOf n nd.inputs w,
        pcount q (slotsOf n nd.inputs w) ≤ pcount q (valueUses st w) := by
      intro q hq
      have h1 := hcslots q
      have hqpos := (pcount_pos_iff q _).mpr hq
      have hcond : q.1 = n ∧ nd.inputs.get? q.2 = some w := by
        by_cases hc : q.1 = n ∧ nd.inputs.get? q.2 = some w
        · exact hc
        · rw [if_neg hc] at h1
          omega
      have hIAq : inputAt st q.1 q.2 = some w := by
        unfold inputAt
        rw [hcond.1, he]
        exact hcond.2
      rw [hcu q, if_pos hIAq, h1, if_pos hcond]
    rw [perm_iff_pcount]
    intro p
    rw [huses, pcount_foldl_removeFirstPair _ _ hsub p]
    have hn' : (destroyNode st n).nodes = aerase st.nodes n :=
      destroyNode_nodes_some st n nd he
    have hnd2 : nodupKeysB (destroyNode st n).nodes = true := by
      rw [hn']
      exact nodupKeysB_aerase _ _ hnd
    rw [pcount_occList _ w p hnd2]
    have hIA' : inputAt (destroyNode st n) p.1 p.2 =
        if p.1 = n then none else inputAt st p.1 p.2 := by
      unfold inputAt
      rw [hn']
      by_cases hp : p.1 = n
      · rw [if_pos hp, hp, alookup_aerase_self]
      · rw [if_neg hp, alookup_aerase_ne _ _ _ hp]
    rw [hIA', hcu p, hcslots p]
    by_cases hp : p.1 = n
    · rw [if_pos hp]
      have hIAp : inputAt st p.1 p.2 = (nd.inputs.get? p.2 : Option Nat) := by
        unfold inputAt
        rw [hp, he]
      by_cases hg : nd.inputs.get? p.2 = some w
      · have hc1 : p.1 = n ∧ nd.inputs.get? p.2 = some w := ⟨hp, hg⟩
        have hc2 : inputAt st p.1 p.2 = some w := by
          rw [hIAp]
          exact hg
        rw [if_pos hc1, if_pos hc2]
        simp
      · have hc1 : ¬ (p.1 = n ∧ nd.inputs.get? p.2 = some w) := fun hc => hg hc.2
        have hc2 : ¬ (inputAt st p.1 p.2 = some w) := by
          rw [hIAp]
          exact hg
        rw [if_neg hc1, if_neg hc2]
        simp
    · have hc1 : ¬ (p.1 = n ∧ nd.inputs.get? p.2 = some w) := fun hc => hp hc.1
      rw [if_neg hp, if_neg hc1]
      omega

theorem occL_append (l1 l2 : List (Nat × NodeData)) (v : Nat) :
    occL (l1 ++ l2) v = occL l1 v ++ occL l2 v := by
  induction l1 with
  | nil => rfl
  | cons q rest ih =>
    rw [List.cons_append, occL_cons, occL_cons, ih, List.append_assoc]

theorem aset_present_decomp {κ α : Type} [DecidableEq κ] (l : List (κ × α)) (k : κ)
    (b a : α) (h : alookup l k = some b) :
    ∃ l1 l2, l = l1 ++ (k, b) :: l2 ∧ aset l k a = l1 ++ (k, a) :: l2 := by
  induction l with
  | nil => simp [alookup] at h
  | cons p rest ih =>
    by_cases hp : p.1 = k
    · simp only [alookup, if_pos hp] at h
      refine ⟨[], rest, ?_, ?_⟩
      · cases p
        simp_all
      · show (if p.1 = k then (k, a) :: rest else _) = _
        rw [if_pos hp]
        rfl
    · simp only [alookup, if_neg hp] at h
      obtain ⟨l1, l2, he1, he2⟩ := ih h
      refine ⟨p :: l1, l2, by rw [he1]; rfl, ?_⟩
      show (if p.1 = k then (k, a) :: rest else p :: aset rest k a) = _
      rw [if_neg hp, he2]
      rfl

theorem integrity_of_eq (st st' : State) (hv : st'.values = st.values)
    (hn : st'.nodes = st.nodes) (h : Integrity st) : Integrity st' := by
  intro w vd hw
  rw [hv] at hw
  have h1 := h w vd hw
  unfold occList
  rw [hn]
  exact h1

theorem occL_same_inputs (l : List (Nat × NodeData)) (k : Nat) (nd nd' : NodeData)
    (h : alookup l k = some nd) (hi : nd'.inputs = nd.inputs) (v : Nat) :
    occL (aset l k nd') v = occL l v := by
  obtain ⟨l1, l2, he1, he2⟩ := aset_present_decomp l k nd nd' h
  rw [he2, he1, occL_append, occL_append, occL_cons, occL_cons]
  show (occL l1 v) ++ (slotsOf k nd'.inputs v ++ occL l2 v) = _
  rw [hi]

theorem setValueType_integrity (st : State) (v : Nat) (ty : Option (List Nat × DType))
    (h : Integrity st) : Integrity (setValueType st v ty) := by
  intro w vd' hw'
  unfold occList
  rw [show (setValueType st v ty).nodes = st.nodes from updValue_nodes _ _ _]
  unfold setValueType at hw'
  by_cases hv : v = w
  · subst hv
    cases he : alookup st.values v with
    | none =>
      rw [updValue_absent _ _ _ he, he] at hw'
      cases hw'
    | some vd =>
      rw [alookup_updValue_self _ _ _ _ he] at hw'
      have h2 := h v vd he
      cases hw'
      exact h2
  · rw [alookup_updValue_ne _ _ _ _ (fun he => hv he.symm)] at hw'
    exact h w vd' hw'

theorem setNodeAttrs_integrity (st : State) (n : Nat) (as2 : List (String × AttrVal))
    (h : Integrity st) : Integrity (setNodeAttrs st n as2) := by
  intro w vd' hw'
  have hv : (setNodeAttrs st n as2).values = st.values := by
    unfold setNodeAttrs
    rw [updNode_values]
  rw [hv] at hw'
  have h1 := h w vd' hw'
  unfold occList
  unfold setNodeAttrs updNode
  cases he : alookup st.nodes n with
  | none => exact h1
  | some nd =>
    show List.Perm vd'.uses (occL (aset st.nodes n { nd with attrs := as2 }) w)
    rw [occL_same_inputs st.nodes n nd { nd with attrs := as2 } he rfl]
    exact h1

theorem fresh_value_absent (st : State) (v : Nat)
    (hbound : ∀ q ∈ st.values, q.1 < v) : alookup st.values v = none := by
  rw [alookup_none_iff]
  intro q hq
  exact Nat.ne_of_lt (hbound q hq)

theorem fresh_node_absent (st : State) (n : Nat)
    (hbound : ∀ q ∈ st.nodes, q.1 < n) : alookup st.nodes n = none := by
  rw [alookup_none_iff]
  intro q hq
  exact Nat.ne_of_lt (hbound q hq)

theorem createConv_integrity (st : State)
    (hn : ∀ q ∈ st.nodes, q.1 < st.freshNode)
    (hocc : ∀ q ∈ st.nodes, ∀ w ∈ q.2.inputs, w < st.freshValue)
    (hInt : Integrity st) : Integrity (createConv st) := by
  intro w vd' hw'
  have hocc2 : ∀ u, occList (createConv st) u = occList st u := by
    intro u
    unfold occList
    rw [createConv_nodes, aset_absent _ _ _ (fresh_node_absent st _ hn), occL_append,
      occL_cons]
    show occL st.nodes u ++ (slotsOf st.freshNode [] u ++ occL [] u) = occL st.nodes u
    simp [slotsOf, occL]
  rw [hocc2]
  rw [createConv_values] at hw'
  by_cases hfw : w = st.freshValue
  · rw [hfw, alookup_aset_self] at hw'
    cases hw'
    show List.Perm [] (occL st.nodes w)
    rw [hfw, occL_fresh st.nodes st.freshValue hocc]
  · rw [alookup_aset_ne _ _ _ _ hfw] at hw'
    exact hInt w vd' hw'

theorem addBlockInputOp_integrity (st : State) (b : Nat)
    (hocc : ∀ q ∈ st.nodes, ∀ w ∈ q.2.inputs, w < st.freshValue)
    (hInt : Integrity st) : Integrity (addBlockInputOp st b) := by
  intro w vd' hw'
  have hocc2 : ∀ u, occList (addBlockInputOp st b) u = occList st u := by
    intro u
    unfold occList
    rw [addBlockInputOp_nodes]
  rw [hocc2]
  rw [addBlockInputOp_values] at hw'
  by_cases hfw : w = st.freshValue
  · rw [hfw, alookup_aset_self] at hw'
    cases hw'
    show List.Perm [] (occList st w)
    show List.Perm [] (occL st.nodes w)
    rw [hfw, occL_fresh st.nodes st.freshValue hocc]
  · rw [alookup_aset_ne _ _ _ _ hfw] at hw'
    exact hInt w vd' hw'

theorem insertBeforeOp_integrity (st : State) (bn nid : Nat) (h : Integrity st) :
    Integrity (insertBeforeOp st bn nid) :=
  integrity_of_eq st _ (insertBeforeOp_values st bn nid) (insertBeforeOp_nodes st bn nid) h

theorem mapInsert_integrity (st : State) (v : Nat) (t : Tensor) (h : Integrity st) :
    Integrity (mapInsert st v t) :=
  integrity_of_eq st _ (mapInsert_values st v t) (mapInsert_nodes st v t) h

theorem get?_append_singleton (l : List Nat) (v : Nat) (j : Nat) :
    (l ++ [v]).get? j =
      if j < l.length then l.get? j else if j = l.length then some v else none := by
  by_cases h1 : j < l.length
  · rw [if_pos h1, List.get?_eq_getElem?, List.get?_eq_getElem?]
    exact List.getElem?_append_left h1
  · rw [if_neg h1]
    by_cases h2 : j = l.length
    · subst h2
      rw [if_pos rfl, List.get?_eq_getElem?, List.getElem?_append_right (Nat.le_refl _)]
      simp
    · rw [if_neg h2, List.get?_eq_getElem?,
        List.getElem?_append_right (by omega : l.length ≤ j)]
      have h3 : 1 ≤ j - l.length := by omega
      cases h4 : j - l.length with
      | zero => omega
      | succ m => simp

theorem addInputOp_occ (st : State) (n v : Nat) (nd : NodeData)
    (h : alookup st.nodes n = some nd) (hnd : nodupKeysB st.nodes = true)
    (u : Nat) (q : Nat × Nat) :
    pcount q (occL (aset st.nodes n { nd with inputs := nd.inputs ++ [v] }) u) =
      pcount q (occL st.nodes u) +
        (if q = (n, nd.inputs.length) ∧ v = u then 1 else 0) := by
  rw [pcount_occL _ _ _ (nodupKeysB_aset _ _ _ hnd), pcount_occL _ _ _ hnd]
  by_cases hq : q.1 = n
  · rw [hq, alookup_aset_self, h]
    show (if (nd.inputs ++ [v]).get? q.2 = some u then 1 else 0) =
      (if nd.inputs.get? q.2 = some u then 1 else 0) +
        (if q = (n, nd.inputs.length) ∧ v = u then 1 else 0)
    rw [get?_append_singleton]
    by_cases h1 : q.2 < nd.inputs.length
    · rw [if_pos h1]
      have hne : ¬ (q = (n, nd.inputs.length) ∧ v = u) := by
        rintro ⟨hc1, -⟩
        rw [hc1] at h1
        simp at h1
      rw [if_neg hne, Nat.add_zero]
    · rw [if_neg h1]
      have hnone : nd.inputs.get? q.2 = none := by
        rw [List.get?_eq_getElem?]
        exact List.getElem?_eq_none (by omega)
      have hnn : ¬ ((none : Option Nat) = some u) := by simp
      by_cases h2 : q.2 = nd.inputs.length
      · rw [if_pos h2, hnone, if_neg hnn]
        have hqe : q = (n, nd.inputs.length) := by
          cases q
          simp_all
        by_cases h3 : v = u
        · have hvs : (some v : Option Nat) = some u := by rw [h3]
          have hcc : q = (n, nd.inputs.length) ∧ v = u := ⟨hqe, h3⟩
          rw [if_pos hvs, if_pos hcc]
        · have hvs : ¬ ((some v : Option Nat) = some u) := fun hc => h3 (Option.some.inj hc)
          have hcc : ¬ (q = (n, nd.inputs.length) ∧ v = u) := fun hc => h3 hc.2
          rw [if_neg hvs, if_neg hcc]
      · rw [if_neg h2, hnone, if_neg hnn]
        have hne : ¬ (q = (n, nd.inputs.length) ∧ v = u) := by
          rintro ⟨hc1, -⟩
          rw [hc1] at h2
          simp at h2
        rw [if_neg hne]
  · rw [alookup_aset_ne _ _ _ _ hq]
    have hne : ¬ (q = (n, nd.inputs.length) ∧ v = u) := by
      rintro ⟨hc1, -⟩
      rw [hc1] at hq
      simp at hq
    rw [if_neg hne, Nat.add_zero]

theorem addInputOp_integrity (st : State) (n v : Nat) (nd : NodeData)
    (h : alookup st.nodes n = some nd) (hnd : nodupKeysB st.nodes = true)
    (hInt : Integrity st) : Integrity (addInputOp st n v) := by
  rw [addInputOp_some st n v nd h]
  set stA := { st with nodes := aset st.nodes n { nd with inputs := nd.inputs ++ [v] } } with hstA
  intro w vd' hw'
  rw [perm_iff_pcount]
  intro p
  have hoccA : pcount p (occList (updValue stA v
      (fun vd => { vd with uses := vd.uses ++ [(n, nd.inputs.length)] })) w) =
      pcount p (occL st.nodes w) + (if p = (n, nd.inputs.length) ∧ v = w then 1 else 0) := by
    unfold occList
    rw [updValue_nodes, hstA]
    exact addInputOp_occ st n v nd h hnd w p
  rw [hoccA]
  have hvalsA : ∀ u : Nat, alookup stA.values u = alookup st.values u := by
    intro u
    rw [hstA]
  by_cases hvw : v = w
  · subst hvw
    cases he : alookup stA.values v with
    | none =>
      rw [updValue_absent stA v _ he, he] at hw'
      cases hw'
    | some vd =>
      rw [alookup_updValue_self stA v _ vd he] at hw'
      cases hw'
      have heS : alookup st.values v = some vd := by
        rw [← hvalsA v]
        exact he
      show pcount p (vd.uses ++ [(n, nd.inputs.length)]) = _
      rw [pcount_append, Perm.pcount_congr _ _ (hInt v vd heS) p]
      by_cases hp : (n, nd.inputs.length) = p
      · have hcc : p = (n, nd.inputs.length) ∧ v = v := ⟨hp.symm, rfl⟩
        rw [pcount_cons, pcount_nil, if_pos hp, if_pos hcc]
        rfl
      · have hcc : ¬ (p = (n, nd.inputs.length) ∧ v = v) := fun hc => hp hc.1.symm
        rw [pcount_cons, pcount_nil, if_neg hp, if_neg hcc]
        rfl
  · rw [alookup_updValue_ne stA v w _ (fun he => hvw he.symm), hvalsA w] at hw'
    have hne : ¬ (p = (n, nd.inputs.length) ∧ v = w) := fun hc => hvw hc.2
    rw [if_neg hne, Nat.add_zero, Perm.pcount_congr _ _ (hInt w vd' hw') p]
    rfl

/-! ### Further per-operation lookup lemmas -/

theorem alookup_updValue (st : State) (v : Nat) (f : ValueData → ValueData) (w : Nat) :
    alookup (updValue st v f).values w =
      if w = v then (alookup st.values v).map f else alookup st.values w := by
  by_cases hw : w = v
  · subst hw
    cases he : alookup st.values w with
    | none =>
      rw [updValue_absent _ _ _ he, if_pos rfl, he]
      rfl
    | some vd =>
      rw [alookup_updValue_self _ _ _ _ he, if_pos rfl]
      rfl
  · rw [if_neg hw, alookup_updValue_ne _ _ _ _ hw]

theorem alookup_updNode (st : State) (n : Nat) (f : NodeData → NodeData) (m : Nat) :
    alookup (updNode st n f).nodes m =
      if m = n then (alookup st.nodes n).map f else alookup st.nodes m := by
  by_cases hm : m = n
  · subst hm
    cases he : alookup st.nodes m with
    | none =>
      rw [updNode_absent _ _ _ he, if_pos rfl, he]
      rfl
    | some nd =>
      rw [alookup_updNode_self _ _ _ _ he, if_pos rfl]
      rfl
  · rw [if_neg hm, alookup_updNode_ne _ _ _ _ hm]

theorem setValueType_nodes (st : State) (v : Nat) (ty : Option (List Nat × DType)) :
    (setValueType st v ty).nodes = st.nodes := updValue_nodes _ _ _

theorem setValueType_blocksT (st : State) (v : Nat) (ty : Option (List Nat × DType)) :
    (setValueType st v ty).blocksT = st.blocksT := updValue_blocksT _ _ _

theorem setValueType_vmap (st : State) (v : Nat) (ty : Option (List Nat × DType)) :
    (setValueType st v ty).vmap = st.vmap := updValue_vmap _ _ _

theorem setValueType_rootBlock (st : State) (v : Nat) (ty : Option (List Nat × DType)) :
    (setValueType st v ty).rootBlock = st.rootBlock := updValue_rootBlock _ _ _

theorem setValueType_freshNode (st : State) (v : Nat) (ty : Option (List Nat × DType)) :
    (setValueType st v ty).freshNode = st.freshNode := updValue_freshNode _ _ _

theorem setValueType_freshValue (st : State) (v : Nat) (ty : Option (List Nat × DType)) :
    (setValueType st v ty).freshValue = st.freshValue := updValue_freshValue _ _ _

theorem alookup_setValueType (st : State) (v : Nat) (ty : Option (List Nat × DType)) (w : Nat) :
    alookup (setValueType st v ty).values w =
      if w = v then (alookup st.values v).map (fun vd => { vd with vtype := ty })
      else alookup st.values w := alookup_updValue st v _ w

theorem setNodeAttrs_values (st : State) (n : Nat) (as2 : List (String × AttrVal)) :
    (setNodeAttrs st n as2).values = st.values := updNode_values _ _ _

theorem setNodeAttrs_blocksT (st : State) (n : Nat) (as2 : List (String × AttrVal)) :
    (setNodeAttrs st n as2).blocksT = st.blocksT := updNode_blocksT _ _ _

theorem setNodeAttrs_vmap (st : State) (n : Nat) (as2 : List (String × AttrVal)) :
    (setNodeAttrs st n as2).vmap = st.vmap := updNode_vmap _ _ _

theorem setNodeAttrs_rootBlock (st : State) (n : Nat) (as2 : List (String × AttrVal)) :
    (setNodeAttrs st n as2).rootBlock = st.rootBlock := updNode_rootBlock _ _ _

theorem setNodeAttrs_freshNode (st : State) (n : Nat) (as2 : List (String × AttrVal)) :
    (setNodeAttrs st n as2).freshNode = st.freshNode := updNode_freshNode _ _ _

theorem setNodeAttrs_freshValue (st : State) (n : Nat) (as2 : List (String × AttrVal)) :
    (setNodeAttrs st n as2).freshValue = st.freshValue := updNode_freshValue _ _ _

theorem alookup_setNodeAttrs (st : State) (n : Nat) (as2 : List (String × AttrVal)) (m : Nat) :
    alookup (setNodeAttrs st n as2).nodes m =
      if m = n then (alookup st.nodes n).map (fun nd => { nd with attrs := as2 })
      else alookup st.nodes m := alookup_updNode st n _ m

theorem addInputOp_absent (st : State) (n v : Nat) (h : alookup st.nodes n = none) :
    addInputOp st n v = st := by
  unfold addInputOp
  rw [h]

theorem alookup_addInputOp_nodes (st : State) (n v : Nat) (nd : NodeData)
    (h : alookup st.nodes n = some nd) (m : Nat) :
    alookup (addInputOp st n v).nodes m =
      if m = n then some { nd with inputs := nd.inputs ++ [v] }
      else alookup st.nodes m := by
  rw [addInputOp_some st n v nd h, updValue_nodes]
  by_cases hm : m = n
  · rw [if_pos hm, hm]
    exact alookup_aset_self _ _ _
  · rw [if_neg hm]
    exact alookup_aset_ne _ _ _ _ hm

theorem alookup_addInputOp_values (st : State) (n v : Nat) (nd : NodeData)
    (h : alookup st.nodes n = some nd) (w : Nat) :
    alookup (addInputOp st n v).values w =
      if w = v then (alookup st.values v).map
          (fun vd => { vd with uses := vd.uses ++ [(n, nd.inputs.length)] })
      else alookup st.values w := by
  rw [addInputOp_some st n v nd h]
  exact alookup_updValue _ v _ w

theorem destroyNode_blocksT_some (st : State) (n : Nat) (nd : NodeData)
    (h : alookup st.nodes n = some nd) :
    (destroyNode st n).blocksT =
      st.blocksT.map (fun q => (q.1, { q.2 with nodes := q.2.nodes.filter (· ≠ n) })) := by
  unfold destroyNode
  rw [h]
  simp only []
  rw [foldErase_blocksT]

theorem alookup_destroyNode_blocksT (st : State) (n : Nat) (nd : NodeData)
    (h : alookup st.nodes n = some nd) (b : Nat) :
    alookup (destroyNode st n).blocksT b =
      (alookup st.blocksT b).map (fun bd => { bd with nodes := bd.nodes.filter (· ≠ n) }) := by
  rw [destroyNode_blocksT_some st n nd h]
  exact alookup_mapSnd st.blocksT (fun bd => { bd with nodes := bd.nodes.filter (· ≠ n) }) b

theorem valueType_updErase (st : State) (x n k w : Nat) :
    valueType (updValue st x (fun vd => { vd with uses := removeFirstPair vd.uses (n, k) })) w =
      valueType st w := by
  unfold valueType
  rw [alookup_updValue]
  by_cases hw : w = x
  · rw [if_pos hw, hw]
    cases he : alookup st.values x with
    | none => rfl
    | some vd => rfl
  · rw [if_neg hw]

theorem valueType_foldErase (n : Nat) (l : List (Nat × Nat)) (st : State) (w : Nat) :
    valueType (l.foldl (fun s p => updValue s p.2
        (fun vd => { vd with uses := removeFirstPair vd.uses (n, p.1) })) st) w =
      valueType st w := by
  induction l generalizing st with
  | nil => rfl
  | cons p rest ih => rw [List.foldl_cons, ih, valueType_updErase]

theorem destroyNode_valueType (st : State) (n : Nat) (nd : NodeData)
    (h : alookup st.nodes n = some nd) (w : Nat) (hw : memB w nd.outputs = false) :
    valueType (destroyNode st n) w = valueType st w := by
  have hfk := alookup_filter_key
    ((nd.inputs.enum.foldl (fun s p => updValue s p.2
        (fun vd => { vd with uses := removeFirstPair vd.uses (n, p.1) })) st)).values
    (fun k => ! memB k nd.outputs) w
  have hcond : (! memB w nd.outputs) = true := by rw [hw]; rfl
  rw [hcond, if_pos rfl] at hfk
  show (match alookup (destroyNode st n).values w with
    | some vd => vd.vtype
    | none => none) = valueType st w
  rw [destroyNode_values_some st n nd h, hfk]
  exact valueType_foldErase n nd.inputs.enum st w

/-! ### Allocation bounds -/

/-- The allocation bounds the JIT graph factory maintains: every node id is
below the fresh-node counter, every wired value id is below the fresh-value
counter, and the node table has no duplicate keys. -/
def Bounds (st : State) : Prop :=
  (∀ q ∈ st.nodes, q.1 < st.freshNode ∧
    (∀ w ∈ q.2.inputs, w < st.freshValue) ∧
    (∀ w ∈ q.2.outputs, w < st.freshValue)) ∧
  nodupKeysB st.nodes = true

theorem bounds_mono (st st' : State) (hn : st'.nodes = st.nodes)
    (hfn : st.freshNode ≤ st'.freshNode) (hfv : st.freshValue ≤ st'.freshValue)
    (h : Bounds st) : Bounds st' := by
  obtain ⟨h1, h2⟩ := h
  refine ⟨?_, by rw [hn]; exact h2⟩
  intro q hq
  rw [hn] at hq
  obtain ⟨a, b, c⟩ := h1 q hq
  exact ⟨Nat.lt_of_lt_of_le a hfn, fun w hw => Nat.lt_of_lt_of_le (b w hw) hfv,
    fun w hw => Nat.lt_of_lt_of_le (c w hw) hfv⟩

theorem bounds_of_wfB (st : State) (h : WfB st = true) : Bounds st := by
  unfold WfB at h
  simp only [Bool.and_eq_true, List.all_eq_true, decide_eq_true_eq] at h
  obtain ⟨⟨⟨⟨⟨⟨hn, _hv⟩, _hm⟩, _hb⟩, hndn⟩, _hndv⟩, _hndb⟩ := h
  refine ⟨?_, hndn⟩
  intro q hq
  have := hn q hq
  exact ⟨this.1.1, this.1.2, this.2⟩

theorem wfB_vmap_bound (st : State) (h : WfB st = true) :
    ∀ q ∈ st.vmap, q.1 < st.freshValue := by
  unfold WfB at h
  simp only [Bool.and_eq_true, List.all_eq_true, decide_eq_true_eq] at h
  exact h.1.1.1.1.2

theorem wfB_values_bound (st : State) (h : WfB st = true) :
    ∀ q ∈ st.values, q.1 < st.freshValue := by
  unfold WfB at h
  simp only [Bool.and_eq_true, List.all_eq_true, decide_eq_true_eq] at h
  exact h.1.1.1.1.1.2

theorem bounds_aset_node (st st' : State) (n : Nat) (nd' : NodeData)
    (hn : st'.nodes = aset st.nodes n nd')
    (hfn : st.freshNode ≤ st'.freshNode) (hfv : st.freshValue ≤ st'.freshValue)
    (hkey : n < st'.freshNode)
    (hin : ∀ w ∈ nd'.inputs, w < st'.freshValue)
    (hout : ∀ w ∈ nd'.outputs, w < st'.freshValue)
    (h : Bounds st) : Bounds st' := by
  obtain ⟨h1, h2⟩ := h
  constructor
  · intro q hq
    rw [hn] at hq
    rcases mem_aset st.nodes n nd' q hq with he | hm
    · rw [he]
      exact ⟨hkey, hin, hout⟩
    · obtain ⟨a, b, c⟩ := h1 q hm
      exact ⟨Nat.lt_of_lt_of_le a hfn, fun w hw => Nat.lt_of_lt_of_le (b w hw) hfv,
        fun w hw => Nat.lt_of_lt_of_le (c w hw) hfv⟩
  · rw [hn]
    exact nodupKeysB_aset _ _ _ h2

theorem bounds_createConv (st : State) (h : Bounds st) : Bounds (createConv st) := by
  refine bounds_aset_node st (createConv st) st.freshNode
    ⟨Kind.conv, [], [st.freshValue], [], []⟩
    (createConv_nodes st) ?_ ?_ ?_ ?_ ?_ h
  · rw [createConv_freshNode]
    exact Nat.le_succ _
  · rw [createConv_freshValue]
    exact Nat.le_succ _
  · rw [createConv_freshNode]
    exact Nat.lt_succ_self _
  · intro w hw
    exact absurd hw (List.not_mem_nil w)
  · intro w hw
    rw [createConv_freshValue]
    rw [List.mem_singleton.mp hw]
    exact Nat.lt_succ_self _

theorem bounds_setValueType (st : State) (v : Nat) (ty : Option (List Nat × DType))
    (h : Bounds st) : Bounds (setValueType st v ty) :=
  bounds_mono st _ (setValueType_nodes st v ty)
    (le_of_eq (setValueType_freshNode st v ty).symm)
    (le_of_eq (setValueType_freshValue st v ty).symm) h

theorem bounds_mapInsert (st : State) (v : Nat) (t : Tensor)
    (h : Bounds st) : Bounds (mapInsert st v t) :=
  bounds_mono st _ (mapInsert_nodes st v t)
    (le_of_eq (mapInsert_freshNode st v t).symm)
    (le_of_eq (mapInsert_freshValue st v t).symm) h

theorem bounds_insertBeforeOp (st : State) (bn nid : Nat)
    (h : Bounds st) : Bounds (insertBeforeOp st bn nid) :=
  bounds_mono st _ (insertBeforeOp_nodes st bn nid)
    (le_of_eq (insertBeforeOp_freshNode st bn nid).symm)
    (le_of_eq (insertBeforeOp_freshValue st bn nid).symm) h

theorem bounds_addBlockInputOp (st : State) (b : Nat)
    (h : Bounds st) : Bounds (addBlockInputOp st b) :=
  bounds_mono st _ (addBlockInputOp_nodes st b)
    (le_of_eq (addBlockInputOp_freshNode st b).symm)
    (by rw [addBlockInputOp_freshValue]; exact Nat.le_succ _) h

theorem bounds_setNodeAttrs (st : State) (n : Nat) (as2 : List (String × AttrVal))
    (h : Bounds st) : Bounds (setNodeAttrs st n as2) := by
  unfold setNodeAttrs updNode
  cases he : alookup st.nodes n with
  | none => exact h
  | some nd =>
    obtain ⟨hk, hi, ho⟩ := h.1 (n, nd) (alookup_mem st.nodes n nd he)
    exact bounds_aset_node st _ n _ rfl (Nat.le_refl _) (Nat.le_refl _) hk hi ho h

theorem bounds_addInputOp (st : State) (n v : Nat) (hv : v < st.freshValue)
    (h : Bounds st) : Bounds (addInputOp st n v) := by
  cases he : alookup st.nodes n with
  | none =>
    rw [addInputOp_absent st n v he]
    exact h
  | some nd =>
    obtain ⟨hk, hi, ho⟩ := h.1 (n, nd) (alookup_mem st.nodes n nd he)
    refine bounds_aset_node st (addInputOp st n v) n { nd with inputs := nd.inputs ++ [v] }
      ?_ ?_ ?_ ?_ ?_ ?_ h
    · rw [addInputOp_some st n v nd he, updValue_nodes]
    · rw [addInputOp_freshNode]
    · rw [addInputOp_freshValue]
    · rw [addInputOp_freshNode]
      exact hk
    · intro w hw
      rw [addInputOp_freshValue]
      rcases List.mem_append.mp hw with h1 | h1
      · exact hi w h1
      · rw [List.mem_singleton.mp h1]
        exact hv
    · intro w hw
      rw [addInputOp_freshValue]
      exact ho w hw

theorem bounds_setInputAt (st : State) (n i v : Nat) (hv : v < st.freshValue)
    (h : Bounds st) : Bounds (setInputAt st n i v) := by
  unfold setInputAt updNode
  cases he : alookup st.nodes n with
  | none => exact h
  | some nd =>
    obtain ⟨hk, hi, ho⟩ := h.1 (n, nd) (alookup_mem st.nodes n nd he)
    refine bounds_aset_node st _ n _ rfl (Nat.le_refl _) (Nat.le_refl _) hk ?_ ho h
    intro w hw
    rcases List.mem_or_eq_of_mem_set hw with h1 | h1
    · exact hi w h1
    · rw [h1]
      exact hv

theorem bounds_foldSet (us : List (Nat × Nat)) (st : State) (nv : Nat)
    (hv : nv < st.freshValue) (h : Bounds st) :
    Bounds (us.foldl (fun s p => setInputAt s p.1 p.2 nv) st) := by
  induction us generalizing st with
  | nil => exact h
  | cons p rest ih =>
    rw [List.foldl_cons]
    exact ih _ (by rw [setInputAt_freshValue]; exact hv)
      (bounds_setInputAt st p.1 p.2 nv hv h)

theorem bounds_replaceAllUses (st : State) (old nv : Nat) (hv : nv < st.freshValue)
    (h : Bounds st) : Bounds (replaceAllUses st old nv) := by
  have h1 := bounds_foldSet (valueUses st old) st nv hv h
  refine bounds_mono _ _ ?_ ?_ ?_ h1
  · simp only [replaceAllUses]
    rw [updValue_nodes, updValue_nodes]
  · apply le_of_eq
    simp only [replaceAllUses]
    rw [updValue_freshNode, updValue_freshNode]
  · apply le_of_eq
    simp only [replaceAllUses]
    rw [updValue_freshValue, updValue_freshValue]

theorem bounds_destroyNode (st : State) (n : Nat) (h : Bounds st) :
    Bounds (destroyNode st n) := by
  cases he : alookup st.nodes n with
  | none =>
    rw [destroyNode_absent st n he]
    exact h
  | some nd =>
    obtain ⟨h1, h2⟩ := h
    constructor
    · intro q hq
      rw [destroyNode_nodes_some st n nd he] at hq
      have hm := mem_aerase st.nodes n q hq
      rw [destroyNode_freshNode, destroyNode_freshValue]
      exact h1 q hm
    · rw [destroyNode_nodes_some st n nd he]
      exact nodupKeysB_aerase _ _ h2

/-! ### Inverting a validated match -/

theorem nodeOutputs_head (st : State) (n v : Nat)
    (h : (nodeOutputs st n).head? = some v) :
    ∃ nd, alookup st.nodes n = some nd ∧ nd.outputs.head? = some v := by
  unfold nodeOutputs at h
  cases he : alookup st.nodes n with
  | none =>
    rw [he] at h
    cases h
  | some nd =>
    rw [he] at h
    exact ⟨nd, rfl, h⟩

theorem nodeInputs_head (st : State) (n v : Nat)
    (h : (nodeInputs st n).head? = some v) :
    ∃ nd, alookup st.nodes n = some nd ∧ nd.inputs.head? = some v := by
  unfold nodeInputs at h
  cases he : alookup st.nodes n with
  | none =>
    rw [he] at h
    cases h
  | some nd =>
    rw [he] at h
    exact ⟨nd, rfl, h⟩

theorem matchFusion_fire_inv (st : State) (cur : Nat) (bn out0 bnOut0 v0 : Nat)
    (convVals bnVals : List Tensor) (eps : Int)
    (h : matchFusion st cur = MatchRes.fire bn out0 bnOut0 v0 convVals bnVals eps) :
    (nodeOutputs st cur).head? = some out0 ∧
    (∃ i, valueUses st out0 = [(bn, i)]) ∧
    kindOf st bn = Kind.batchNorm ∧
    (nodeOutputs st cur).length = (nodeOutputs st bn).length ∧
    attrF st bn "epsilon" = some eps ∧
    getValues st cur = some convVals ∧
    getValues st bn = some bnVals ∧
    1 ≤ convVals.length ∧
    bnVals.length = 4 ∧
    precondOk (convVals.getD 0 dT) (bnVals.getD 0 dT) (bnVals.getD 1 dT)
      (bnVals.getD 2 dT) (bnVals.getD 3 dT) = true ∧
    (nodeOutputs st bn).head? = some bnOut0 ∧
    (nodeInputs st cur).head? = some v0 := by
  unfold matchFusion at h
  split at h
  · exact MatchRes.noConfusion h
  next o ho =>
  split at h
  next p layout hu =>
    split at h
    · exact MatchRes.noConfusion h
    next hkind =>
    split at h
    · exact MatchRes.noConfusion h
    next harity =>
    split at h
    · exact MatchRes.noConfusion h
    next eps' heps =>
    split at h
    · exact MatchRes.noConfusion h
    next cv hcv =>
    split at h
    · exact MatchRes.noConfusion h
    next hsize =>
    split at h
    · exact MatchRes.noConfusion h
    next bv hbv =>
    split at h
    · exact MatchRes.noConfusion h
    next hlen4 =>
    split at h
    next hpre =>
      split at h
      next bnOut0x v0x hh1 hh2 =>
        injection h with h1 h2 h3 h4 h5 h6 h7
        subst h1
        subst h2
        subst h3
        subst h4
        subst h5
        subst h6
        subst h7
        refine ⟨ho, ⟨layout, hu⟩, not_not.mp hkind, not_not.mp harity, heps, hcv, hbv,
          Nat.le_of_not_lt (fun hlt => hsize (Or.inl hlt)), not_not.mp hlen4, hpre, hh1, hh2⟩
      next =>
        exact MatchRes.noConfusion h
    next hpre =>
      exact MatchRes.noConfusion h
  next hother =>
    exact MatchRes.noConfusion h

/-! ### Tracing the rewrite `applyFusion` -/

/-- The folded weight of lines 99-107: `convW * (bnScale / sqrt(bnVar + eps))`
with the per-channel factor broadcast across the non-channel dimensions. -/
def foldedWeight (sq : Int → Int) (convVals bnVals : List Tensor) (eps : Int) : Tensor :=
  scaleChannels ((convVals.getD 0 dT).clone)
    (foldScale sq ((bnVals.getD 0 dT).clone) ((bnVals.getD 3 dT).clone) eps)

/-- The folded bias of lines 108-116. -/
def foldedBias (sq : Int → Int) (convVals bnVals : List Tensor) (eps : Int)
    (numConvInputs : Nat) : Tensor :=
  foldBias convVals numConvInputs
    (foldScale sq ((bnVals.getD 0 dT).clone) ((bnVals.getD 3 dT).clone) eps)
    ((bnVals.getD 1 dT).clone) ((bnVals.getD 2 dT).clone)

theorem applyFusion_freshNode (sq : Int → Int) (b cur bn bnOut0 v0 : Nat)
    (convVals bnVals : List Tensor) (eps : Int) (st : State) :
    (applyFusion sq b cur bn bnOut0 v0 convVals bnVals eps st).freshNode =
      st.freshNode + 1 := by
  simp only [applyFusion]
  simp only [destroyNode_freshNode, replaceAllUses_freshNode, addInputOp_freshNode,
    setValueType_freshNode, mapInsert_freshNode, addBlockInputOp_freshNode,
    insertBeforeOp_freshNode, setNodeAttrs_freshNode, createConv_freshNode]

theorem applyFusion_freshValue (sq : Int → Int) (b cur bn bnOut0 v0 : Nat)
    (convVals bnVals : List Tensor) (eps : Int) (st : State) :
    (applyFusion sq b cur bn bnOut0 v0 convVals bnVals eps st).freshValue =
      st.freshValue + 1 + 1 + 1 := by
  simp only [applyFusion]
  simp only [destroyNode_freshValue, replaceAllUses_freshValue, addInputOp_freshValue,
    setValueType_freshValue, mapInsert_freshValue, addBlockInputOp_freshValue,
    insertBeforeOp_freshValue, setNodeAttrs_freshValue, createConv_freshValue]

theorem applyFusion_rootBlock (sq : Int → Int) (b cur bn bnOut0 v0 : Nat)
    (convVals bnVals : List Tensor) (eps : Int) (st : State) :
    (applyFusion sq b cur bn bnOut0 v0 convVals bnVals eps st).rootBlock =
      st.rootBlock := by
  simp only [applyFusion]
  simp only [destroyNode_rootBlock, replaceAllUses_rootBlock, addInputOp_rootBlock,
    setValueType_rootBlock, mapInsert_rootBlock, addBlockInputOp_rootBlock,
    insertBeforeOp_rootBlock, setNodeAttrs_rootBlock, createConv_rootBlock]

theorem alookup_destroyNode_self (st : State) (n : Nat) :
    alookup (destroyNode st n).nodes n = none := by
  cases he : alookup st.nodes n with
  | none =>
    rw [destroyNode_absent st n he]
    exact he
  | some nd =>
    rw [destroyNode_nodes_some st n nd he]
    exact alookup_aerase_self _ _

theorem alookup_destroyNode_ne (st : State) (n m : Nat) (h : m ≠ n) :
    alookup (destroyNode st n).nodes m = alookup st.nodes m := by
  cases he : alookup st.nodes n with
  | none =>
    rw [destroyNode_absent st n he]
  | some nd =>
    rw [destroyNode_nodes_some st n nd he]
    exact alookup_aerase_ne _ _ _ h

theorem applyFusion_destroyed (sq : Int → Int) (b cur bn bnOut0 v0 : Nat)
    (convVals bnVals : List Tensor) (eps : Int) (st : State) :
    alookup (applyFusion sq b cur bn bnOut0 v0 convVals bnVals eps st).nodes bn = none ∧
    alookup (applyFusion sq b cur bn bnOut0 v0 convVals bnVals eps st).nodes cur = none := by
  simp only [applyFusion]
  refine ⟨?_, alookup_destroyNode_self _ cur⟩
  by_cases hbc : bn = cur
  · rw [hbc]
    exact alookup_destroyNode_self _ cur
  · rw [alookup_destroyNode_ne _ cur bn hbc]
    exact alookup_destroyNode_self _ bn

theorem applyFusion_vmap_preserve (sq : Int → Int) (b cur bn bnOut0 v0 : Nat)
    (convVals bnVals : List Tensor) (eps : Int) (st : State)
    (k : Nat) (e : Nat × Tensor) (h : alookup st.vmap k = some e) :
    alookup (applyFusion sq b cur bn bnOut0 v0 convVals bnVals eps st).vmap k = some e := by
  simp only [applyFusion]
  simp only [destroyNode_vmap, replaceAllUses_vmap, addInputOp_vmap, setValueType_vmap]
  refine alookup_mapInsert_preserve _ _ _ _ _ ?_
  simp only [addBlockInputOp_vmap, addInputOp_vmap, setValueType_vmap]
  refine alookup_mapInsert_preserve _ _ _ _ _ ?_
  simp only [addBlockInputOp_vmap, addInputOp_vmap, insertBeforeOp_vmap, setNodeAttrs_vmap,
    setValueType_vmap, createConv_vmap]
  exact h

theorem foldSet_alookup_ne (us : List (Nat × Nat)) (st : State) (nv m : Nat)
    (h : ∀ p ∈ us, p.1 ≠ m) :
    alookup ((us.foldl (fun s p => setInputAt s p.1 p.2 nv) st)).nodes m =
      alookup st.nodes m := by
  induction us generalizing st with
  | nil => rfl
  | cons p rest ih =>
    rw [List.foldl_cons, ih _ (fun q hq => h q (List.mem_cons_of_mem _ hq)),
      alookup_setInputAt]
    have hne : ¬ (m = p.1) := fun he => h p (List.mem_cons_self _ _) he.symm
    rw [if_neg hne]

theorem alookup_replaceAllUses_ne (st : State) (old nv m : Nat)
    (h : ∀ p ∈ valueUses st old, p.1 ≠ m) :
    alookup (replaceAllUses st old nv).nodes m = alookup st.nodes m := by
  have hn : (replaceAllUses st old nv).nodes =
      ((valueUses st old).foldl (fun s p => setInputAt s p.1 p.2 nv) st).nodes := by
    simp only [replaceAllUses]
    rw [updValue_nodes, updValue_nodes]
  rw [hn]
  exact foldSet_alookup_ne _ _ _ _ h

theorem alookup_addInputOp_ne (st : State) (n v m : Nat) (h : m ≠ n) :
    alookup (addInputOp st n v).nodes m = alookup st.nodes m := by
  cases he : alookup st.nodes n with
  | none => rw [addInputOp_absent st n v he]
  | some nd =>
    rw [alookup_addInputOp_nodes st n v nd he, if_neg h]

theorem applyFusion_frame (sq : Int → Int) (b cur bn bnOut0 v0 : Nat)
    (convVals bnVals : List Tensor) (eps : Int) (st : State) (m : Nat)
    (hm1 : m ≠ bn) (hm2 : m ≠ cur) (hm3 : m < st.freshNode) :
    (alookup (applyFusion sq b cur bn bnOut0 v0 convVals bnVals eps st).nodes m).map
        nodeShape =
      (alookup st.nodes m).map nodeShape := by
  have hnid : m ≠ st.freshNode := by omega
  simp only [applyFusion]
  rw [alookup_destroyNode_ne _ cur m hm2, alookup_destroyNode_ne _ bn m hm1,
    replaceAllUses_nodes_shape, alookup_addInputOp_ne _ _ _ _ hnid]
  simp only [setValueType_nodes, mapInsert_nodes, addBlockInputOp_nodes]
  rw [alookup_addInputOp_ne _ _ _ _ hnid]
  simp only [setValueType_nodes, mapInsert_nodes, addBlockInputOp_nodes]
  rw [alookup_addInputOp_ne _ _ _ _ hnid]
  simp only [insertBeforeOp_nodes]
  rw [alookup_setNodeAttrs, if_neg hnid]
  simp only [setValueType_nodes, createConv_nodes]
  rw [alookup_aset_ne _ _ _ _ hnid]

theorem memB_false_of_bound (x : Nat) (l : List Nat) (h : ¬ x ∈ l) : memB x l = false := by
  cases hm : memB x l
  · rfl
  · exact absurd ((memB_iff x l).mp hm) h

theorem valueType_of_values_eq (st st' : State) (h : st'.values = st.values) (w : Nat) :
    valueType st' w = valueType st w := by
  unfold valueType
  rw [h]

theorem valueType_addInputOp (st : State) (n v w : Nat) :
    valueType (addInputOp st n v) w = valueType st w := by
  cases he : alookup st.nodes n with
  | none => rw [addInputOp_absent st n v he]
  | some nd =>
    unfold valueType
    rw [alookup_addInputOp_values st n v nd he]
    by_cases hw : w = v
    · rw [if_pos hw, hw]
      cases alookup st.values v with
      | none => rfl
      | some vd => rfl
    · rw [if_neg hw]

theorem valueType_setValueType_ne (st : State) (v : Nat) (ty : Option (List Nat × DType))
    (w : Nat) (h : w ≠ v) : valueType (setValueType st v ty) w = valueType st w := by
  unfold valueType
  rw [alookup_setValueType, if_neg h]

theorem valueType_addBlockInputOp_ne (st : State) (b w : Nat) (h : w ≠ st.freshValue) :
    valueType (addBlockInputOp st b) w = valueType st w := by
  unfold valueType
  rw [addBlockInputOp_values, alookup_aset_ne _ _ _ _ h]

theorem valueType_updValue_append (st : State) (x : Nat) (us : List (Nat × Nat)) (w : Nat) :
    valueType (updValue st x (fun vd => { vd with uses := vd.uses ++ us })) w =
      valueType st w := by
  unfold valueType
  rw [alookup_updValue]
  by_cases hw : w = x
  · rw [if_pos hw, hw]
    cases alookup st.values x with
    | none => rfl
    | some vd => rfl
  · rw [if_neg hw]

theorem valueType_updValue_clear (st : State) (x w : Nat) :
    valueType (updValue st x (fun vd => { vd with uses := [] })) w = valueType st w := by
  unfold valueType
  rw [alookup_updValue]
  by_cases hw : w = x
  · rw [if_pos hw, hw]
    cases alookup st.values x with
    | none => rfl
    | some vd => rfl
  · rw [if_neg hw]

theorem valueType_replaceAllUses (st : State) (old nv w : Nat) :
    valueType (replaceAllUses st old nv) w = valueType st w := by
  simp only [replaceAllUses]
  rw [valueType_updValue_clear, valueType_updValue_append,
    valueType_of_values_eq _ _ (foldSet_values _ _ _) w]

theorem applyFusion_newNode (sq : Int → Int) (b cur bn bnOut0 v0 : Nat)
    (convVals bnVals : List Tensor) (eps : Int) (st : State)
    (cnd bnd : NodeData)
    (hcur : alookup st.nodes cur = some cnd)
    (hbn : alookup st.nodes bn = some bnd)
    (hkeys : ∀ q ∈ st.nodes, q.1 < st.freshNode)
    (hndk : nodupKeysB st.nodes = true)
    (hInt : Integrity st)
    (hvb : v0 ≠ bnOut0)
    (hbolt : bnOut0 < st.freshValue) :
    alookup (applyFusion sq b cur bn bnOut0 v0 convVals bnVals eps st).nodes st.freshNode =
      some ⟨Kind.conv, [v0, st.freshValue + 1, st.freshValue + 1 + 1], [st.freshValue],
        nodeAttrs st cur, []⟩ := by
  have hbnlt : bn < st.freshNode := hkeys (bn, bnd) (alookup_mem _ _ _ hbn)
  have hcurlt : cur < st.freshNode := hkeys (cur, cnd) (alookup_mem _ _ _ hcur)
  simp only [applyFusion]
  simp only [createConv_freshValue, createConv_freshNode, createConv_rootBlock,
    setValueType_freshValue, setValueType_freshNode, setValueType_rootBlock,
    setNodeAttrs_freshValue, setNodeAttrs_freshNode, setNodeAttrs_rootBlock,
    insertBeforeOp_freshValue, insertBeforeOp_freshNode, insertBeforeOp_rootBlock,
    addInputOp_freshValue, addInputOp_freshNode, addInputOp_rootBlock,
    addBlockInputOp_freshValue, addBlockInputOp_freshNode, addBlockInputOp_rootBlock,
    mapInsert_freshValue, mapInsert_freshNode, mapInsert_rootBlock]
  set sF := foldScale sq ((bnVals.getD 0 dT).clone) ((bnVals.getD 3 dT).clone) eps with hsF
  set cw := scaleChannels ((convVals.getD 0 dT).clone) sF with hcw
  set cb := foldBias convVals (nodeInputs st cur).length sF ((bnVals.getD 1 dT).clone)
    ((bnVals.getD 2 dT).clone) with hcb
  set st1 := createConv st with hst1
  set st2 := setValueType st1 st.freshValue (valueType st bnOut0) with hst2
  set st3 := setNodeAttrs st2 st.freshNode (nodeAttrs st cur) with hst3
  set st4 := insertBeforeOp st3 bn st.freshNode with hst4
  set st5 := addInputOp st4 st.freshNode v0 with hst5
  set st6 := addBlockInputOp st5 st.rootBlock with hst6
  set st7 := mapInsert st6 (st.freshValue + 1) cw with hst7
  set st8 := setValueType st7 (st.freshValue + 1) (some (cw.shape, cw.dtype)) with hst8
  set st9 := addInputOp st8 st.freshNode (st.freshValue + 1) with hst9
  set st10 := addBlockInputOp st9 b with hst10
  set st11 := mapInsert st10 (st.freshValue + 1 + 1) cb with hst11
  set st12 := setValueType st11 (st.freshValue + 1 + 1) (some (cb.shape, cb.dtype)) with hst12
  set st13 := addInputOp st12 st.freshNode (st.freshValue + 1 + 1) with hst13
  have hfv5 : st5.freshValue = st.freshValue + 1 := by
    rw [hst5, addInputOp_freshValue, hst4, insertBeforeOp_freshValue, hst3,
      setNodeAttrs_freshValue, hst2, setValueType_freshValue, hst1, createConv_freshValue]
  have hfv9 : st9.freshValue = st.freshValue + 1 + 1 := by
    rw [hst9, addInputOp_freshValue, hst8, setValueType_freshValue, hst7,
      mapInsert_freshValue, hst6, addBlockInputOp_freshValue, hfv5]
  have hn1 : alookup st1.nodes st.freshNode =
      some ⟨Kind.conv, [], [st.freshValue], [], []⟩ := by
    rw [hst1, createConv_nodes]
    exact alookup_aset_self _ _ _
  have hn4 : alookup st4.nodes st.freshNode =
      some ⟨Kind.conv, [], [st.freshValue], nodeAttrs st cur, []⟩ := by
    rw [hst4, insertBeforeOp_nodes, hst3, alookup_setNodeAttrs, if_pos rfl, hst2,
      setValueType_nodes, hn1]
    rfl
  have hn5 : alookup st5.nodes st.freshNode =
      some ⟨Kind.conv, [v0], [st.freshValue], nodeAttrs st cur, []⟩ := by
    rw [hst5, alookup_addInputOp_nodes st4 st.freshNode v0 _ hn4, if_pos rfl]
    rfl
  have hn8 : alookup st8.nodes st.freshNode =
      some ⟨Kind.conv, [v0], [st.freshValue], nodeAttrs st cur, []⟩ := by
    rw [hst8, setValueType_nodes, hst7, mapInsert_nodes, hst6, addBlockInputOp_nodes]
    exact hn5
  have hn9 : alookup st9.nodes st.freshNode =
      some ⟨Kind.conv, [v0, st.freshValue + 1], [st.freshValue], nodeAttrs st cur, []⟩ := by
    rw [hst9, alookup_addInputOp_nodes st8 st.freshNode (st.freshValue + 1) _ hn8, if_pos rfl]
    rfl
  have hn12 : alookup st12.nodes st.freshNode =
      some ⟨Kind.conv, [v0, st.freshValue + 1], [st.freshValue], nodeAttrs st cur, []⟩ := by
    rw [hst12, setValueType_nodes, hst11, mapInsert_nodes, hst10, addBlockInputOp_nodes]
    exact hn9
  have hn13 : alookup st13.nodes st.freshNode =
      some ⟨Kind.conv, [v0, st.freshValue + 1, st.freshValue + 1 + 1], [st.freshValue],
        nodeAttrs st cur, []⟩ := by
    rw [hst13, alookup_addInputOp_nodes st12 st.freshNode (st.freshValue + 1 + 1) _ hn12,
      if_pos rfl]
    rfl
  have hval1 : alookup st1.values bnOut0 = alookup st.values bnOut0 := by
    rw [hst1, createConv_values]
    exact alookup_aset_ne _ _ _ _ (by omega)
  have hval4 : alookup st4.values bnOut0 = alookup st.values bnOut0 := by
    rw [hst4, insertBeforeOp_values, hst3, setNodeAttrs_values, hst2, alookup_setValueType]
    rw [if_neg (by omega : ¬ bnOut0 = st.freshValue)]
    exact hval1
  have hval5 : alookup st5.values bnOut0 = alookup st.values bnOut0 := by
    rw [hst5, alookup_addInputOp_values st4 st.freshNode v0 _ hn4,
      if_neg (fun he => hvb he.symm)]
    exact hval4
  have hval8 : alookup st8.values bnOut0 = alookup st.values bnOut0 := by
    rw [hst8, alookup_setValueType, if_neg (by omega : ¬ bnOut0 = st.freshValue + 1), hst7,
      mapInsert_values, hst6, addBlockInputOp_values, hfv5,
      alookup_aset_ne _ _ _ _ (by omega)]
    exact hval5
  have hval9 : alookup st9.values bnOut0 = alookup st.values bnOut0 := by
    rw [hst9, alookup_addInputOp_values st8 st.freshNode (st.freshValue + 1) _ hn8,
      if_neg (by omega : ¬ bnOut0 = st.freshValue + 1)]
    exact hval8
  have hval12 : alookup st12.values bnOut0 = alookup st.values bnOut0 := by
    rw [hst12, alookup_setValueType, if_neg (by omega : ¬ bnOut0 = st.freshValue + 1 + 1),
      hst11, mapInsert_values, hst10, addBlockInputOp_values, hfv9,
      alookup_aset_ne _ _ _ _ (by omega)]
    exact hval9
  have hval13 : alookup st13.values bnOut0 = alookup st.values bnOut0 := by
    rw [hst13, alookup_addInputOp_values st12 st.freshNode (st.freshValue + 1 + 1) _ hn12,
      if_neg (by omega : ¬ bnOut0 = st.freshValue + 1 + 1)]
    exact hval12
  have husesEq : valueUses st13 bnOut0 = valueUses st bnOut0 := by
    unfold valueUses
    rw [hval13]
  have huses : ∀ p ∈ valueUses st13 bnOut0, p.1 ≠ st.freshNode := by
    rw [husesEq]
    intro p hp he
    obtain ⟨hold, -⟩ := uses_valid_of_integrity st bnOut0 hndk hInt
    have h1 := hold p hp
    unfold inputAt at h1
    cases he2 : alookup st.nodes p.1 with
    | none =>
      rw [he2] at h1
      cases h1
    | some nd2 =>
      have := hkeys (p.1, nd2) (alookup_mem _ _ _ he2)
      omega
  rw [alookup_destroyNode_ne _ cur st.freshNode (by omega),
    alookup_destroyNode_ne _ bn st.freshNode (by omega),
    alookup_replaceAllUses_ne st13 bnOut0 st.freshValue st.freshNode huses]
  exact hn13

theorem valueType_mapInsert (st : State) (v : Nat) (t : Tensor) (w : Nat) :
    valueType (mapInsert st v t) w = valueType st w :=
  valueType_of_values_eq _ _ (mapInsert_values st v t) w

theorem valueType_insertBeforeOp (st : State) (bn nid w : Nat) :
    valueType (insertBeforeOp st bn nid) w = valueType st w :=
  valueType_of_values_eq _ _ (insertBeforeOp_values st bn nid) w

theorem valueType_setNodeAttrs (st : State) (n : Nat) (as2 : List (String × AttrVal))
    (w : Nat) : valueType (setNodeAttrs st n as2) w = valueType st w :=
  valueType_of_values_eq _ _ (setNodeAttrs_values st n as2) w

theorem valueType_setValueType_self (st : State) (v : Nat) (ty : Option (List Nat × DType))
    (vd : ValueData) (h : alookup st.values v = some vd) :
    valueType (setValueType st v ty) v = ty := by
  unfold valueType
  rw [alookup_setValueType, if_pos rfl, h]
  rfl

theorem applyFusion_types (sq : Int → Int) (b cur bn bnOut0 v0 : Nat)
    (convVals bnVals : List Tensor) (eps : Int) (st : State)
    (cnd bnd : NodeData)
    (hcur : alookup st.nodes cur = some cnd)
    (hbn : alookup st.nodes bn = some bnd)
    (hkeys : ∀ q ∈ st.nodes, q.1 < st.freshNode)
    (hocur : ∀ w ∈ cnd.outputs, w < st.freshValue)
    (hobn : ∀ w ∈ bnd.outputs, w < st.freshValue)
    (hbc : bn ≠ cur) :
    valueType (applyFusion sq b cur bn bnOut0 v0 convVals bnVals eps st) st.freshValue =
      valueType st bnOut0 ∧
    valueType (applyFusion sq b cur bn bnOut0 v0 convVals bnVals eps st)
        (st.freshValue + 1) =
      some ((foldedWeight sq convVals bnVals eps).shape,
        (foldedWeight sq convVals bnVals eps).dtype) ∧
    valueType (applyFusion sq b cur bn bnOut0 v0 convVals bnVals eps st)
        (st.freshValue + 1 + 1) =
      some ((foldedBias sq convVals bnVals eps (nodeInputs st cur).length).shape,
        (foldedBias sq convVals bnVals eps (nodeInputs st cur).length).dtype) := by
  have hbnlt : bn < st.freshNode := hkeys (bn, bnd) (alookup_mem _ _ _ hbn)
  have hcurlt : cur < st.freshNode := hkeys (cur, cnd) (alookup_mem _ _ _ hcur)
  simp only [applyFusion]
  simp only [createConv_freshValue, createConv_freshNode, createConv_rootBlock,
    setValueType_freshValue, setValueType_freshNode, setValueType_rootBlock,
    setNodeAttrs_freshValue, setNodeAttrs_freshNode, setNodeAttrs_rootBlock,
    insertBeforeOp_freshValue, insertBeforeOp_freshNode, insertBeforeOp_rootBlock,
    addInputOp_freshValue, addInputOp_freshNode, addInputOp_rootBlock,
    addBlockInputOp_freshValue, addBlockInputOp_freshNode, addBlockInputOp_rootBlock,
    mapInsert_freshValue, mapInsert_freshNode, mapInsert_rootBlock]
  set sF := foldScale sq ((bnVals.getD 0 dT).clone) ((bnVals.getD 3 dT).clone) eps with hsF
  set cw := scaleChannels ((convVals.getD 0 dT).clone) sF with hcw
  set cb := foldBias convVals (nodeInputs st cur).length sF ((bnVals.getD 1 dT).clone)
    ((bnVals.getD 2 dT).clone) with hcb
  set st1 := createConv st with hst1
  set st2 := setValueType st1 st.freshValue (valueType st bnOut0) with hst2
  set st3 := setNodeAttrs st2 st.freshNode (nodeAttrs st cur) with hst3
  set st4 := insertBeforeOp st3 bn st.freshNode with hst4
  set st5 := addInputOp st4 st.freshNode v0 with hst5
  set st6 := addBlockInputOp st5 st.rootBlock with hst6
  set st7 := mapInsert st6 (st.freshValue + 1) cw with hst7
  set st8 := setValueType st7 (st.freshValue + 1) (some (cw.shape, cw.dtype)) with hst8
  set st9 := addInputOp st8 st.freshNode (st.freshValue + 1) with hst9
  set st10 := addBlockInputOp st9 b with hst10
  set st11 := mapInsert st10 (st.freshValue + 1 + 1) cb with hst11
  set st12 := setValueType st11 (st.freshValue + 1 + 1) (some (cb.shape, cb.dtype)) with hst12
  set st13 := addInputOp st12 st.freshNode (st.freshValue + 1 + 1) with hst13
  set st14 := replaceAllUses st13 bnOut0 st.freshValue with hst14
  set st15 := destroyNode st14 bn with hst15
  have hfv5 : st5.freshValue = st.freshValue + 1 := by
    rw [hst5, addInputOp_freshValue, hst4, insertBeforeOp_freshValue, hst3,
      setNodeAttrs_freshValue, hst2, setValueType_freshValue, hst1, createConv_freshValue]
  have hfv9 : st9.freshValue = st.freshValue + 1 + 1 := by
    rw [hst9, addInputOp_freshValue, hst8, setValueType_freshValue, hst7,
      mapInsert_freshValue, hst6, addBlockInputOp_freshValue, hfv5]
  have hfwcw : foldedWeight sq convVals bnVals eps = cw := by
    rw [hcw, hsF]
    rfl
  have hfbcb : foldedBias sq convVals bnVals eps (nodeInputs st cur).length = cb := by
    rw [hcb, hsF]
    rfl
  have hnbn13 : alookup st13.nodes bn = some bnd := by
    rw [hst13, alookup_addInputOp_ne _ _ _ _ (by omega : bn ≠ st.freshNode), hst12,
      setValueType_nodes, hst11, mapInsert_nodes, hst10, addBlockInputOp_nodes, hst9,
      alookup_addInputOp_ne _ _ _ _ (by omega : bn ≠ st.freshNode), hst8,
      setValueType_nodes, hst7, mapInsert_nodes, hst6, addBlockInputOp_nodes, hst5,
      alookup_addInputOp_ne _ _ _ _ (by omega : bn ≠ st.freshNode), hst4,
      insertBeforeOp_nodes, hst3, alookup_setNodeAttrs,
      if_neg (by omega : ¬ bn = st.freshNode), hst2, setValueType_nodes, hst1,
      createConv_nodes, alookup_aset_ne _ _ _ _ (by omega : bn ≠ st.freshNode)]
    exact hbn
  have hncur13 : alookup st13.nodes cur = some cnd := by
    rw [hst13, alookup_addInputOp_ne _ _ _ _ (by omega : cur ≠ st.freshNode), hst12,
      setValueType_nodes, hst11, mapInsert_nodes, hst10, addBlockInputOp_nodes, hst9,
      alookup_addInputOp_ne _ _ _ _ (by omega : cur ≠ st.freshNode), hst8,
      setValueType_nodes, hst7, mapInsert_nodes, hst6, addBlockInputOp_nodes, hst5,
      alookup_addInputOp_ne _ _ _ _ (by omega : cur ≠ st.freshNode), hst4,
      insertBeforeOp_nodes, hst3, alookup_setNodeAttrs,
      if_neg (by omega : ¬ cur = st.freshNode), hst2, setValueType_nodes, hst1,
      createConv_nodes, alookup_aset_ne _ _ _ _ (by omega : cur ≠ st.freshNode)]
    exact hcur
  have hdestr : ∀ w : Nat, ¬ w ∈ bnd.outputs → ¬ w ∈ cnd.outputs →
      valueType (destroyNode st15 cur) w = valueType st13 w := by
    intro w hw1 hw2
    have hsh14 := replaceAllUses_nodes_shape st13 bnOut0 st.freshValue bn
    rw [hnbn13] at hsh14
    rw [← hst14] at hsh14
    cases he14 : alookup st14.nodes bn with
    | none =>
      rw [he14] at hsh14
      simp at hsh14
    | some bnd14 =>
      rw [he14] at hsh14
      simp only [Option.map_some'] at hsh14
      have hout14 : bnd14.outputs = bnd.outputs := by
        have := Option.some.inj hsh14
        exact congrArg (fun t => t.2.1) this
      have hv15 : valueType st15 w = valueType st14 w := by
        rw [hst15]
        refine destroyNode_valueType st14 bn bnd14 he14 w ?_
        rw [hout14]
        exact memB_false_of_bound _ _ hw1
      have hshc := replaceAllUses_nodes_shape st13 bnOut0 st.freshValue cur
      rw [hncur13] at hshc
      rw [← hst14] at hshc
      cases hec14 : alookup st14.nodes cur with
      | none =>
        rw [hec14] at hshc
        simp at hshc
      | some cnd14 =>
        rw [hec14] at hshc
        simp only [Option.map_some'] at hshc
        have houtc : cnd14.outputs = cnd.outputs := by
          have := Option.some.inj hshc
          exact congrArg (fun t => t.2.1) this
        have hec15 : alookup st15.nodes cur = some cnd14 := by
          rw [hst15, alookup_destroyNode_ne _ bn cur (fun he => hbc he.symm)]
          exact hec14
        have hv16 : valueType (destroyNode st15 cur) w = valueType st15 w := by
          refine destroyNode_valueType st15 cur cnd14 hec15 w ?_
          rw [houtc]
          exact memB_false_of_bound _ _ hw2
        rw [hv16, hv15, hst14, valueType_replaceAllUses]
  have hvo1 : alookup st1.values st.freshValue =
      some ⟨Definer.byNode st.freshNode 0, none, []⟩ := by
    rw [hst1, createConv_values]
    exact alookup_aset_self _ _ _
  have hvo2 : valueType st2 st.freshValue = valueType st bnOut0 := by
    rw [hst2]
    exact valueType_setValueType_self st1 _ _ _ hvo1
  have hvo13 : valueType st13 st.freshValue = valueType st bnOut0 := by
    rw [hst13, valueType_addInputOp, hst12,
      valueType_setValueType_ne _ _ _ _ (by omega), hst11, valueType_mapInsert, hst10,
      valueType_addBlockInputOp_ne _ _ _ (by rw [hfv9]; omega), hst9, valueType_addInputOp,
      hst8, valueType_setValueType_ne _ _ _ _ (by omega), hst7, valueType_mapInsert, hst6,
      valueType_addBlockInputOp_ne _ _ _ (by rw [hfv5]; omega), hst5, valueType_addInputOp,
      hst4, valueType_insertBeforeOp, hst3, valueType_setNodeAttrs]
    exact hvo2
  have hvw6 : alookup st6.values (st.freshValue + 1) =
      some ⟨Definer.byBlock st.rootBlock, none, []⟩ := by
    rw [hst6, addBlockInputOp_values, hfv5]
    exact alookup_aset_self _ _ _
  have hvw7 : alookup st7.values (st.freshValue + 1) =
      some ⟨Definer.byBlock st.rootBlock, none, []⟩ := by
    rw [hst7, mapInsert_values]
    exact hvw6
  have hvw8 : valueType st8 (st.freshValue + 1) = some (cw.shape, cw.dtype) := by
    rw [hst8]
    exact valueType_setValueType_self st7 _ _ _ hvw7
  have hvw13 : valueType st13 (st.freshValue + 1) = some (cw.shape, cw.dtype) := by
    rw [hst13, valueType_addInputOp, hst12,
      valueType_setValueType_ne _ _ _ _ (by omega), hst11, valueType_mapInsert, hst10,
      valueType_addBlockInputOp_ne _ _ _ (by rw [hfv9]; omega), hst9, valueType_addInputOp]
    exact hvw8
  have hvb10 : alookup st10.values (st.freshValue + 1 + 1) =
      some ⟨Definer.byBlock b, none, []⟩ := by
    rw [hst10, addBlockInputOp_values, hfv9]
    exact alookup_aset_self _ _ _
  have hvb11 : alookup st11.values (st.freshValue + 1 + 1) =
      some ⟨Definer.byBlock b, none, []⟩ := by
    rw [hst11, mapInsert_values]
    exact hvb10
  have hvb12 : valueType st12 (st.freshValue + 1 + 1) = some (cb.shape, cb.dtype) := by
    rw [hst12]
    exact valueType_setValueType_self st11 _ _ _ hvb11
  have hvb13 : valueType st13 (st.freshValue + 1 + 1) = some (cb.shape, cb.dtype) := by
    rw [hst13, valueType_addInputOp]
    exact hvb12
  have hnm1 : ∀ w : Nat, st.freshValue ≤ w → ¬ w ∈ bnd.outputs := by
    intro w hle hmem
    have := hobn w hmem
    omega
  have hnm2 : ∀ w : Nat, st.freshValue ≤ w → ¬ w ∈ cnd.outputs := by
    intro w hle hmem
    have := hocur w hmem
    omega
  refine ⟨?_, ?_, ?_⟩
  · rw [hdestr _ (hnm1 _ (Nat.le_refl _)) (hnm2 _ (Nat.le_refl _))]
    exact hvo13
  · rw [hfwcw, hdestr _ (hnm1 _ (by omega)) (hnm2 _ (by omega))]
    exact hvw13
  · rw [hfbcb, hdestr _ (hnm1 _ (by omega)) (hnm2 _ (by omega))]
    exact hvb13

theorem alookup_mapInsert_ne (st : State) (v : Nat) (t : Tensor) (k : Nat) (h : k ≠ v) :
    alookup (mapInsert st v t).vmap k = alookup st.vmap k := by
  unfold mapInsert
  cases he : alookup st.vmap v with
  | some q => rfl
  | none =>
    show (if v = k then some (v, t) else alookup st.vmap k) = alookup st.vmap k
    rw [if_neg (fun he2 => h he2.symm)]

theorem applyFusion_params_blocks (sq : Int → Int) (b cur bn bnOut0 v0 : Nat)
    (convVals bnVals : List Tensor) (eps : Int) (st : State)
    (cnd bnd : NodeData)
    (hcur : alookup st.nodes cur = some cnd)
    (hbn : alookup st.nodes bn = some bnd)
    (hkeys : ∀ q ∈ st.nodes, q.1 < st.freshNode)
    (hbc : bn ≠ cur)
    (hwv : alookup st.vmap (st.freshValue + 1) = none)
    (hbvm : alookup st.vmap (st.freshValue + 1 + 1) = none) :
    alookup (applyFusion sq b cur bn bnOut0 v0 convVals bnVals eps st).vmap
        (st.freshValue + 1) =
      some (st.freshValue + 1, foldedWeight sq convVals bnVals eps) ∧
    alookup (applyFusion sq b cur bn bnOut0 v0 convVals bnVals eps st).vmap
        (st.freshValue + 1 + 1) =
      some (st.freshValue + 1 + 1,
        foldedBias sq convVals bnVals eps (nodeInputs st cur).length) ∧
    (∀ p : Nat, p ≠ st.rootBlock → p ≠ b →
      alookup (applyFusion sq b cur bn bnOut0 v0 convVals bnVals eps st).blocksT p =
        (alookup st.blocksT p).map (fun bd => { bd with nodes := ((insertBeforeList bd.nodes bn st.freshNode).filter (· ≠ bn)).filter (· ≠ cur) })) ∧
    (∀ rbd : BlockData, b ≠ st.rootBlock → alookup st.blocksT st.rootBlock = some rbd →
      alookup (applyFusion sq b cur bn bnOut0 v0 convVals bnVals eps st).blocksT
          st.rootBlock =
        some ⟨rbd.binputs ++ [st.freshValue + 1], ((insertBeforeList rbd.nodes bn st.freshNode).filter (· ≠ bn)).filter (· ≠ cur)⟩) ∧
    (∀ bbd : BlockData, b ≠ st.rootBlock → alookup st.blocksT b = some bbd →
      alookup (applyFusion sq b cur bn bnOut0 v0 convVals bnVals eps st).blocksT b =
        some ⟨bbd.binputs ++ [st.freshValue + 1 + 1], ((insertBeforeList bbd.nodes bn st.freshNode).filter (· ≠ bn)).filter (· ≠ cur)⟩) := by
  have hbnlt : bn < st.freshNode := hkeys (bn, bnd) (alookup_mem _ _ _ hbn)
  have hcurlt : cur < st.freshNode := hkeys (cur, cnd) (alookup_mem _ _ _ hcur)
  simp only [applyFusion]
  simp only [createConv_freshValue, createConv_freshNode, createConv_rootBlock,
    setValueType_freshValue, setValueType_freshNode, setValueType_rootBlock,
    setNodeAttrs_freshValue, setNodeAttrs_freshNode, setNodeAttrs_rootBlock,
    insertBeforeOp_freshValue, insertBeforeOp_freshNode, insertBeforeOp_rootBlock,
    addInputOp_freshValue, addInputOp_freshNode, addInputOp_rootBlock,
    addBlockInputOp_freshValue, addBlockInputOp_freshNode, addBlockInputOp_rootBlock,
    mapInsert_freshValue, mapInsert_freshNode, mapInsert_rootBlock]
  set sF := foldScale sq ((bnVals.getD 0 dT).clone) ((bnVals.getD 3 dT).clone) eps with hsF
  set cw := scaleChannels ((convVals.getD 0 dT).clone) sF with hcw
  set cb := foldBias convVals (nodeInputs st cur).length sF ((bnVals.getD 1 dT).clone)
    ((bnVals.getD 2 dT).clone) with hcb
  set st1 := createConv st with hst1
  set st2 := setValueType st1 st.freshValue (valueType st bnOut0) with hst2
  set st3 := setNodeAttrs st2 st.freshNode (nodeAttrs st cur) with hst3
  set st4 := insertBeforeOp st3 bn st.freshNode with hst4
  set st5 := addInputOp st4 st.freshNode v0 with hst5
  set st6 := addBlockInputOp st5 st.rootBlock with hst6
  set st7 := mapInsert st6 (st.freshValue + 1) cw with hst7
  set st8 := setValueType st7 (st.freshValue + 1) (some (cw.shape, cw.dtype)) with hst8
  set st9 := addInputOp st8 st.freshNode (st.freshValue + 1) with hst9
  set st10 := addBlockInputOp st9 b with hst10
  set st11 := mapInsert st10 (st.freshValue + 1 + 1) cb with hst11
  set st12 := setValueType st11 (st.freshValue + 1 + 1) (some (cb.shape, cb.dtype)) with hst12
  set st13 := addInputOp st12 st.freshNode (st.freshValue + 1 + 1) with hst13
  set st14 := replaceAllUses st13 bnOut0 st.freshValue with hst14
  set st15 := destroyNode st14 bn with hst15
  have hfv5 : st5.freshValue = st.freshValue + 1 := by
    rw [hst5, addInputOp_freshValue, hst4, insertBeforeOp_freshValue, hst3,
      setNodeAttrs_freshValue, hst2, setValueType_freshValue, hst1, createConv_freshValue]
  have hfv9 : st9.freshValue = st.freshValue + 1 + 1 := by
    rw [hst9, addInputOp_freshValue, hst8, setValueType_freshValue, hst7,
      mapInsert_freshValue, hst6, addBlockInputOp_freshValue, hfv5]
  have hfwcw : foldedWeight sq convVals bnVals eps = cw := by
    rw [hcw, hsF]
    rfl
  have hfbcb : foldedBias sq convVals bnVals eps (nodeInputs st cur).length = cb := by
    rw [hcb, hsF]
    rfl
  have hnbn13 : alookup st13.nodes bn = some bnd := by
    rw [hst13, alookup_addInputOp_ne _ _ _ _ (by omega : bn ≠ st.freshNode), hst12,
      setValueType_nodes, hst11, mapInsert_nodes, hst10, addBlockInputOp_nodes, hst9,
      alookup_addInputOp_ne _ _ _ _ (by omega : bn ≠ st.freshNode), hst8,
      setValueType_nodes, hst7, mapInsert_nodes, hst6, addBlockInputOp_nodes, hst5,
      alookup_addInputOp_ne _ _ _ _ (by omega : bn ≠ st.freshNode), hst4,
      insertBeforeOp_nodes, hst3, alookup_setNodeAttrs,
      if_neg (by omega : ¬ bn = st.freshNode), hst2, setValueType_nodes, hst1,
      createConv_nodes, alookup_aset_ne _ _ _ _ (by omega : bn ≠ st.freshNode)]
    exact hbn
  have hncur13 : alookup st13.nodes cur = some cnd := by
    rw [hst13, alookup_addInputOp_ne _ _ _ _ (by omega : cur ≠ st.freshNode), hst12,
      setValueType_nodes, hst11, mapInsert_nodes, hst10, addBlockInputOp_nodes, hst9,
      alookup_addInputOp_ne _ _ _ _ (by omega : cur ≠ st.freshNode), hst8,
      setValueType_nodes, hst7, mapInsert_nodes, hst6, addBlockInputOp_nodes, hst5,
      alookup_addInputOp_ne _ _ _ _ (by omega : cur ≠ st.freshNode), hst4,
      insertBeforeOp_nodes, hst3, alookup_setNodeAttrs,
      if_neg (by omega : ¬ cur = st.freshNode), hst2, setValueType_nodes, hst1,
      createConv_nodes, alookup_aset_ne _ _ _ _ (by omega : cur ≠ st.freshNode)]
    exact hcur
  have hwv6 : alookup st6.vmap (st.freshValue + 1) = none := by
    rw [hst6, addBlockInputOp_vmap, hst5, addInputOp_vmap, hst4, insertBeforeOp_vmap,
      hst3, setNodeAttrs_vmap, hst2, setValueType_vmap, hst1, createConv_vmap]
    exact hwv
  have hbv10 : alookup st10.vmap (st.freshValue + 1 + 1) = none := by
    rw [hst10, addBlockInputOp_vmap, hst9, addInputOp_vmap, hst8, setValueType_vmap,
      hst7, alookup_mapInsert_ne _ _ _ _ (by omega), hst6, addBlockInputOp_vmap, hst5,
      addInputOp_vmap, hst4, insertBeforeOp_vmap, hst3, setNodeAttrs_vmap, hst2,
      setValueType_vmap, hst1, createConv_vmap]
    exact hbvm
  have hdestrB : ∀ p : Nat, alookup (destroyNode st15 cur).blocksT p =
      (alookup st13.blocksT p).map (fun bd => { bd with nodes := (bd.nodes.filter (· ≠ bn)).filter (· ≠ cur) }) := by
    intro p
    have hsh14 := replaceAllUses_nodes_shape st13 bnOut0 st.freshValue bn
    rw [hnbn13] at hsh14
    rw [← hst14] at hsh14
    cases he14 : alookup st14.nodes bn with
    | none =>
      rw [he14] at hsh14
      simp at hsh14
    | some bnd14 =>
      have hshc := replaceAllUses_nodes_shape st13 bnOut0 st.freshValue cur
      rw [hncur13] at hshc
      rw [← hst14] at hshc
      cases hec14 : alookup st14.nodes cur with
      | none =>
        rw [hec14] at hshc
        simp at hshc
      | some cnd14 =>
        have hec15 : alookup st15.nodes cur = some cnd14 := by
          rw [hst15, alookup_destroyNode_ne _ bn cur (fun he => hbc he.symm)]
          exact hec14
        rw [alookup_destroyNode_blocksT st15 cur cnd14 hec15 p, hst15,
          alookup_destroyNode_blocksT st14 bn bnd14 he14 p, hst14, replaceAllUses_blocksT]
        cases alookup st13.blocksT p with
        | none => rfl
        | some bd => rfl
  have hb13eq : st13.blocksT = st10.blocksT := by
    rw [hst13, addInputOp_blocksT, hst12, setValueType_blocksT, hst11, mapInsert_blocksT]
  have hb9eq : st9.blocksT = st6.blocksT := by
    rw [hst9, addInputOp_blocksT, hst8, setValueType_blocksT, hst7, mapInsert_blocksT]
  have hbl4 : ∀ p : Nat, alookup st4.blocksT p =
      (alookup st.blocksT p).map (fun bd => { bd with nodes := insertBeforeList bd.nodes bn st.freshNode }) := by
    intro p
    rw [hst4, alookup_insertBeforeOp, hst3, setNodeAttrs_blocksT, hst2, setValueType_blocksT,
      hst1, createConv_blocksT]
  have hbl5 : ∀ p : Nat, alookup st5.blocksT p =
      (alookup st.blocksT p).map (fun bd => { bd with nodes := insertBeforeList bd.nodes bn st.freshNode }) := by
    intro p
    rw [hst5, addInputOp_blocksT]
    exact hbl4 p
  refine ⟨?_, ?_, ?_, ?_, ?_⟩
  · rw [hfwcw, destroyNode_vmap, hst15, destroyNode_vmap, hst14, replaceAllUses_vmap,
      hst13, addInputOp_vmap, hst12, setValueType_vmap, hst11,
      alookup_mapInsert_ne _ _ _ _ (by omega), hst10, addBlockInputOp_vmap, hst9,
      addInputOp_vmap, hst8, setValueType_vmap, hst7,
      alookup_mapInsert_absent st6 _ cw hwv6]
  · rw [hfbcb, destroyNode_vmap, hst15, destroyNode_vmap, hst14, replaceAllUses_vmap,
      hst13, addInputOp_vmap, hst12, setValueType_vmap, hst11,
      alookup_mapInsert_absent st10 _ cb hbv10]
  · intro p hp1 hp2
    rw [hdestrB p, hb13eq, hst10, alookup_addBlockInputOp_ne _ _ _ hp2, hb9eq, hst6,
      alookup_addBlockInputOp_ne _ _ _ hp1, hbl5 p]
    cases alookup st.blocksT p with
    | none => rfl
    | some bd => rfl
  · intro rbd hbne hroot
    have hrb5 : alookup st5.blocksT st.rootBlock =
        some { rbd with nodes := insertBeforeList rbd.nodes bn st.freshNode } := by
      rw [hbl5 st.rootBlock, hroot]
      rfl
    have hrb6 : alookup st6.blocksT st.rootBlock =
        some ⟨rbd.binputs ++ [st.freshValue + 1], insertBeforeList rbd.nodes bn st.freshNode⟩ := by
      rw [hst6, alookup_addBlockInputOp_self st5 st.rootBlock _ hrb5, hfv5]
    rw [hdestrB st.rootBlock, hb13eq, hst10,
      alookup_addBlockInputOp_ne _ _ _ (fun he => hbne he.symm), hb9eq, hrb6]
    rfl
  · intro bbd hbne hbb
    have hbb5 : alookup st5.blocksT b =
        some { bbd with nodes := insertBeforeList bbd.nodes bn st.freshNode } := by
      rw [hbl5 b, hbb]
      rfl
    have hbb6 : alookup st6.blocksT b =
        some { bbd with nodes := insertBeforeList bbd.nodes bn st.freshNode } := by
      rw [hst6, alookup_addBlockInputOp_ne _ _ _ hbne]
      exact hbb5
    have hbb9 : alookup st9.blocksT b =
        some { bbd with nodes := insertBeforeList bbd.nodes bn st.freshNode } := by
      rw [hb9eq]
      exact hbb6
    have hbb10 : alookup st10.blocksT b =
        some ⟨bbd.binputs ++ [st.freshValue + 1 + 1], insertBeforeList bbd.nodes bn st.freshNode⟩ := by
      rw [hst10, alookup_addBlockInputOp_self st9 b _ hbb9, hfv9]
    rw [hdestrB b, hb13eq, hbb10]
    rfl

theorem setInputAt_nodes_length (st : State) (n i v : Nat) :
    (setInputAt st n i v).nodes.length = st.nodes.length := by
  unfold setInputAt updNode
  cases he : alookup st.nodes n with
  | none => rfl
  | some nd =>
    show (aset st.nodes n _).length = _
    exact aset_length_present _ _ _ _ he

theorem foldSet_nodes_length (us : List (Nat × Nat)) (st : State) (nv : Nat) :
    ((us.foldl (fun s p => setInputAt s p.1 p.2 nv) st)).nodes.length = st.nodes.length := by
  induction us generalizing st with
  | nil => rfl
  | cons p rest ih => rw [List.foldl_cons, ih, setInputAt_nodes_length]

theorem replaceAllUses_nodes_length (st : State) (old nv : Nat) :
    (replaceAllUses st old nv).nodes.length = st.nodes.length := by
  simp only [replaceAllUses]
  rw [updValue_nodes, updValue_nodes, foldSet_nodes_length]

theorem applyFusion_integrity (sq : Int → Int) (b cur bn bnOut0 v0 : Nat)
    (convVals bnVals : List Tensor) (eps : Int) (st : State)
    (cnd bnd : NodeData)
    (hcur : alookup st.nodes cur = some cnd)
    (hbn : alookup st.nodes bn = some bnd)
    (hB : Bounds st)
    (hInt : Integrity st)
    (hv0 : v0 < st.freshValue)
    (hvb : v0 ≠ bnOut0)
    (hbolt : bnOut0 < st.freshValue) :
    Integrity (applyFusion sq b cur bn bnOut0 v0 convVals bnVals eps st) ∧
    (∀ p ∈ valueUses st bnOut0, p.1 ≠ bn → p.1 ≠ cur →
      inputAt (applyFusion sq b cur bn bnOut0 v0 convVals bnVals eps st) p.1 p.2 =
        some st.freshValue) := by
  have hkeys : ∀ q ∈ st.nodes, q.1 < st.freshNode := fun q hq => (hB.1 q hq).1
  have hndk : nodupKeysB st.nodes = true := hB.2
  have hbnlt : bn < st.freshNode := hkeys (bn, bnd) (alookup_mem _ _ _ hbn)
  have hcurlt : cur < st.freshNode := hkeys (cur, cnd) (alookup_mem _ _ _ hcur)
  simp only [applyFusion]
  simp only [createConv_freshValue, createConv_freshNode, createConv_rootBlock,
    setValueType_freshValue, setValueType_freshNode, setValueType_rootBlock,
    setNodeAttrs_freshValue, setNodeAttrs_freshNode, setNodeAttrs_rootBlock,
    insertBeforeOp_freshValue, insertBeforeOp_freshNode, insertBeforeOp_rootBlock,
    addInputOp_freshValue, addInputOp_freshNode, addInputOp_rootBlock,
    addBlockInputOp_freshValue, addBlockInputOp_freshNode, addBlockInputOp_rootBlock,
    mapInsert_freshValue, mapInsert_freshNode, mapInsert_rootBlock]
  set sF := foldScale sq ((bnVals.getD 0 dT).clone) ((bnVals.getD 3 dT).clone) eps with hsF
  set cw := scaleChannels ((convVals.getD 0 dT).clone) sF with hcw
  set cb := foldBias convVals (nodeInputs st cur).length sF ((bnVals.getD 1 dT).clone)
    ((bnVals.getD 2 dT).clone) with hcb
  set st1 := createConv st with hst1
  set st2 := setValueType st1 st.freshValue (valueType st bnOut0) with hst2
  set st3 := setNodeAttrs st2 st.freshNode (nodeAttrs st cur) with hst3
  set st4 := insertBeforeOp st3 bn st.freshNode with hst4
  set st5 := addInputOp st4 st.freshNode v0 with hst5
  set st6 := addBlockInputOp st5 st.rootBlock with hst6
  set st7 := mapInsert st6 (st.freshValue + 1) cw with hst7
  set st8 := setValueType st7 (st.freshValue + 1) (some (cw.shape, cw.dtype)) with hst8
  set st9 := addInputOp st8 st.freshNode (st.freshValue + 1) with hst9
  set st10 := addBlockInputOp st9 b with hst10
  set st11 := mapInsert st10 (st.freshValue + 1 + 1) cb with hst11
  set st12 := setValueType st11 (st.freshValue + 1 + 1) (some (cb.shape, cb.dtype)) with hst12
  set st13 := addInputOp st12 st.freshNode (st.freshValue + 1 + 1) with hst13
  set st14 := replaceAllUses st13 bnOut0 st.freshValue with hst14
  set st15 := destroyNode st14 bn with hst15
  have hfv4 : st4.freshValue = st.freshValue + 1 := by
    rw [hst4, insertBeforeOp_freshValue, hst3, setNodeAttrs_freshValue, hst2,
      setValueType_freshValue, hst1, createConv_freshValue]
  have hfv5 : st5.freshValue = st.freshValue + 1 := by
    rw [hst5, addInputOp_freshValue, hfv4]
  have hfv8 : st8.freshValue = st.freshValue + 1 + 1 := by
    rw [hst8, setValueType_freshValue, hst7, mapInsert_freshValue, hst6,
      addBlockInputOp_freshValue, hfv5]
  have hfv9 : st9.freshValue = st.freshValue + 1 + 1 := by
    rw [hst9, addInputOp_freshValue, hfv8]
  have hfv12 : st12.freshValue = st.freshValue + 1 + 1 + 1 := by
    rw [hst12, setValueType_freshValue, hst11, mapInsert_freshValue, hst10,
      addBlockInputOp_freshValue, hfv9]
  have hfv13 : st13.freshValue = st.freshValue + 1 + 1 + 1 := by
    rw [hst13, addInputOp_freshValue, hfv12]
  have hn1 : alookup st1.nodes st.freshNode =
      some ⟨Kind.conv, [], [st.freshValue], [], []⟩ := by
    rw [hst1, createConv_nodes]
    exact alookup_aset_self _ _ _
  have hn4 : alookup st4.nodes st.freshNode =
      some ⟨Kind.conv, [], [st.freshValue], nodeAttrs st cur, []⟩ := by
    rw [hst4, insertBeforeOp_nodes, hst3, alookup_setNodeAttrs, if_pos rfl, hst2,
      setValueType_nodes, hn1]
    rfl
  have hn5 : alookup st5.nodes st.freshNode =
      some ⟨Kind.conv, [v0], [st.freshValue], nodeAttrs st cur, []⟩ := by
    rw [hst5, alookup_addInputOp_nodes st4 st.freshNode v0 _ hn4, if_pos rfl]
    rfl
  have hn8 : alookup st8.nodes st.freshNode =
      some ⟨Kind.conv, [v0], [st.freshValue], nodeAttrs st cur, []⟩ := by
    rw [hst8, setValueType_nodes, hst7, mapInsert_nodes, hst6, addBlockInputOp_nodes]
    exact hn5
  have hn9 : alookup st9.nodes st.freshNode =
      some ⟨Kind.conv, [v0, st.freshValue + 1], [st.freshValue], nodeAttrs st cur, []⟩ := by
    rw [hst9, alookup_addInputOp_nodes st8 st.freshNode (st.freshValue + 1) _ hn8, if_pos rfl]
    rfl
  have hn12 : alookup st12.nodes st.freshNode =
      some ⟨Kind.conv, [v0, st.freshValue + 1], [st.freshValue], nodeAttrs st cur, []⟩ := by
    rw [hst12, setValueType_nodes, hst11, mapInsert_nodes, hst10, addBlockInputOp_nodes]
    exact hn9
  have hB1 : Bounds st1 := bounds_createConv st hB
  have hB2 : Bounds st2 := bounds_setValueType st1 _ _ hB1
  have hB3 : Bounds st3 := bounds_setNodeAttrs st2 _ _ hB2
  have hB4 : Bounds st4 := bounds_insertBeforeOp st3 _ _ hB3
  have hB5 : Bounds st5 := bounds_addInputOp st4 st.freshNode v0 (by rw [hfv4]; omega) hB4
  have hB6 : Bounds st6 := bounds_addBlockInputOp st5 _ hB5
  have hB7 : Bounds st7 := bounds_mapInsert st6 _ cw hB6
  have hB8 : Bounds st8 := bounds_setValueType st7 _ _ hB7
  have hB9 : Bounds st9 := bounds_addInputOp st8 st.freshNode (st.freshValue + 1)
    (by rw [hfv8]; omega) hB8
  have hB10 : Bounds st10 := bounds_addBlockInputOp st9 _ hB9
  have hB11 : Bounds st11 := bounds_mapInsert st10 _ cb hB10
  have hB12 : Bounds st12 := bounds_setValueType st11 _ _ hB11
  have hB13 : Bounds st13 := bounds_addInputOp st12 st.freshNode (st.freshValue + 1 + 1)
    (by rw [hfv12]; omega) hB12
  have hB14 : Bounds st14 := bounds_replaceAllUses st13 bnOut0 st.freshValue
    (by rw [hfv13]; omega) hB13
  have hB15 : Bounds st15 := bounds_destroyNode st14 bn hB14
  have hI1 : Integrity st1 := createConv_integrity st (fun q hq => (hB.1 q hq).1)
    (fun q hq => (hB.1 q hq).2.1) hInt
  have hI2 : Integrity st2 := setValueType_integrity st1 _ _ hI1
  have hI3 : Integrity st3 := setNodeAttrs_integrity st2 _ _ hI2
  have hI4 : Integrity st4 := insertBeforeOp_integrity st3 _ _ hI3
  have hI5 : Integrity st5 := addInputOp_integrity st4 st.freshNode v0 _ hn4 hB4.2 hI4
  have hI6 : Integrity st6 := addBlockInputOp_integrity st5 st.rootBlock
    (fun q hq => (hB5.1 q hq).2.1) hI5
  have hI7 : Integrity st7 := mapInsert_integrity st6 _ cw hI6
  have hI8 : Integrity st8 := setValueType_integrity st7 _ _ hI7
  have hI9 : Integrity st9 := addInputOp_integrity st8 st.freshNode (st.freshValue + 1) _
    hn8 hB8.2 hI8
  have hI10 : Integrity st10 := addBlockInputOp_integrity st9 b
    (fun q hq => (hB9.1 q hq).2.1) hI9
  have hI11 : Integrity st11 := mapInsert_integrity st10 _ cb hI10
  have hI12 : Integrity st12 := setValueType_integrity st11 _ _ hI11
  have hI13 : Integrity st13 := addInputOp_integrity st12 st.freshNode
    (st.freshValue + 1 + 1) _ hn12 hB12.2 hI12
  have hI14 : Integrity st14 := replaceAllUses_integrity st13 bnOut0 st.freshValue
    hB13.2 hI13 (by omega)
  have hI15 : Integrity st15 := destroyNode_integrity st14 bn hB14.2 hI14
  have hI16 : Integrity (destroyNode st15 cur) := destroyNode_integrity st15 cur hB15.2 hI15
  have hval1 : alookup st1.values bnOut0 = alookup st.values bnOut0 := by
    rw [hst1, createConv_values]
    exact alookup_aset_ne _ _ _ _ (by omega)
  have hval4 : alookup st4.values bnOut0 = alookup st.values bnOut0 := by
    rw [hst4, insertBeforeOp_values, hst3, setNodeAttrs_values, hst2, alookup_setValueType]
    rw [if_neg (by omega : ¬ bnOut0 = st.freshValue)]
    exact hval1
  have hval5 : alookup st5.values bnOut0 = alookup st.values bnOut0 := by
    rw [hst5, alookup_addInputOp_values st4 st.freshNode v0 _ hn4,
      if_neg (fun he => hvb he.symm)]
    exact hval4
  have hval8 : alookup st8.values bnOut0 = alookup st.values bnOut0 := by
    rw [hst8, alookup_setValueType, if_neg (by omega : ¬ bnOut0 = st.freshValue + 1), hst7,
      mapInsert_values, hst6, addBlockInputOp_values, hfv5,
      alookup_aset_ne _ _ _ _ (by omega)]
    exact hval5
  have hval9 : alookup st9.values bnOut0 = alookup st.values bnOut0 := by
    rw [hst9, alookup_addInputOp_values st8 st.freshNode (st.freshValue + 1) _ hn8,
      if_neg (by omega : ¬ bnOut0 = st.freshValue + 1)]
    exact hval8
  have hval12 : alookup st12.values bnOut0 = alookup st.values bnOut0 := by
    rw [hst12, alookup_setValueType, if_neg (by omega : ¬ bnOut0 = st.freshValue + 1 + 1),
      hst11, mapInsert_values, hst10, addBlockInputOp_values, hfv9,
      alookup_aset_ne _ _ _ _ (by omega)]
    exact hval9
  have hval13 : alookup st13.values bnOut0 = alookup st.values bnOut0 := by
    rw [hst13, alookup_addInputOp_values st12 st.freshNode (st.freshValue + 1 + 1) _ hn12,
      if_neg (by omega : ¬ bnOut0 = st.freshValue + 1 + 1)]
    exact hval12
  have husesEq : valueUses st13 bnOut0 = valueUses st bnOut0 := by
    unfold valueUses
    rw [hval13]
  refine ⟨hI16, ?_⟩
  obtain ⟨hold13, hnodup13⟩ := uses_valid_of_integrity st13 bnOut0 hB13.2 hI13
  have hIA := inputAt_replaceAllUses st13 bnOut0 st.freshValue hold13 hnodup13
  intro p hp hp1 hp2
  have hmem : (p.1, p.2) ∈ valueUses st13 bnOut0 := by
    rw [husesEq]
    exact hp
  have hg : inputAt (destroyNode st15 cur) p.1 p.2 = inputAt st14 p.1 p.2 := by
    unfold inputAt
    rw [alookup_destroyNode_ne _ cur p.1 hp2, hst15, alookup_destroyNode_ne _ bn p.1 hp1]
  rw [hg, hst14, hIA p.1 p.2, if_pos hmem]

theorem setNodeAttrs_nodes_length (st : State) (n : Nat) (as2 : List (String × AttrVal)) :
    (setNodeAttrs st n as2).nodes.length = st.nodes.length := by
  unfold setNodeAttrs updNode
  cases he : alookup st.nodes n with
  | none => rfl
  | some nd =>
    show (aset st.nodes n _).length = _
    exact aset_length_present _ _ _ _ he

theorem addInputOp_nodes_length (st : State) (n v : Nat) :
    (addInputOp st n v).nodes.length = st.nodes.length := by
  cases he : alookup st.nodes n with
  | none => rw [addInputOp_absent st n v he]
  | some nd =>
    rw [addInputOp_some st n v nd he, updValue_nodes]
    exact aset_length_present _ _ _ _ he

theorem applyFusion_count (sq : Int → Int) (b cur bn bnOut0 v0 : Nat)
    (convVals bnVals : List Tensor) (eps : Int) (st : State)
    (cnd bnd : NodeData)
    (hcur : alookup st.nodes cur = some cnd)
    (hbn : alookup st.nodes bn = some bnd)
    (hB : Bounds st)
    (hv0 : v0 < st.freshValue)
    (hbc : bn ≠ cur) :
    (applyFusion sq b cur bn bnOut0 v0 convVals bnVals eps st).nodes.length + 1 =
      st.nodes.length := by
  have hkeys : ∀ q ∈ st.nodes, q.1 < st.freshNode := fun q hq => (hB.1 q hq).1
  have hbnlt : bn < st.freshNode := hkeys (bn, bnd) (alookup_mem _ _ _ hbn)
  have hcurlt : cur < st.freshNode := hkeys (cur, cnd) (alookup_mem _ _ _ hcur)
  simp only [applyFusion]
  simp only [createConv_freshValue, createConv_freshNode, createConv_rootBlock,
    setValueType_freshValue, setValueType_freshNode, setValueType_rootBlock,
    setNodeAttrs_freshValue, setNodeAttrs_freshNode, setNodeAttrs_rootBlock,
    insertBeforeOp_freshValue, insertBeforeOp_freshNode, insertBeforeOp_rootBlock,
    addInputOp_freshValue, addInputOp_freshNode, addInputOp_rootBlock,
    addBlockInputOp_freshValue, addBlockInputOp_freshNode, addBlockInputOp_rootBlock,
    mapInsert_freshValue, mapInsert_freshNode, mapInsert_rootBlock]
  set sF := foldScale sq ((bnVals.getD 0 dT).clone) ((bnVals.getD 3 dT).clone) eps with hsF
  set cw := scaleChannels ((convVals.getD 0 dT).clone) sF with hcw
  set cb := foldBias convVals (nodeInputs st cur).length sF ((bnVals.getD 1 dT).clone)
    ((bnVals.getD 2 dT).clone) with hcb
  set st1 := createConv st with hst1
  set st2 := setValueType st1 st.freshValue (valueType st bnOut0) with hst2
  set st3 := setNodeAttrs st2 st.freshNode (nodeAttrs st cur) with hst3
  set st4 := insertBeforeOp st3 bn st.freshNode with hst4
  set st5 := addInputOp st4 st.freshNode v0 with hst5
  set st6 := addBlockInputOp st5 st.rootBlock with hst6
  set st7 := mapInsert st6 (st.freshValue + 1) cw with hst7
  set st8 := setValueType st7 (st.freshValue + 1) (some (cw.shape, cw.dtype)) with hst8
  set st9 := addInputOp st8 st.freshNode (st.freshValue + 1) with hst9
  set st10 := addBlockInputOp st9 b with hst10
  set st11 := mapInsert st10 (st.freshValue + 1 + 1) cb with hst11
  set st12 := setValueType st11 (st.freshValue + 1 + 1) (some (cb.shape, cb.dtype)) with hst12
  set st13 := addInputOp st12 st.freshNode (st.freshValue + 1 + 1) with hst13
  set st14 := replaceAllUses st13 bnOut0 st.freshValue with hst14
  set st15 := destroyNode st14 bn with hst15
  have hfv4 : st4.freshValue = st.freshValue + 1 := by
    rw [hst4, insertBeforeOp_freshValue, hst3, setNodeAttrs_freshValue, hst2,
      setValueType_freshValue, hst1, createConv_freshValue]
  have hfv5 : st5.freshValue = st.freshValue + 1 := by
    rw [hst5, addInputOp_freshValue, hfv4]
  have hfv8 : st8.freshValue = st.freshValue + 1 + 1 := by
    rw [hst8, setValueType_freshValue, hst7, mapInsert_freshValue, hst6,
      addBlockInputOp_freshValue, hfv5]
  have hfv12 : st12.freshValue = st.freshValue + 1 + 1 + 1 := by
    rw [hst12, setValueType_freshValue, hst11, mapInsert_freshValue, hst10,
      addBlockInputOp_freshValue, hst9, addInputOp_freshValue, hfv8]
  have hfv13 : st13.freshValue = st.freshValue + 1 + 1 + 1 := by
    rw [hst13, addInputOp_freshValue, hfv12]
  have hB1 : Bounds st1 := bounds_createConv st hB
  have hB2 : Bounds st2 := bounds_setValueType st1 _ _ hB1
  have hB3 : Bounds st3 := bounds_setNodeAttrs st2 _ _ hB2
  have hB4 : Bounds st4 := bounds_insertBeforeOp st3 _ _ hB3
  have hB5 : Bounds st5 := bounds_addInputOp st4 st.freshNode v0 (by rw [hfv4]; omega) hB4
  have hB6 : Bounds st6 := bounds_addBlockInputOp st5 _ hB5
  have hB7 : Bounds st7 := bounds_mapInsert st6 _ cw hB6
  have hB8 : Bounds st8 := bounds_setValueType st7 _ _ hB7
  have hB9 : Bounds st9 := bounds_addInputOp st8 st.freshNode (st.freshValue + 1)
    (by rw [hfv8]; omega) hB8
  have hB10 : Bounds st10 := bounds_addBlockInputOp st9 _ hB9
  have hB11 : Bounds st11 := bounds_mapInsert st10 _ cb hB10
  have hB12 : Bounds st12 := bounds_setValueType st11 _ _ hB11
  have hB13 : Bounds st13 := bounds_addInputOp st12 st.freshNode (st.freshValue + 1 + 1)
    (by rw [hfv12]; omega) hB12
  have hB14 : Bounds st14 := bounds_replaceAllUses st13 bnOut0 st.freshValue
    (by rw [hfv13]; omega) hB13
  have hB15 : Bounds st15 := bounds_destroyNode st14 bn hB14
  have hnbn13 : alookup st13.nodes bn = some bnd := by
    rw [hst13, alookup_addInputOp_ne _ _ _ _ (by omega : bn ≠ st.freshNode), hst12,
      setValueType_nodes, hst11, mapInsert_nodes, hst10, addBlockInputOp_nodes, hst9,
      alookup_addInputOp_ne _ _ _ _ (by omega : bn ≠ st.freshNode), hst8,
      setValueType_nodes, hst7, mapInsert_nodes, hst6, addBlockInputOp_nodes, hst5,
      alookup_addInputOp_ne _ _ _ _ (by omega : bn ≠ st.freshNode), hst4,
      insertBeforeOp_nodes, hst3, alookup_setNodeAttrs,
      if_neg (by omega : ¬ bn = st.freshNode), hst2, setValueType_nodes, hst1,
      createConv_nodes, alookup_aset_ne _ _ _ _ (by omega : bn ≠ st.freshNode)]
    exact hbn
  have hncur13 : alookup st13.nodes cur = some cnd := by
    rw [hst13, alookup_addInputOp_ne _ _ _ _ (by omega : cur ≠ st.freshNode), hst12,
      setValueType_nodes, hst11, mapInsert_nodes, hst10, addBlockInputOp_nodes, hst9,
      alookup_addInputOp_ne _ _ _ _ (by omega : cur ≠ st.freshNode), hst8,
      setValueType_nodes, hst7, mapInsert_nodes, hst6, addBlockInputOp_nodes, hst5,
      alookup_addInputOp_ne _ _ _ _ (by omega : cur ≠ st.freshNode), hst4,
      insertBeforeOp_nodes, hst3, alookup_setNodeAttrs,
      if_neg (by omega : ¬ cur = st.freshNode), hst2, setValueType_nodes, hst1,
      createConv_nodes, alookup_aset_ne _ _ _ _ (by omega : cur ≠ st.freshNode)]
    exact hcur
  have hlen13 : st13.nodes.length = st.nodes.length + 1 := by
    rw [hst13, addInputOp_nodes_length, hst12, setValueType_nodes, hst11, mapInsert_nodes,
      hst10, addBlockInputOp_nodes, hst9, addInputOp_nodes_length, hst8, setValueType_nodes,
      hst7, mapInsert_nodes, hst6, addBlockInputOp_nodes, hst5, addInputOp_nodes_length,
      hst4, insertBeforeOp_nodes, hst3, setNodeAttrs_nodes_length, hst2, setValueType_nodes,
      hst1, createConv_nodes, aset_length_absent _ _ _ (fresh_node_absent st _ hkeys)]
  have hlen14 : st14.nodes.length = st.nodes.length + 1 := by
    rw [hst14, replaceAllUses_nodes_length, hlen13]
  have hsh14 := replaceAllUses_nodes_shape st13 bnOut0 st.freshValue bn
  rw [hnbn13] at hsh14
  rw [← hst14] at hsh14
  cases he14 : alookup st14.nodes bn with
  | none =>
    rw [he14] at hsh14
    simp at hsh14
  | some bnd14 =>
    have hshc := replaceAllUses_nodes_shape st13 bnOut0 st.freshValue cur
    rw [hncur13] at hshc
    rw [← hst14] at hshc
    cases hec14 : alookup st14.nodes cur with
    | none =>
      rw [hec14] at hshc
      simp at hshc
    | some cnd14 =>
      have hec15 : alookup st15.nodes cur = some cnd14 := by
        rw [hst15, alookup_destroyNode_ne _ bn cur (fun he => hbc he.symm)]
        exact hec14
      have hlen15 : st15.nodes.length + 1 = st14.nodes.length := by
        rw [hst15, destroyNode_nodes_some st14 bn bnd14 he14]
        exact aerase_length _ _ _ hB14.2 he14
      have hlen16 : (destroyNode st15 cur).nodes.length + 1 = st15.nodes.length := by
        rw [destroyNode_nodes_some st15 cur cnd14 hec15]
        exact aerase_length _ _ _ hB15.2 hec15
      omega

/-! ### The per-node step `fuseAt` -/

theorem head?_mem (l : List Nat) (x : Nat) (h : l.head? = some x) : x ∈ l := by
  cases l with
  | nil => cases h
  | cons y ys =>
    injection h with h1
    rw [← h1]
    exact List.mem_cons_self _ _

theorem kindOf_eq_some (st : State) (n : Nat) (k : Kind) (h : kindOf st n = k)
    (hne : k ≠ Kind.other 0) : ∃ nd, alookup st.nodes n = some nd ∧ nd.kind = k := by
  unfold kindOf at h
  cases he : alookup st.nodes n with
  | none =>
    rw [he] at h
    exact absurd h.symm hne
  | some nd =>
    rw [he] at h
    exact ⟨nd, rfl, h⟩

theorem alookup_of_mem_nodup {α : Type} (l : List (Nat × α)) (k : Nat) (a : α)
    (hnd : nodupKeysB l = true) (h : (k, a) ∈ l) : alookup l k = some a := by
  induction l with
  | nil => cases h
  | cons p rest ih =>
    simp only [nodupKeysB, Bool.and_eq_true, List.all_eq_true] at hnd
    obtain ⟨h1, h2⟩ := hnd
    rcases List.mem_cons.mp h with he | hm
    · rw [← he]
      show (if k = k then some a else alookup rest k) = some a
    
      rw [if_pos rfl]
    · have hpk : p.1 ≠ k := by
        have := h1 (k, a) hm
        simp only [bne_iff_ne] at this
        exact fun hc => this hc.symm
      show (if p.1 = k then some p.2 else alookup rest k) = some a
      rw [if_neg hpk]
      exact ih h2 hm

theorem fuseAt_inv (sq : Int → Int) (b cur : Nat) (st st2 : State) (rep : Option (Nat × Nat))
    (h : fuseAt sq b cur st = some (st2, rep)) :
    (st2 = st ∧ rep = none) ∨
    (∃ bn out0 bnOut0 v0 convVals bnVals eps,
      kindOf st cur = Kind.conv ∧
      matchFusion st cur = MatchRes.fire bn out0 bnOut0 v0 convVals bnVals eps ∧
      st2 = applyFusion sq b cur bn bnOut0 v0 convVals bnVals eps st ∧
      rep = some (bn, st.freshNode)) := by
  unfold fuseAt at h
  split at h
  next hk =>
    split at h
    · left
      injection h with h1
      injection h1 with h2 h3
      exact ⟨h2.symm, h3.symm⟩
    · cases h
    next bn out0 bnOut0 v0 convVals bnVals eps heq =>
      right
      injection h with h1
      injection h1 with h2 h3
      exact ⟨bn, out0, bnOut0, v0, convVals, bnVals, eps, hk, heq, h2.symm, h3.symm⟩
  next hk =>
    left
    injection h with h1
    injection h1 with h2 h3
    exact ⟨h2.symm, h3.symm⟩

theorem fire_facts (st : State) (cur bn out0 bnOut0 v0 : Nat) (convVals bnVals : List Tensor)
    (eps : Int) (hk : kindOf st cur = Kind.conv)
    (hm : matchFusion st cur = MatchRes.fire bn out0 bnOut0 v0 convVals bnVals eps)
    (hB : Bounds st) :
    ∃ cnd bnd : NodeData, alookup st.nodes cur = some cnd ∧ alookup st.nodes bn = some bnd ∧
      cnd.kind = Kind.conv ∧ bnd.kind = Kind.batchNorm ∧ bn ≠ cur ∧
      v0 < st.freshValue ∧ bnOut0 < st.freshValue ∧
      (∀ w ∈ cnd.outputs, w < st.freshValue) ∧ (∀ w ∈ bnd.outputs, w < st.freshValue) := by
  obtain ⟨h1, h2, h3, h4, h5, h6, h7, h8, h9, h10, h11, h12⟩ :=
    matchFusion_fire_inv st cur bn out0 bnOut0 v0 convVals bnVals eps hm
  obtain ⟨cnd, hcur, hck⟩ := kindOf_eq_some st cur Kind.conv hk (by intro hc; cases hc)
  obtain ⟨bnd, hbn, hbk⟩ := kindOf_eq_some st bn Kind.batchNorm h3 (by intro hc; cases hc)
  have hbc : bn ≠ cur := by
    intro he
    rw [he, hcur] at hbn
    have : cnd = bnd := Option.some.inj hbn
    rw [this, hbk] at hck
    cases hck
  have hocur : ∀ w ∈ cnd.outputs, w < st.freshValue := (hB.1 (cur, cnd)
    (alookup_mem _ _ _ hcur)).2.2
  have hobn : ∀ w ∈ bnd.outputs, w < st.freshValue := (hB.1 (bn, bnd)
    (alookup_mem _ _ _ hbn)).2.2
  have hv0 : v0 < st.freshValue := by
    have hmem : v0 ∈ cnd.inputs := by
      have : nodeInputs st cur = cnd.inputs := by
        unfold nodeInputs
        rw [hcur]
      rw [this] at h12
      exact head?_mem _ _ h12
    exact (hB.1 (cur, cnd) (alookup_mem _ _ _ hcur)).2.1 v0 hmem
  have hbo : bnOut0 < st.freshValue := by
    have hmem : bnOut0 ∈ bnd.outputs := by
      have : nodeOutputs st bn = bnd.outputs := by
        unfold nodeOutputs
        rw [hbn]
      rw [this] at h11
      exact head?_mem _ _ h11
    exact hobn bnOut0 hmem
  exact ⟨cnd, bnd, hcur, hbn, hck, hbk, hbc, hv0, hbo, hocur, hobn⟩

theorem applyFusion_bounds (sq : Int → Int) (b cur bn bnOut0 v0 : Nat)
    (convVals bnVals : List Tensor) (eps : Int) (st : State)
    (hB : Bounds st) (hv0 : v0 < st.freshValue) :
    Bounds (applyFusion sq b cur bn bnOut0 v0 convVals bnVals eps st) := by
  simp only [applyFusion]
  simp only [createConv_freshValue, createConv_freshNode, createConv_rootBlock,
    setValueType_freshValue, setValueType_freshNode, setValueType_rootBlock,
    setNodeAttrs_freshValue, setNodeAttrs_freshNode, setNodeAttrs_rootBlock,
    insertBeforeOp_freshValue, insertBeforeOp_freshNode, insertBeforeOp_rootBlock,
    addInputOp_freshValue, addInputOp_freshNode, addInputOp_rootBlock,
    addBlockInputOp_freshValue, addBlockInputOp_freshNode, addBlockInputOp_rootBlock,
    mapInsert_freshValue, mapInsert_freshNode, mapInsert_rootBlock]
  set sF := foldScale sq ((bnVals.getD 0 dT).clone) ((bnVals.getD 3 dT).clone) eps with hsF
  set cw := scaleChannels ((convVals.getD 0 dT).clone) sF with hcw
  set cb := foldBias convVals (nodeInputs st cur).length sF ((bnVals.getD 1 dT).clone)
    ((bnVals.getD 2 dT).clone) with hcb
  set st1 := createConv st with hst1
  set st2 := setValueType st1 st.freshValue (valueType st bnOut0) with hst2
  set st3 := setNodeAttrs st2 st.freshNode (nodeAttrs st cur) with hst3
  set st4 := insertBeforeOp st3 bn st.freshNode with hst4
  set st5 := addInputOp st4 st.freshNode v0 with hst5
  set st6 := addBlockInputOp st5 st.rootBlock with hst6
  set st7 := mapInsert st6 (st.freshValue + 1) cw with hst7
  set st8 := setValueType st7 (st.freshValue + 1) (some (cw.shape, cw.dtype)) with hst8
  set st9 := addInputOp st8 st.freshNode (st.freshValue + 1) with hst9
  set st10 := addBlockInputOp st9 b with hst10
  set st11 := mapInsert st10 (st.freshValue + 1 + 1) cb with hst11
  set st12 := setValueType st11 (st.freshValue + 1 + 1) (some (cb.shape, cb.dtype)) with hst12
  set st13 := addInputOp st12 st.freshNode (st.freshValue + 1 + 1) with hst13
  set st14 := replaceAllUses st13 bnOut0 st.freshValue with hst14
  set st15 := destroyNode st14 bn with hst15
  have hfv4 : st4.freshValue = st.freshValue + 1 := by
    rw [hst4, insertBeforeOp_freshValue, hst3, setNodeAttrs_freshValue, hst2,
      setValueType_freshValue, hst1, createConv_freshValue]
  have hfv8 : st8.freshValue = st.freshValue + 1 + 1 := by
    rw [hst8, setValueType_freshValue, hst7, mapInsert_freshValue, hst6,
      addBlockInputOp_freshValue, hst5, addInputOp_freshValue, hfv4]
  have hfv12 : st12.freshValue = st.freshValue + 1 + 1 + 1 := by
    rw [hst12, setValueType_freshValue, hst11, mapInsert_freshValue, hst10,
      addBlockInputOp_freshValue, hst9, addInputOp_freshValue, hfv8]
  have hfv13 : st13.freshValue = st.freshValue + 1 + 1 + 1 := by
    rw [hst13, addInputOp_freshValue, hfv12]
  have hB1 : Bounds st1 := bounds_createConv st hB
  have hB2 : Bounds st2 := bounds_setValueType st1 _ _ hB1
  have hB3 : Bounds st3 := bounds_setNodeAttrs st2 _ _ hB2
  have hB4 : Bounds st4 := bounds_insertBeforeOp st3 _ _ hB3
  have hB5 : Bounds st5 := bounds_addInputOp st4 st.freshNode v0 (by rw [hfv4]; omega) hB4
  have hB6 : Bounds st6 := bounds_addBlockInputOp st5 _ hB5
  have hB7 : Bounds st7 := bounds_mapInsert st6 _ cw hB6
  have hB8 : Bounds st8 := bounds_setValueType st7 _ _ hB7
  have hB9 : Bounds st9 := bounds_addInputOp st8 st.freshNode (st.freshValue + 1)
    (by rw [hfv8]; omega) hB8
  have hB10 : Bounds st10 := bounds_addBlockInputOp st9 _ hB9
  have hB11 : Bounds st11 := bounds_mapInsert st10 _ cb hB10
  have hB12 : Bounds st12 := bounds_setValueType st11 _ _ hB11
  have hB13 : Bounds st13 := bounds_addInputOp st12 st.freshNode (st.freshValue + 1 + 1)
    (by rw [hfv12]; omega) hB12
  have hB14 : Bounds st14 := bounds_replaceAllUses st13 bnOut0 st.freshValue
    (by rw [hfv13]; omega) hB13
  have hB15 : Bounds st15 := bounds_destroyNode st14 bn hB14
  exact bounds_destroyNode st15 cur hB15

theorem applyFusion_newNode_shape (sq : Int → Int) (b cur bn bnOut0 v0 : Nat)
    (convVals bnVals : List Tensor) (eps : Int) (st : State)
    (cnd bnd : NodeData)
    (hcur : alookup st.nodes cur = some cnd)
    (hbn : alookup st.nodes bn = some bnd)
    (hkeys : ∀ q ∈ st.nodes, q.1 < st.freshNode) :
    (alookup (applyFusion sq b cur bn bnOut0 v0 convVals bnVals eps st).nodes
        st.freshNode).map nodeShape =
      some (Kind.conv, [st.freshValue], nodeAttrs st cur, ([] : List Nat), 3) := by
  have hbnlt : bn < st.freshNode := hkeys (bn, bnd) (alookup_mem _ _ _ hbn)
  have hcurlt : cur < st.freshNode := hkeys (cur, cnd) (alookup_mem _ _ _ hcur)
  simp only [applyFusion]
  simp only [createConv_freshValue, createConv_freshNode, createConv_rootBlock,
    setValueType_freshValue, setValueType_freshNode, setValueType_rootBlock,
    setNodeAttrs_freshValue, setNodeAttrs_freshNode, setNodeAttrs_rootBlock,
    insertBeforeOp_freshValue, insertBeforeOp_freshNode, insertBeforeOp_rootBlock,
    addInputOp_freshValue, addInputOp_freshNode, addInputOp_rootBlock,
    addBlockInputOp_freshValue, addBlockInputOp_freshNode, addBlockInputOp_rootBlock,
    mapInsert_freshValue, mapInsert_freshNode, mapInsert_rootBlock]
  set sF := foldScale sq ((bnVals.getD 0 dT).clone) ((bnVals.getD 3 dT).clone) eps with hsF
  set cw := scaleChannels ((convVals.getD 0 dT).clone) sF with hcw
  set cb := foldBias convVals (nodeInputs st cur).length sF ((bnVals.getD 1 dT).clone)
    ((bnVals.getD 2 dT).clone) with hcb
  set st1 := createConv st with hst1
  set st2 := setValueType st1 st.freshValue (valueType st bnOut0) with hst2
  set st3 := setNodeAttrs st2 st.freshNode (nodeAttrs st cur) with hst3
  set st4 := insertBeforeOp st3 bn st.freshNode with hst4
  set st5 := addInputOp st4 st.freshNode v0 with hst5
  set st6 := addBlockInputOp st5 st.rootBlock with hst6
  set st7 := mapInsert st6 (st.freshValue + 1) cw with hst7
  set st8 := setValueType st7 (st.freshValue + 1) (some (cw.shape, cw.dtype)) with hst8
  set st9 := addInputOp st8 st.freshNode (st.freshValue + 1) with hst9
  set st10 := addBlockInputOp st9 b with hst10
  set st11 := mapInsert st10 (st.freshValue + 1 + 1) cb with hst11
  set st12 := setValueType st11 (st.freshValue + 1 + 1) (some (cb.shape, cb.dtype)) with hst12
  set st13 := addInputOp st12 st.freshNode (st.freshValue + 1 + 1) with hst13
  set st14 := replaceAllUses st13 bnOut0 st.freshValue with hst14
  set st15 := destroyNode st14 bn with hst15
  have hn1 : alookup st1.nodes st.freshNode =
      some ⟨Kind.conv, [], [st.freshValue], [], []⟩ := by
    rw [hst1, createConv_nodes]
    exact alookup_aset_self _ _ _
  have hn4 : alookup st4.nodes st.freshNode =
      some ⟨Kind.conv, [], [st.freshValue], nodeAttrs st cur, []⟩ := by
    rw [hst4, insertBeforeOp_nodes, hst3, alookup_setNodeAttrs, if_pos rfl, hst2,
      setValueType_nodes, hn1]
    rfl
  have hn5 : alookup st5.nodes st.freshNode =
      some ⟨Kind.conv, [v0], [st.freshValue], nodeAttrs st cur, []⟩ := by
    rw [hst5, alookup_addInputOp_nodes st4 st.freshNode v0 _ hn4, if_pos rfl]
    rfl
  have hn8 : alookup st8.nodes st.freshNode =
      some ⟨Kind.conv, [v0], [st.freshValue], nodeAttrs st cur, []⟩ := by
    rw [hst8, setValueType_nodes, hst7, mapInsert_nodes, hst6, addBlockInputOp_nodes]
    exact hn5
  have hn9 : alookup st9.nodes st.freshNode =
      some ⟨Kind.conv, [v0, st.freshValue + 1], [st.freshValue], nodeAttrs st cur, []⟩ := by
    rw [hst9, alookup_addInputOp_nodes st8 st.freshNode (st.freshValue + 1) _ hn8, if_pos rfl]
    rfl
  have hn12 : alookup st12.nodes st.freshNode =
      some ⟨Kind.conv, [v0, st.freshValue + 1], [st.freshValue], nodeAttrs st cur, []⟩ := by
    rw [hst12, setValueType_nodes, hst11, mapInsert_nodes, hst10, addBlockInputOp_nodes]
    exact hn9
  have hn13 : alookup st13.nodes st.freshNode =
      some ⟨Kind.conv, [v0, st.freshValue + 1, st.freshValue + 1 + 1], [st.freshValue],
        nodeAttrs st cur, []⟩ := by
    rw [hst13, alookup_addInputOp_nodes st12 st.freshNode (st.freshValue + 1 + 1) _ hn12,
      if_pos rfl]
    rfl
  have hg : alookup (destroyNode st15 cur).nodes st.freshNode =
      alookup st14.nodes st.freshNode := by
    rw [alookup_destroyNode_ne _ cur st.freshNode (by omega), hst15,
      alookup_destroyNode_ne _ bn st.freshNode (by omega)]
  rw [hg, hst14, replaceAllUses_nodes_shape, hn13]
  rfl

/-! ### Safety: when the pass's partial reads cannot throw -/

/-- An attribute table carries a float attribute under `name`. -/
def hasFloatAttr (attrs : List (String × AttrVal)) (name : String) : Bool :=
  match alookup attrs name with
  | some (AttrVal.fval _) => true
  | _ => false

/-- An attribute table carries a tensor attribute under `name`. -/
def hasTensorAttr (attrs : List (String × AttrVal)) (name : String) : Bool :=
  match alookup attrs name with
  | some (AttrVal.tval _) => true
  | _ => false

/-- Per-node safety: the conditions under which the pass's partial reads
(`outputs().at(0)` on a `Conv`, `node->f(attr::epsilon)` on a
`BatchNormalization`, `node->t(attr::value)` on a `Constant`) cannot throw. -/
def safeN (nd : NodeData) : Bool :=
  (if nd.kind = Kind.conv then decide (nd.outputs ≠ []) && decide (0 < nd.inputs.length)
    else true) &&
  (if nd.kind = Kind.batchNorm then
      hasFloatAttr nd.attrs "epsilon" && decide (nd.outputs ≠ []) else true) &&
  (if nd.kind = Kind.constant then hasTensorAttr nd.attrs "value" else true)

/-- Graph-wide safety: every node satisfies `safeN`. -/
def SafeB (st : State) : Bool := st.nodes.all (fun p => safeN p.2)

theorem safeN_of_shape (nd nd' : NodeData) (h : nodeShape nd' = nodeShape nd)
    (hs : safeN nd = true) : safeN nd' = true := by
  have h1 : nd'.kind = nd.kind := congrArg (fun t => t.1) h
  have h2 : nd'.outputs = nd.outputs := congrArg (fun t => t.2.1) h
  have h3 : nd'.attrs = nd.attrs := congrArg (fun t => t.2.2.1) h
  have h5 : nd'.inputs.length = nd.inputs.length := congrArg (fun t => t.2.2.2.2) h
  unfold safeN at hs ⊢
  rw [h1, h2, h3, h5]
  exact hs

theorem safeB_lookup (st : State) (n : Nat) (nd : NodeData) (hS : SafeB st = true)
    (h : alookup st.nodes n = some nd) : safeN nd = true := by
  unfold SafeB at hS
  rw [List.all_eq_true] at hS
  exact hS (n, nd) (alookup_mem _ _ _ h)

theorem safeN_conv (nd : NodeData) (h : safeN nd = true) (hk : nd.kind = Kind.conv) :
    nd.outputs ≠ [] ∧ 0 < nd.inputs.length := by
  unfold safeN at h
  rw [hk, if_pos rfl, if_neg (by intro hc; cases hc), if_neg (by intro hc; cases hc)] at h
  simp only [Bool.and_true, Bool.and_eq_true, decide_eq_true_eq] at h
  exact h

theorem safeN_batchNorm (nd : NodeData) (h : safeN nd = true)
    (hk : nd.kind = Kind.batchNorm) :
    hasFloatAttr nd.attrs "epsilon" = true ∧ nd.outputs ≠ [] := by
  unfold safeN at h
  rw [hk, if_neg (by intro hc; cases hc), if_pos rfl, if_neg (by intro hc; cases hc)] at h
  simp only [Bool.true_and, Bool.and_true, Bool.and_eq_true, decide_eq_true_eq] at h
  exact h

theorem safeN_constant (nd : NodeData) (h : safeN nd = true)
    (hk : nd.kind = Kind.constant) : hasTensorAttr nd.attrs "value" = true := by
  unfold safeN at h
  rw [hk, if_neg (by intro hc; cases hc), if_neg (by intro hc; cases hc), if_pos rfl] at h
  simp only [Bool.true_and, Bool.and_eq_true] at h
  exact h

theorem attrF_of_hasFloat (st : State) (n : Nat) (nd : NodeData)
    (h : alookup st.nodes n = some nd) (hf : hasFloatAttr nd.attrs "epsilon" = true) :
    ∃ x : Int, attrF st n "epsilon" = some x := by
  unfold hasFloatAttr at hf
  cases ha : alookup nd.attrs "epsilon" with
  | none =>
    rw [ha] at hf
    cases hf
  | some av =>
    rw [ha] at hf
    cases av with
    | fval x =>
      refine ⟨x, ?_⟩
      simp only [attrF, h, ha]
    | tval t => cases hf
    | oval o => cases hf

theorem attrT_of_hasTensor (st : State) (n : Nat) (nd : NodeData)
    (h : alookup st.nodes n = some nd) (hf : hasTensorAttr nd.attrs "value" = true) :
    ∃ t : Tensor, attrT st n "value" = some t := by
  unfold hasTensorAttr at hf
  cases ha : alookup nd.attrs "value" with
  | none =>
    rw [ha] at hf
    cases hf
  | some av =>
    rw [ha] at hf
    cases av with
    | fval x => cases hf
    | tval t =>
      refine ⟨t, ?_⟩
      simp only [attrT, h, ha]
    | oval o => cases hf

theorem resolveValue_ne_err (st : State) (v : Nat) (hS : SafeB st = true) :
    resolveValue st v ≠ RVal.err := by
  intro h
  unfold resolveValue at h
  split at h
  · cases h
  next vd hv =>
    split at h
    next bb =>
      split at h
      · cases h
      · cases h
    next n i hdef =>
      split at h
      · split at h
        · cases h
        · cases h
      next hk =>
        split at h
        · cases h
        next hat =>
          obtain ⟨nd, hn, hkc⟩ := kindOf_eq_some st n Kind.constant hk (by intro hc; cases hc)
          obtain ⟨t, hat2⟩ := attrT_of_hasTensor st n nd hn
            (safeN_constant nd (safeB_lookup st n nd hS hn) hkc)
          rw [hat2] at hat
          cases hat
      next hother => cases h

theorem resolveInputs_ne_none (st : State) (l : List Nat) (hS : SafeB st = true) :
    resolveInputs st l ≠ none := by
  induction l with
  | nil => intro h; cases h
  | cons v vs ih =>
    unfold resolveInputs
    cases hr : resolveValue st v with
    | skip => exact ih
    | err => exact absurd hr (resolveValue_ne_err st v hS)
    | tensor t =>
      cases hrest : resolveInputs st vs with
      | none => exact absurd hrest ih
      | some vals =>
        intro h
        cases h

theorem head?_of_ne_nil (l : List Nat) (h : l ≠ []) : ∃ x, l.head? = some x := by
  cases l with
  | nil => exact absurd rfl h
  | cons a t => exact ⟨a, rfl⟩

theorem matchFusion_ne_err (st : State) (cur : Nat) (hS : SafeB st = true)
    (hk : kindOf st cur = Kind.conv) : matchFusion st cur ≠ MatchRes.err := by
  obtain ⟨cnd, hcur, hck⟩ := kindOf_eq_some st cur Kind.conv hk (by intro hc; cases hc)
  obtain ⟨hone, htwo⟩ := safeN_conv cnd (safeB_lookup st cur cnd hS hcur) hck
  have hnoc : nodeOutputs st cur = cnd.outputs := by
    unfold nodeOutputs
    rw [hcur]
  have hnic : nodeInputs st cur = cnd.inputs := by
    unfold nodeInputs
    rw [hcur]
  intro h
  unfold matchFusion at h
  split at h
  next hhead =>
    rw [hnoc] at hhead
    obtain ⟨x, hx⟩ := head?_of_ne_nil cnd.outputs hone
    rw [hx] at hhead
    cases hhead
  next out0 hhead =>
    split at h
    next bn i hu =>
      split at h
      · cases h
      next hkbn =>
        have hkbn2 : kindOf st bn = Kind.batchNorm := not_not.mp hkbn
        obtain ⟨bnd, hbn, hbk⟩ := kindOf_eq_some st bn Kind.batchNorm hkbn2
          (by intro hc; cases hc)
        obtain ⟨hfeps, hbout⟩ := safeN_batchNorm bnd (safeB_lookup st bn bnd hS hbn) hbk
        have hnob : nodeOutputs st bn = bnd.outputs := by
          unfold nodeOutputs
          rw [hbn]
        split at h
        · cases h
        next harity =>
          split at h
          next heps =>
            obtain ⟨x, hx⟩ := attrF_of_hasFloat st bn bnd hbn hfeps
            rw [hx] at heps
            cases heps
          next eps heps =>
            split at h
            next hgv =>
              unfold getValues at hgv
              exact absurd hgv (resolveInputs_ne_none st _ hS)
            next cv hgv =>
              split at h
              · cases h
              next hsz =>
                split at h
                next hgvb =>
                  unfold getValues at hgvb
                  exact absurd hgvb (resolveInputs_ne_none st _ hS)
                next bv hgvb =>
                  split at h
                  · cases h
                  next hlen =>
                    split at h
                    next hpre =>
                      split at h
                      next bnOut0 v0 hh1 hh2 => cases h
                      next hmis =>
                        obtain ⟨y, hy⟩ := head?_of_ne_nil bnd.outputs hbout
                        obtain ⟨z, hz⟩ := head?_of_ne_nil cnd.inputs
                          (by intro hc; rw [hc] at htwo; cases htwo)
                        exact hmis y z (by rw [hnob]; exact hy) (by rw [hnic]; exact hz)
                    next hpre => cases h
    next hcatch =>
      cases h

theorem fuseAt_vmap (sq : Int → Int) (b cur : Nat) (st st2 : State)
    (rep : Option (Nat × Nat)) (h : fuseAt sq b cur st = some (st2, rep))
    (k : Nat) (e : Nat × Tensor) (hk : alookup st.vmap k = some e) :
    alookup st2.vmap k = some e := by
  rcases fuseAt_inv sq b cur st st2 rep h with ⟨he, -⟩ |
    ⟨bn, out0, bnOut0, v0, cv, bv, eps, hkd, hm, he, -⟩
  · rw [he]
    exact hk
  · rw [he]
    exact applyFusion_vmap_preserve sq b cur bn bnOut0 v0 cv bv eps st k e hk

theorem fuseAt_bounds_count (sq : Int → Int) (b cur : Nat) (st st2 : State)
    (rep : Option (Nat × Nat)) (h : fuseAt sq b cur st = some (st2, rep))
    (hB : Bounds st) :
    Bounds st2 ∧ (st2 = st ∨ st2.nodes.length < st.nodes.length) := by
  rcases fuseAt_inv sq b cur st st2 rep h with ⟨he, -⟩ |
    ⟨bn, out0, bnOut0, v0, cv, bv, eps, hkd, hm, he, -⟩
  · rw [he]
    exact ⟨hB, Or.inl rfl⟩
  · obtain ⟨cnd, bnd, hcur, hbn, hck, hbk, hbc, hv0, hbo, hocur, hobn⟩ :=
      fire_facts st cur bn out0 bnOut0 v0 cv bv eps hkd hm hB
    rw [he]
    refine ⟨applyFusion_bounds sq b cur bn bnOut0 v0 cv bv eps st hB hv0, Or.inr ?_⟩
    have := applyFusion_count sq b cur bn bnOut0 v0 cv bv eps st cnd bnd hcur hbn hB hv0 hbc
    omega

theorem fuseAt_freshNode_mono (sq : Int → Int) (b cur : Nat) (st st2 : State)
    (rep : Option (Nat × Nat)) (h : fuseAt sq b cur st = some (st2, rep)) :
    st.freshNode ≤ st2.freshNode := by
  rcases fuseAt_inv sq b cur st st2 rep h with ⟨he, -⟩ |
    ⟨bn, out0, bnOut0, v0, cv, bv, eps, hkd, hm, he, -⟩
  · rw [he]
  · rw [he, applyFusion_freshNode]
    exact Nat.le_succ _

theorem fuseAt_shape_back (sq : Int → Int) (b cur : Nat) (st st2 : State)
    (rep : Option (Nat × Nat)) (h : fuseAt sq b cur st = some (st2, rep))
    (hB : Bounds st) (m : Nat) (hm : m < st.freshNode) (nd2 : NodeData)
    (h2 : alookup st2.nodes m = some nd2) :
    ∃ nd1, alookup st.nodes m = some nd1 ∧ nodeShape nd2 = nodeShape nd1 := by
  rcases fuseAt_inv sq b cur st st2 rep h with ⟨he, -⟩ |
    ⟨bn, out0, bnOut0, v0, cv, bv, eps, hkd, hm2, he, -⟩
  · rw [he] at h2
    exact ⟨nd2, h2, rfl⟩
  · rw [he] at h2
    obtain ⟨cnd, bnd, hcur, hbn, hck, hbk, hbc, hv0, hbo, hocur, hobn⟩ :=
      fire_facts st cur bn out0 bnOut0 v0 cv bv eps hkd hm2 hB
    by_cases hmb : m = bn
    · rw [hmb, (applyFusion_destroyed sq b cur bn bnOut0 v0 cv bv eps st).1] at h2
      cases h2
    · by_cases hmc : m = cur
      · rw [hmc, (applyFusion_destroyed sq b cur bn bnOut0 v0 cv bv eps st).2] at h2
        cases h2
      · have hfr := applyFusion_frame sq b cur bn bnOut0 v0 cv bv eps st m hmb hmc hm
        rw [h2] at hfr
        cases he1 : alookup st.nodes m with
        | none =>
          rw [he1] at hfr
          cases hfr
        | some nd1 =>
          rw [he1] at hfr
          simp only [Option.map_some'] at hfr
          exact ⟨nd1, rfl, Option.some.inj hfr⟩

theorem fuseAt_safe (sq : Int → Int) (b cur : Nat) (st st2 : State)
    (rep : Option (Nat × Nat)) (h : fuseAt sq b cur st = some (st2, rep))
    (hS : SafeB st = true) (hB : Bounds st) : SafeB st2 = true := by
  rcases fuseAt_inv sq b cur st st2 rep h with ⟨he, -⟩ |
    ⟨bn, out0, bnOut0, v0, cv, bv, eps, hkd, hm, he, -⟩
  · rw [he]
    exact hS
  · rw [he]
    obtain ⟨cnd, bnd, hcur, hbn, hck, hbk, hbc, hv0, hbo, hocur, hobn⟩ :=
      fire_facts st cur bn out0 bnOut0 v0 cv bv eps hkd hm hB
    have hB2 : Bounds (applyFusion sq b cur bn bnOut0 v0 cv bv eps st) :=
      applyFusion_bounds sq b cur bn bnOut0 v0 cv bv eps st hB hv0
    unfold SafeB
    rw [List.all_eq_true]
    intro q hq
    have hl : alookup (applyFusion sq b cur bn bnOut0 v0 cv bv eps st).nodes q.1 =
        some q.2 := by
      refine alookup_of_mem_nodup _ _ _ hB2.2 ?_
      exact hq
    have hmlt : q.1 < st.freshNode + 1 := by
      have := (hB2.1 q hq).1
      rw [applyFusion_freshNode] at this
      exact this
    by_cases hfn : q.1 = st.freshNode
    · have hsh := applyFusion_newNode_shape sq b cur bn bnOut0 v0 cv bv eps st cnd bnd
        hcur hbn (fun q2 hq2 => (hB.1 q2 hq2).1)
      rw [← hfn, hl] at hsh
      simp only [Option.map_some'] at hsh
      have hsafe0 : safeN ⟨Kind.conv, [0, 0, 0], [st.freshValue], nodeAttrs st cur, []⟩ =
          true := by
        simp [safeN]
      refine safeN_of_shape _ _ ?_ hsafe0
      rw [Option.some.inj hsh]
      rfl
    · have hmlt2 : q.1 < st.freshNode := by omega
      by_cases hmb : q.1 = bn
      · rw [hmb, (applyFusion_destroyed sq b cur bn bnOut0 v0 cv bv eps st).1] at hl
        cases hl
      · by_cases hmc : q.1 = cur
        · rw [hmc, (applyFusion_destroyed sq b cur bn bnOut0 v0 cv bv eps st).2] at hl
          cases hl
        · have hfr := applyFusion_frame sq b cur bn bnOut0 v0 cv bv eps st q.1 hmb hmc hmlt2
          rw [hl] at hfr
          cases he1 : alookup st.nodes q.1 with
          | none =>
            rw [he1] at hfr
            cases hfr
          | some nd1 =>
            rw [he1] at hfr
            simp only [Option.map_some'] at hfr
            exact safeN_of_shape nd1 q.2 (Option.some.inj hfr)
              (safeB_lookup st q.1 nd1 hS he1)

theorem fuseAt_ne_none (sq : Int → Int) (b cur : Nat) (st : State)
    (hS : SafeB st = true) : fuseAt sq b cur st ≠ none := by
  unfold fuseAt
  split
  next hk =>
    cases hm : matchFusion st cur with
    | skip => intro h; cases h
    | err => exact absurd hm (matchFusion_ne_err st cur hS hk)
    | fire bn out0 bnOut0 v0 cv bv eps => intro h; cases h
  next hk =>
    intro h
    cases h

/-! ### The fueled traversal -/

theorem fuseRun_vmap_mono (sq : Int → Int) :
    ∀ (fuel : Nat) (t : WalkTask) (st st' : State),
      fuseRun sq fuel t st = PassResult.ok st' →
      ∀ k e, alookup st.vmap k = some e → alookup st'.vmap k = some e := by
  intro fuel
  induction fuel with
  | zero =>
    intro t st st' h
    cases h
  | succ n ih =>
    intro t st st' h k e hk
    cases t with
    | block b => exact ih _ _ _ h k e hk
    | nodesIn b pending =>
      cases pending with
      | nil =>
        simp only [fuseRun] at h
        cases h
        exact hk
      | cons cur rest =>
        simp only [fuseRun] at h
        split at h
        · cases h
        · cases h
        next st1 hc =>
          split at h
          · cases h
          next st2 rep hf =>
            exact ih _ _ _ h k e (fuseAt_vmap sq b cur st1 st2 rep hf k e
              (ih _ _ _ hc k e hk))
    | children bs =>
      cases bs with
      | nil =>
        simp only [fuseRun] at h
        cases h
        exact hk
      | cons c cs =>
        simp only [fuseRun] at h
        split at h
        · cases h
        · cases h
        next st1 hc =>
          exact ih _ _ _ h k e (ih _ _ _ hc k e hk)

theorem fuseRun_count (sq : Int → Int) :
    ∀ (fuel : Nat) (t : WalkTask) (st : State), Bounds st →
      ∀ st', fuseRun sq fuel t st = PassResult.ok st' →
      Bounds st' ∧ (st' = st ∨ st'.nodes.length < st.nodes.length) := by
  intro fuel
  induction fuel with
  | zero =>
    intro t st hB st' h
    cases h
  | succ n ih =>
    intro t st hB st' h
    cases t with
    | block b => exact ih _ _ hB st' h
    | nodesIn b pending =>
      cases pending with
      | nil =>
        simp only [fuseRun] at h
        cases h
        exact ⟨hB, Or.inl rfl⟩
      | cons cur rest =>
        simp only [fuseRun] at h
        split at h
        · cases h
        · cases h
        next st1 hc =>
          split at h
          · cases h
          next st2 rep hf =>
            obtain ⟨hB1, d1⟩ := ih _ _ hB st1 hc
            obtain ⟨hB2, d2⟩ := fuseAt_bounds_count sq b cur st1 st2 rep hf hB1
            obtain ⟨hB3, d3⟩ := ih _ _ hB2 st' h
            have l1 : st1.nodes.length ≤ st.nodes.length := by
              rcases d1 with e | l
              · rw [e]
              · exact Nat.le_of_lt l
            have l2 : st2.nodes.length ≤ st1.nodes.length := by
              rcases d2 with e | l
              · rw [e]
              · exact Nat.le_of_lt l
            have l3 : st'.nodes.length ≤ st2.nodes.length := by
              rcases d3 with e | l
              · rw [e]
              · exact Nat.le_of_lt l
            refine ⟨hB3, ?_⟩
            rcases d1 with e1 | lt1
            · rcases d2 with e2 | lt2
              · rcases d3 with e3 | lt3
                · exact Or.inl (e3.trans (e2.trans e1))
                · refine Or.inr ?_
                  have q2 : st2.nodes.length = st1.nodes.length := by rw [e2]
                  have q1 : st1.nodes.length = st.nodes.length := by rw [e1]
                  omega
              · refine Or.inr ?_
                have q1 : st1.nodes.length = st.nodes.length := by rw [e1]
                omega
            · exact Or.inr (by omega)
    | children bs =>
      cases bs with
      | nil =>
        simp only [fuseRun] at h
        cases h
        exact ⟨hB, Or.inl rfl⟩
      | cons c cs =>
        simp only [fuseRun] at h
        split at h
        · cases h
        · cases h
        next st1 hc =>
          obtain ⟨hB1, d1⟩ := ih _ _ hB st1 hc
          obtain ⟨hB2, d2⟩ := ih _ _ hB1 st' h
          have l1 : st1.nodes.length ≤ st.nodes.length := by
            rcases d1 with e | l
            · rw [e]
            · exact Nat.le_of_lt l
          refine ⟨hB2, ?_⟩
          rcases d1 with e1 | lt1
          · rcases d2 with e2 | lt2
            · exact Or.inl (e2.trans e1)
            · refine Or.inr ?_
              have q1 : st1.nodes.length = st.nodes.length := by rw [e1]
              omega
          · rcases d2 with e2 | lt2
            · refine Or.inr ?_
              have q2 : st'.nodes.length = st1.nodes.length := by rw [e2]
              omega
            · exact Or.inr (by omega)

theorem fuseRun_safe (sq : Int → Int) :
    ∀ (fuel : Nat) (t : WalkTask) (st : State), SafeB st = true → Bounds st →
      fuseRun sq fuel t st ≠ PassResult.err ∧
      (∀ st', fuseRun sq fuel t st = PassResult.ok st' →
        SafeB st' = true ∧ Bounds st') := by
  intro fuel
  induction fuel with
  | zero =>
    intro t st hS hB
    refine ⟨?_, ?_⟩
    · intro hcon
      cases hcon
    · intro st' h
      cases h
  | succ n ih =>
    intro t st hS hB
    cases t with
    | block b => exact ih _ _ hS hB
    | nodesIn b pending =>
      cases pending with
      | nil =>
        have hmain : fuseRun sq (n + 1) (WalkTask.nodesIn b []) st = PassResult.ok st := by
          simp only [fuseRun]
        rw [hmain]
        refine ⟨?_, ?_⟩
        · intro hcon
          cases hcon
        · intro st' h
          cases h
          exact ⟨hS, hB⟩
      | cons cur rest =>
        cases hc : fuseRun sq n (WalkTask.children (nodeBlocks st cur)) st with
        | err => exact absurd hc (ih _ _ hS hB).1
        | fuelOut =>
          have hmain : fuseRun sq (n + 1) (WalkTask.nodesIn b (cur :: rest)) st =
              PassResult.fuelOut := by
            simp only [fuseRun, hc]
          rw [hmain]
          refine ⟨?_, ?_⟩
          · intro hcon
            cases hcon
          · intro st' h2
            cases h2
        | ok st1 =>
          obtain ⟨hS1, hB1⟩ := (ih _ _ hS hB).2 st1 hc
          cases hf : fuseAt sq b cur st1 with
          | none => exact absurd hf (fuseAt_ne_none sq b cur st1 hS1)
          | some pr =>
            obtain ⟨st2, rep⟩ := pr
            have hmain : fuseRun sq (n + 1) (WalkTask.nodesIn b (cur :: rest)) st =
                fuseRun sq n (WalkTask.nodesIn b (applyRep rep rest)) st2 := by
              simp only [fuseRun, hc, hf]
            rw [hmain]
            exact ih _ _ (fuseAt_safe sq b cur st1 st2 rep hf hS1 hB1)
              (fuseAt_bounds_count sq b cur st1 st2 rep hf hB1).1
    | children bs =>
      cases bs with
      | nil =>
        have hmain : fuseRun sq (n + 1) (WalkTask.children []) st = PassResult.ok st := by
          simp only [fuseRun]
        rw [hmain]
        refine ⟨?_, ?_⟩
        · intro hcon
          cases hcon
        · intro st' h
          cases h
          exact ⟨hS, hB⟩
      | cons c cs =>
        cases hc : fuseRun sq n (WalkTask.block c) st with
        | err => exact absurd hc (ih _ _ hS hB).1
        | fuelOut =>
          have hmain : fuseRun sq (n + 1) (WalkTask.children (c :: cs)) st =
              PassResult.fuelOut := by
            simp only [fuseRun, hc]
          rw [hmain]
          refine ⟨?_, ?_⟩
          · intro hcon
            cases hcon
          · intro st' h2
            cases h2
        | ok st1 =>
          obtain ⟨hS1, hB1⟩ := (ih _ _ hS hB).2 st1 hc
          have hmain : fuseRun sq (n + 1) (WalkTask.children (c :: cs)) st =
              fuseRun sq n (WalkTask.children cs) st1 := by
            simp only [fuseRun, hc]
          rw [hmain]
          exact ih _ _ hS1 hB1

theorem fuseRun_shape_back (sq : Int → Int) :
    ∀ (fuel : Nat) (t : WalkTask) (st : State), Bounds st →
      ∀ st', fuseRun sq fuel t st = PassResult.ok st' →
      st.freshNode ≤ st'.freshNode ∧ Bounds st' ∧
      (∀ m nd', m < st.freshNode → alookup st'.nodes m = some nd' →
        ∃ nd, alookup st.nodes m = some nd ∧ nodeShape nd' = nodeShape nd) := by
  intro fuel
  induction fuel with
  | zero =>
    intro t st hB st' h
    cases h
  | succ n ih =>
    intro t st hB st' h
    cases t with
    | block b => exact ih _ _ hB st' h
    | nodesIn b pending =>
      cases pending with
      | nil =>
        simp only [fuseRun] at h
        cases h
        exact ⟨Nat.le_refl _, hB, fun m nd' _ h2 => ⟨nd', h2, rfl⟩⟩
      | cons cur rest =>
        simp only [fuseRun] at h
        split at h
        · cases h
        · cases h
        next st1 hc =>
          split at h
          · cases h
          next st2 rep hf =>
            obtain ⟨mono1, hB1, back1⟩ := ih _ _ hB st1 hc
            have hB2 := (fuseAt_bounds_count sq b cur st1 st2 rep hf hB1).1
            have mono2 := fuseAt_freshNode_mono sq b cur st1 st2 rep hf
            obtain ⟨mono3, hB3, back3⟩ := ih _ _ hB2 st' h
            refine ⟨by omega, hB3, ?_⟩
            intro m nd' hm h2
            obtain ⟨nd2, h2b, hsh2⟩ := back3 m nd' (by omega) h2
            obtain ⟨nd1, h2c, hsh1⟩ := fuseAt_shape_back sq b cur st1 st2 rep hf hB1 m
              (by omega) nd2 h2b
            obtain ⟨nd0, h2d, hsh0⟩ := back1 m nd1 hm h2c
            exact ⟨nd0, h2d, (hsh2.trans hsh1).trans hsh0⟩
    | children bs =>
      cases bs with
      | nil =>
        simp only [fuseRun] at h
        cases h
        exact ⟨Nat.le_refl _, hB, fun m nd' _ h2 => ⟨nd', h2, rfl⟩⟩
      | cons c cs =>
        simp only [fuseRun] at h
        split at h
        · cases h
        · cases h
        next st1 hc =>
          obtain ⟨mono1, hB1, back1⟩ := ih _ _ hB st1 hc
          obtain ⟨mono2, hB2, back2⟩ := ih _ _ hB1 st' h
          refine ⟨by omega, hB2, ?_⟩
          intro m nd' hm h2
          obtain ⟨nd1, h2b, hsh1⟩ := back2 m nd' (by omega) h2
          obtain ⟨nd0, h2c, hsh0⟩ := back1 m nd1 hm h2b
          exact ⟨nd0, h2c, hsh1.trans hsh0⟩

/-! ### The pass entry point -/

theorem evalPeephole_false_eq (sq : Int → Int) (fuel : Nat) (st : State) :
    EvalPeepholeONNX sq fuel st false = PassResult.ok st := rfl

theorem evalPeephole_true_eq (sq : Int → Int) (fuel : Nat) (st : State) :
    EvalPeepholeONNX sq fuel st true =
      fuseRun sq fuel (WalkTask.block st.rootBlock) st := by
  show (match fuseRun sq fuel (WalkTask.block st.rootBlock) st with
    | PassResult.ok st1 =>
      PassResult.ok (buildParamsMapFromValueToParamsMap st1.vmap st1)
    | r => r) = fuseRun sq fuel (WalkTask.block st.rootBlock) st
  cases fuseRun sq fuel (WalkTask.block st.rootBlock) st with
  | ok st1 => rfl
  | err => rfl
  | fuelOut => rfl

/-! ### Elementwise arithmetic of the folder -/

theorem get?_zipWith (f : Int → Int → Int) (l1 l2 : List Int) (i : Nat) :
    (List.zipWith f l1 l2).get? i =
      match l1.get? i, l2.get? i with
      | some a, some b => some (f a b)
      | _, _ => none := by
  induction l1 generalizing l2 i with
  | nil => cases l2 <;> cases i <;> rfl
  | cons a t ih =>
    cases l2 with
    | nil =>
      cases i with
      | zero => rfl
      | succ j =>
        have h1 : (a :: t).get? (j + 1) = t.get? j := rfl
        have h2 : List.zipWith f (a :: t) ([] : List Int) = [] := rfl
        rw [h2, h1]
        cases t.get? j <;> rfl
    | cons b t2 =>
      cases i with
      | zero => rfl
      | succ j => exact ih t2 j

theorem foldScale_spec (sq : Int → Int) (bnScale bnVar : Tensor) (eps : Int) (i : Nat)
    (a b : Int) (ha : bnScale.data.get? i = some a) (hb : bnVar.data.get? i = some b) :
    (foldScale sq bnScale bnVar eps).data.get? i = some (a / sq (b + eps)) := by
  show (List.zipWith (· / ·) bnScale.data
      ((bnVar.data.map (· + eps)).map sq)).get? i = some (a / sq (b + eps))
  rw [get?_zipWith, ha, List.get?_map, List.get?_map, hb]
  rfl

theorem get?_enumFrom (l : List Int) (k i : Nat) :
    (List.enumFrom k l).get? i = (l.get? i).map (fun x => (k + i, x)) := by
  induction l generalizing k i with
  | nil => cases i <;> rfl
  | cons a t ih =>
    cases i with
    | zero =>
      show some (k, a) = some (k + 0, a)
      rw [Nat.add_zero]
    | succ j =>
      show (List.enumFrom (k + 1) t).get? j = (t.get? j).map (fun x => (k + (j + 1), x))
      rw [ih]
      have hadd : k + 1 + j = k + (j + 1) := by omega
      rw [hadd]

theorem get?_enum (l : List Int) (i : Nat) :
    l.enum.get? i = (l.get? i).map (fun x => (i, x)) := by
  have h := get?_enumFrom l 0 i
  rw [show (0 : Nat) + i = i from by omega] at h
  exact h

theorem scaleChannels_spec (w s : Tensor) (j : Nat) (x : Int)
    (hx : w.data.get? j = some x)
    (hch : j / (w.shape.drop 1).prod < w.size0) :
    (scaleChannels w s).data.get? j =
      some (x * s.data.getD (j / (w.shape.drop 1).prod) 0) := by
  show (w.data.enum.map (fun p =>
      if p.1 / (w.shape.drop 1).prod < w.size0 then
        p.2 * s.data.getD (p.1 / (w.shape.drop 1).prod) 0 else p.2)).get? j = _
  rw [List.get?_map, get?_enum, hx]
  simp only [Option.map_some']
  rw [if_pos hch]

theorem scaleChannels_spec_out (w s : Tensor) (j : Nat) (x : Int)
    (hx : w.data.get? j = some x)
    (hch : ¬ j / (w.shape.drop 1).prod < w.size0) :
    (scaleChannels w s).data.get? j = some x := by
  show (w.data.enum.map (fun p =>
      if p.1 / (w.shape.drop 1).prod < w.size0 then
        p.2 * s.data.getD (p.1 / (w.shape.drop 1).prod) 0 else p.2)).get? j = _
  rw [List.get?_map, get?_enum, hx]
  simp only [Option.map_some']
  rw [if_neg hch]

theorem foldBias_bias_spec (convVals : List Tensor) (bnScale2 bnB bnMean : Tensor)
    (j : Nat) (ob m sv bb : Int)
    (h1 : (convVals.getD 1 dT).data.get? j = some ob)
    (h2 : bnMean.data.get? j = some m)
    (h3 : bnScale2.data.get? j = some sv)
    (h4 : bnB.data.get? j = some bb) :
    (foldBias convVals 3 bnScale2 bnB bnMean).data.get? j = some ((ob - m) * sv + bb) := by
  show (List.zipWith (· + ·) (List.zipWith (· * ·)
      (List.zipWith (· - ·) (convVals.getD 1 dT).data bnMean.data) bnScale2.data)
      bnB.data).get? j = some ((ob - m) * sv + bb)
  rw [get?_zipWith, get?_zipWith, get?_zipWith, h1, h2, h3, h4]

theorem foldBias_nobias_spec (convVals : List Tensor) (bnScale2 bnB bnMean : Tensor)
    (n j : Nat) (m sv bb : Int) (hn : n ≠ 3)
    (h2 : bnMean.data.get? j = some m)
    (h3 : bnScale2.data.get? j = some sv)
    (h4 : bnB.data.get? j = some bb) :
    (foldBias convVals n bnScale2 bnB bnMean).data.get? j = some (bb - m * sv) := by
  unfold foldBias
  rw [if_neg hn]
  show (List.zipWith (· - ·) bnB.data
      (List.zipWith (· * ·) bnMean.data bnScale2.data)).get? j = some (bb - m * sv)
  rw [get?_zipWith, get?_zipWith, h2, h3, h4]

theorem alookup_addBlockInputOp_nodes (st : State) (bb p : Nat) :
    (alookup (addBlockInputOp st bb).blocksT p).map BlockData.nodes =
      (alookup st.blocksT p).map BlockData.nodes := by
  by_cases hp : p = bb
  · subst hp
    cases he : alookup st.blocksT p with
    | none =>
      unfold addBlockInputOp
      rw [he]
      exact congrArg (Option.map BlockData.nodes) he
    | some bd =>
      rw [alookup_addBlockInputOp_self st p bd he]
      rfl
  · rw [alookup_addBlockInputOp_ne st bb p hp]

theorem applyFusion_blockNodes (sq : Int → Int) (b cur bn bnOut0 v0 : Nat)
    (convVals bnVals : List Tensor) (eps : Int) (st : State)
    (cnd bnd : NodeData)
    (hcur : alookup st.nodes cur = some cnd)
    (hbn : alookup st.nodes bn = some bnd)
    (hkeys : ∀ q ∈ st.nodes, q.1 < st.freshNode)
    (hbc : bn ≠ cur) (p : Nat) :
    (alookup (applyFusion sq b cur bn bnOut0 v0 convVals bnVals eps st).blocksT p).map
        BlockData.nodes =
      (alookup st.blocksT p).map (fun bd => ((insertBeforeList bd.nodes bn st.freshNode).filter (· ≠ bn)).filter (· ≠ cur)) := by
  have hbnlt : bn < st.freshNode := hkeys (bn, bnd) (alookup_mem _ _ _ hbn)
  have hcurlt : cur < st.freshNode := hkeys (cur, cnd) (alookup_mem _ _ _ hcur)
  simp only [applyFusion]
  simp only [createConv_freshValue, createConv_freshNode, createConv_rootBlock,
    setValueType_freshValue, setValueType_freshNode, setValueType_rootBlock,
    setNodeAttrs_freshValue, setNodeAttrs_freshNode, setNodeAttrs_rootBlock,
    insertBeforeOp_freshValue, insertBeforeOp_freshNode, insertBeforeOp_rootBlock,
    addInputOp_freshValue, addInputOp_freshNode, addInputOp_rootBlock,
    addBlockInputOp_freshValue, addBlockInputOp_freshNode, addBlockInputOp_rootBlock,
    mapInsert_freshValue, mapInsert_freshNode, mapInsert_rootBlock]
  set sF := foldScale sq ((bnVals.getD 0 dT).clone) ((bnVals.getD 3 dT).clone) eps with hsF
  set cw := scaleChannels ((convVals.getD 0 dT).clone) sF with hcw
  set cb := foldBias convVals (nodeInputs st cur).length sF ((bnVals.getD 1 dT).clone)
    ((bnVals.getD 2 dT).clone) with hcb
  set st1 := createConv st with hst1
  set st2 := setValueType st1 st.freshValue (valueType st bnOut0) with hst2
  set st3 := setNodeAttrs st2 st.freshNode (nodeAttrs st cur) with hst3
  set st4 := insertBeforeOp st3 bn st.freshNode with hst4
  set st5 := addInputOp st4 st.freshNode v0 with hst5
  set st6 := addBlockInputOp st5 st.rootBlock with hst6
  set st7 := mapInsert st6 (st.freshValue + 1) cw with hst7
  set st8 := setValueType st7 (st.freshValue + 1) (some (cw.shape, cw.dtype)) with hst8
  set st9 := addInputOp st8 st.freshNode (st.freshValue + 1) with hst9
  set st10 := addBlockInputOp st9 b with hst10
  set st11 := mapInsert st10 (st.freshValue + 1 + 1) cb with hst11
  set st12 := setValueType st11 (st.freshValue + 1 + 1) (some (cb.shape, cb.dtype)) with hst12
  set st13 := addInputOp st12 st.freshNode (st.freshValue + 1 + 1) with hst13
  set st14 := replaceAllUses st13 bnOut0 st.freshValue with hst14
  set st15 := destroyNode st14 bn with hst15
  have hnbn13 : alookup st13.nodes bn = some bnd := by
    rw [hst13, alookup_addInputOp_ne _ _ _ _ (by omega : bn ≠ st.freshNode), hst12,
      setValueType_nodes, hst11, mapInsert_nodes, hst10, addBlockInputOp_nodes, hst9,
      alookup_addInputOp_ne _ _ _ _ (by omega : bn ≠ st.freshNode), hst8,
      setValueType_nodes, hst7, mapInsert_nodes, hst6, addBlockInputOp_nodes, hst5,
      alookup_addInputOp_ne _ _ _ _ (by omega : bn ≠ st.freshNode), hst4,
      insertBeforeOp_nodes, hst3, alookup_setNodeAttrs,
      if_neg (by omega : ¬ bn = st.freshNode), hst2, setValueType_nodes, hst1,
      createConv_nodes, alookup_aset_ne _ _ _ _ (by omega : bn ≠ st.freshNode)]
    exact hbn
  have hncur13 : alookup st13.nodes cur = some cnd := by
    rw [hst13, alookup_addInputOp_ne _ _ _ _ (by omega : cur ≠ st.freshNode), hst12,
      setValueType_nodes, hst11, mapInsert_nodes, hst10, addBlockInputOp_nodes, hst9,
      alookup_addInputOp_ne _ _ _ _ (by omega : cur ≠ st.freshNode), hst8,
      setValueType_nodes, hst7, mapInsert_nodes, hst6, addBlockInputOp_nodes, hst5,
      alookup_addInputOp_ne _ _ _ _ (by omega : cur ≠ st.freshNode), hst4,
      insertBeforeOp_nodes, hst3, alookup_setNodeAttrs,
      if_neg (by omega : ¬ cur = st.freshNode), hst2, setValueType_nodes, hst1,
      createConv_nodes, alookup_aset_ne _ _ _ _ (by omega : cur ≠ st.freshNode)]
    exact hcur
  have hdestrB : (alookup (destroyNode st15 cur).blocksT p).map BlockData.nodes =
      ((alookup st13.blocksT p).map (fun bd => { bd with nodes := (bd.nodes.filter (· ≠ bn)).filter (· ≠ cur) })).map BlockData.nodes := by
    have hsh14 := replaceAllUses_nodes_shape st13 bnOut0 st.freshValue bn
    rw [hnbn13] at hsh14
    rw [← hst14] at hsh14
    cases he14 : alookup st14.nodes bn with
    | none =>
      rw [he14] at hsh14
      simp at hsh14
    | some bnd14 =>
      have hshc := replaceAllUses_nodes_shape st13 bnOut0 st.freshValue cur
      rw [hncur13] at hshc
      rw [← hst14] at hshc
      cases hec14 : alookup st14.nodes cur with
      | none =>
        rw [hec14] at hshc
        simp at hshc
      | some cnd14 =>
        have hec15 : alookup st15.nodes cur = some cnd14 := by
          rw [hst15, alookup_destroyNode_ne _ bn cur (fun he => hbc he.symm)]
          exact hec14
        rw [alookup_destroyNode_blocksT st15 cur cnd14 hec15 p, hst15,
          alookup_destroyNode_blocksT st14 bn bnd14 he14 p, hst14, replaceAllUses_blocksT]
        cases alookup st13.blocksT p with
        | none => rfl
        | some bd => rfl
  rw [hdestrB]
  have hb13eq : st13.blocksT = st10.blocksT := by
    rw [hst13, addInputOp_blocksT, hst12, setValueType_blocksT, hst11, mapInsert_blocksT]
  have hb9eq : st9.blocksT = st6.blocksT := by
    rw [hst9, addInputOp_blocksT, hst8, setValueType_blocksT, hst7, mapInsert_blocksT]
  have h13nodes : (alookup st13.blocksT p).map BlockData.nodes =
      (alookup st.blocksT p).map (fun bd => insertBeforeList bd.nodes bn st.freshNode) := by
    rw [hb13eq, hst10]
    rw [alookup_addBlockInputOp_nodes st9 b p, hb9eq, hst6,
      alookup_addBlockInputOp_nodes st5 st.rootBlock p, hst5, addInputOp_blocksT, hst4,
      alookup_insertBeforeOp, hst3, setNodeAttrs_blocksT, hst2, setValueType_blocksT, hst1,
      createConv_blocksT]
    cases alookup st.blocksT p with
    | none => rfl
    | some bd => rfl
  have hLHS : ∀ o : Option BlockData,
      (o.map (fun bd => { bd with nodes := (bd.nodes.filter (· ≠ bn)).filter (· ≠ cur) })).map BlockData.nodes =
        (o.map BlockData.nodes).map (fun l => (l.filter (· ≠ bn)).filter (· ≠ cur)) := by
    intro o
    cases o with
    | none => rfl
    | some bd => rfl
  rw [hLHS (alookup st13.blocksT p), h13nodes]
  cases alookup st.blocksT p with
  | none => rfl
  | some bd => rfl

theorem insertBeforeList_decomp (l1 l2 : List Nat) (bn nid : Nat) (h : ¬ bn ∈ l1) :
    insertBeforeList (l1 ++ bn :: l2) bn nid = l1 ++ nid :: bn :: l2 := by
  induction l1 with
  | nil =>
    show insertBeforeList (bn :: l2) bn nid = nid :: bn :: l2
    unfold insertBeforeList
    rw [if_pos rfl]
  | cons x t ih =>
    have hx : x ≠ bn := fun he => h (by rw [he]; exact List.mem_cons_self _ _)
    show insertBeforeList (x :: (t ++ bn :: l2)) bn nid = x :: (t ++ nid :: bn :: l2)
    unfold insertBeforeList
    rw [if_neg hx, ih (fun hm => h (List.mem_cons_of_mem _ hm))]

theorem filter_ne_of_not_mem (l : List Nat) (x : Nat) (h : ¬ x ∈ l) :
    l.filter (· ≠ x) = l := by
  induction l with
  | nil => rfl
  | cons a t ih =>
    have ha : a ≠ x := fun he => h (by rw [he]; exact List.mem_cons_self _ _)
    rw [List.filter_cons_of_pos (by simpa using ha), ih (fun hm => h (List.mem_cons_of_mem _ hm))]

/-- Extract the final state of a successful run (used only to state concrete
facts about runs; any failure collapses to the input state). -/
def passState (st : State) (r : PassResult) : State :=
  match r with
  | PassResult.ok s => s
  | _ => st

theorem getD_of_get? (l : List Int) (i : Nat) (x : Int) (h : l.get? i = some x) :
    l.getD i 0 = x := by
  rw [List.getD_eq_getElem?_getD, ← List.get?_eq_getElem?, h]
  rfl

/-! ### Concrete graphs

Small states used to evaluate the pass on closed inputs: a flat fusable
pair, a fusable pair inside a nested sub-block, a matcher-throwing pair
(missing `epsilon`), a matcher-throwing pair (a `Constant` input without a
`value` tensor), a non-matching consumer, a convolution whose data input is
itself statically bound, and a cascade of convolutions feeding each other. -/

/-- A dense float tensor. -/
def tF (sh : List Nat) (d : List Int) : Tensor := ⟨sh, DType.float, d⟩

/-- A flat graph: `Conv` (node 0) feeding a `BatchNormalization` (node 1)
whose output value 7 is consumed by an unrelated node 2. -/
def simpleSt : State :=
  { nodes := [
      (0, ⟨Kind.conv, [0, 1], [6], [], []⟩),
      (1, ⟨Kind.batchNorm, [6, 2, 3, 4, 5], [7], [("epsilon", AttrVal.fval 0)], []⟩),
      (2, ⟨Kind.other 5, [7], [], [("flag", AttrVal.fval 9)], []⟩)],
    blocksT := [(0, ⟨[0, 1, 2, 3, 4, 5], [0, 1, 2]⟩)],
    values := [
      (0, ⟨Definer.byBlock 0, none, [(0, 0)]⟩),
      (1, ⟨Definer.byBlock 0, none, [(0, 1)]⟩),
      (2, ⟨Definer.byBlock 0, none, [(1, 1)]⟩),
      (3, ⟨Definer.byBlock 0, none, [(1, 2)]⟩),
      (4, ⟨Definer.byBlock 0, none, [(1, 3)]⟩),
      (5, ⟨Definer.byBlock 0, none, [(1, 4)]⟩),
      (6, ⟨Definer.byNode 0 0, none, [(1, 0)]⟩),
      (7, ⟨Definer.byNode 1 0, none, [(2, 0)]⟩)],
    vmap := [
      (1, (1, tF [1, 1, 1] [5])),
      (2, (2, tF [1] [3])),
      (3, (3, tF [1] [7])),
      (4, (4, tF [1] [2])),
      (5, (5, tF [1] [1]))],
    rootBlock := 0, freshNode := 3, freshValue := 8 }

/-- A fusable pair inside nested block 1 (held by node 0 of the root
block 0). -/
def nestedSt : State :=
  { nodes := [
      (0, ⟨Kind.other 1, [], [], [], [1]⟩),
      (1, ⟨Kind.conv, [0, 1], [6], [], []⟩),
      (2, ⟨Kind.batchNorm, [6, 2, 3, 4, 5], [7], [("epsilon", AttrVal.fval 0)], []⟩)],
    blocksT := [(0, ⟨[0, 1, 2, 3, 4, 5], [0]⟩), (1, ⟨[], [1, 2]⟩)],
    values := [
      (0, ⟨Definer.byBlock 0, none, [(1, 0)]⟩),
      (1, ⟨Definer.byBlock 0, none, [(1, 1)]⟩),
      (2, ⟨Definer.byBlock 0, none, [(2, 1)]⟩),
      (3, ⟨Definer.byBlock 0, none, [(2, 2)]⟩),
      (4, ⟨Definer.byBlock 0, none, [(2, 3)]⟩),
      (5, ⟨Definer.byBlock 0, none, [(2, 4)]⟩),
      (6, ⟨Definer.byNode 1 0, none, [(2, 0)]⟩),
      (7, ⟨Definer.byNode 2 0, none, []⟩)],
    vmap := [
      (1, (1, tF [1, 1, 1] [5])),
      (2, (2, tF [1] [3])),
      (3, (3, tF [1] [7])),
      (4, (4, tF [1] [2])),
      (5, (5, tF [1] [1]))],
    rootBlock := 0, freshNode := 3, freshValue := 8 }

/-- A `Conv` whose single consumer is a `BatchNormalization` without an
`epsilon` attribute. -/
def noEpsSt : State :=
  { nodes := [
      (0, ⟨Kind.conv, [0, 1], [2], [], []⟩),
      (1, ⟨Kind.batchNorm, [2], [3], [], []⟩)],
    blocksT := [(0, ⟨[0, 1], [0, 1]⟩)],
    values := [
      (0, ⟨Definer.byBlock 0, none, [(0, 0)]⟩),
      (1, ⟨Definer.byBlock 0, none, [(0, 1)]⟩),
      (2, ⟨Definer.byNode 0 0, none, [(1, 0)]⟩),
      (3, ⟨Definer.byNode 1 0, none, []⟩)],
    vmap := [],
    rootBlock := 0, freshNode := 2, freshValue := 4 }

/-- A `Conv` with a `Constant` input (node 0) that carries no `value`
tensor attribute: resolving the convolution's inputs throws. -/
def noValSt : State :=
  { nodes := [
      (0, ⟨Kind.constant, [], [3], [], []⟩),
      (1, ⟨Kind.conv, [0, 3], [4], [], []⟩),
      (2, ⟨Kind.batchNorm, [4], [5], [("epsilon", AttrVal.fval 0)], []⟩)],
    blocksT := [(0, ⟨[0], [0, 1, 2]⟩)],
    values := [
      (0, ⟨Definer.byBlock 0, none, [(1, 0)]⟩),
      (3, ⟨Definer.byNode 0 0, none, [(1, 1)]⟩),
      (4, ⟨Definer.byNode 1 0, none, [(2, 0)]⟩),
      (5, ⟨Definer.byNode 2 0, none, []⟩)],
    vmap := [],
    rootBlock := 0, freshNode := 3, freshValue := 6 }

/-- A `Conv` whose single consumer is not a `BatchNormalization`. -/
def c6St : State :=
  { nodes := [
      (0, ⟨Kind.conv, [0, 1], [2], [], []⟩),
      (1, ⟨Kind.other 7, [2], [3], [], []⟩)],
    blocksT := [(0, ⟨[0, 1], [0, 1]⟩)],
    values := [
      (0, ⟨Definer.byBlock 0, none, [(0, 0)]⟩),
      (1, ⟨Definer.byBlock 0, none, [(0, 1)]⟩),
      (2, ⟨Definer.byNode 0 0, none, [(1, 0)]⟩),
      (3, ⟨Definer.byNode 1 0, none, []⟩)],
    vmap := [(1, (1, tF [1, 1, 1] [5]))],
    rootBlock := 0, freshNode := 2, freshValue := 4 }

/-- A `Conv` whose data input (position 0) is itself statically bound in the
Parameter Binding Table, alongside its weight. -/
def c10St : State :=
  { nodes := [
      (0, ⟨Kind.conv, [1, 2], [6], [], []⟩),
      (1, ⟨Kind.batchNorm, [6, 3, 4, 5, 9], [8], [("epsilon", AttrVal.fval 0)], []⟩)],
    blocksT := [(0, ⟨[1, 2, 3, 4, 5, 9], [0, 1]⟩)],
    values := [
      (1, ⟨Definer.byBlock 0, none, [(0, 0)]⟩),
      (2, ⟨Definer.byBlock 0, none, [(0, 1)]⟩),
      (3, ⟨Definer.byBlock 0, none, [(1, 1)]⟩),
      (4, ⟨Definer.byBlock 0, none, [(1, 2)]⟩),
      (5, ⟨Definer.byBlock 0, none, [(1, 3)]⟩),
      (9, ⟨Definer.byBlock 0, none, [(1, 4)]⟩),
      (6, ⟨Definer.byNode 0 0, none, [(1, 0)]⟩),
      (8, ⟨Definer.byNode 1 0, none, []⟩)],
    vmap := [
      (1, (1, tF [1, 1, 1] [4])),
      (2, (2, tF [1, 1, 1] [5])),
      (3, (3, tF [1] [3])),
      (4, (4, tF [1] [7])),
      (5, (5, tF [1] [2])),
      (9, (9, tF [1] [1]))],
    rootBlock := 0, freshNode := 2, freshValue := 10 }

/-- A cascade: Conv 0 feeds Conv 1 (as its weight slot) and BatchNorm 5;
Conv 1 feeds Conv 2 and BatchNorm 4; Conv 2 feeds BatchNorm 3.  Each
fusion removes one consumer and unlocks the next match. -/
def cascadeSt : State :=
  { nodes := [
      (0, ⟨Kind.conv, [0, 1], [18], [], []⟩),
      (1, ⟨Kind.conv, [2, 18, 3], [19], [], []⟩),
      (2, ⟨Kind.conv, [4, 19, 5], [20], [], []⟩),
      (3, ⟨Kind.batchNorm, [20, 6, 7, 8, 9], [21], [("epsilon", AttrVal.fval 0)], []⟩),
      (4, ⟨Kind.batchNorm, [19, 10, 11, 12, 13], [22], [("epsilon", AttrVal.fval 0)], []⟩),
      (5, ⟨Kind.batchNorm, [18, 14, 15, 16, 17], [23], [("epsilon", AttrVal.fval 0)], []⟩)],
    blocksT := [(0, ⟨[0, 1, 2, 3, 4, 5, 6, 7, 8, 9, 10, 11, 12, 13, 14, 15, 16, 17],
      [0, 1, 2, 3, 4, 5]⟩)],
    values := [
      (0, ⟨Definer.byBlock 0, none, [(0, 0)]⟩),
      (1, ⟨Definer.byBlock 0, none, [(0, 1)]⟩),
      (2, ⟨Definer.byBlock 0, none, [(1, 0)]⟩),
      (3, ⟨Definer.byBlock 0, none, [(1, 2)]⟩),
      (4, ⟨Definer.byBlock 0, none, [(2, 0)]⟩),
      (5, ⟨Definer.byBlock 0, none, [(2, 2)]⟩),
      (6, ⟨Definer.byBlock 0, none, [(3, 1)]⟩),
      (7, ⟨Definer.byBlock 0, none, [(3, 2)]⟩),
      (8, ⟨Definer.byBlock 0, none, [(3, 3)]⟩),
      (9, ⟨Definer.byBlock 0, none, [(3, 4)]⟩),
      (10, ⟨Definer.byBlock 0, none, [(4, 1)]⟩),
      (11, ⟨Definer.byBlock 0, none, [(4, 2)]⟩),
      (12, ⟨Definer.byBlock 0, none, [(4, 3)]⟩),
      (13, ⟨Definer.byBlock 0, none, [(4, 4)]⟩),
      (14, ⟨Definer.byBlock 0, none, [(5, 1)]⟩),
      (15, ⟨Definer.byBlock 0, none, [(5, 2)]⟩),
      (16, ⟨Definer.byBlock 0, none, [(5, 3)]⟩),
      (17, ⟨Definer.byBlock 0, none, [(5, 4)]⟩),
      (18, ⟨Definer.byNode 0 0, none, [(1, 1), (5, 0)]⟩),
      (19, ⟨Definer.byNode 1 0, none, [(2, 1), (4, 0)]⟩),
      (20, ⟨Definer.byNode 2 0, none, [(3, 0)]⟩),
      (21, ⟨Definer.byNode 3 0, none, []⟩),
      (22, ⟨Definer.byNode 4 0, none, []⟩),
      (23, ⟨Definer.byNode 5 0, none, []⟩)],
    vmap := [
      (1, (1, tF [1, 1, 1] [5])),
      (2, (2, tF [1, 1, 1] [5])),
      (3, (3, tF [1] [7])),
      (4, (4, tF [1, 1, 1] [5])),
      (5, (5, tF [1] [7])),
      (6, (6, tF [1] [3])),
      (7, (7, tF [1] [7])),
      (8, (8, tF [1] [2])),
      (9, (9, tF [1] [1])),
      (10, (10, tF [1] [3])),
      (11, (11, tF [1] [7])),
      (12, (12, tF [1] [2])),
      (13, (13, tF [1] [1])),
      (14, (14, tF [1] [3])),
      (15, (15, tF [1] [7])),
      (16, (16, tF [1] [2])),
      (17, (17, tF [1] [1]))],
    rootBlock := 0, freshNode := 6, freshValue := 24 }

/-- The state after one pass run on `cascadeSt`. -/
def casc1 : State := passState cascadeSt (EvalPeepholeONNX id 40 cascadeSt true)

/-- The state after two pass runs on `cascadeSt`. -/
def casc2 : State := passState casc1 (EvalPeepholeONNX id 40 casc1 true)

/-! ### The claims -/

/-- C1: invoking the pass with `allowInputMutation = false` returns the state
unchanged (graph and Parameter Binding Table untouched), and for either flag
value a successful run never removes an entry from the Parameter Binding
Table: every binding present before the run is still present, unchanged,
afterwards. -/
theorem C1_gating_and_table_preservation (sq : Int → Int) (fuel : Nat) (st : State) :
    EvalPeepholeONNX sq fuel st false = PassResult.ok st ∧
    (∀ (allow : Bool) (st' : State),
      EvalPeepholeONNX sq fuel st allow = PassResult.ok st' →
      ∀ k e, alookup st.vmap k = some e → alookup st'.vmap k = some e) := by
  refine ⟨evalPeephole_false_eq sq fuel st, ?_⟩
  intro allow st' h k e hk
  cases allow with
  | false =>
    rw [evalPeephole_false_eq] at h
    cases h
    exact hk
  | true =>
    rw [evalPeephole_true_eq] at h
    exact fuseRun_vmap_mono sq fuel _ st st' h k e hk

theorem C1_witness :
    alookup (passState simpleSt (EvalPeepholeONNX id 40 simpleSt true)).vmap 1 =
      some (1, tF [1, 1, 1] [5]) :=
  (C1_gating_and_table_preservation id 40 simpleSt).2 true
    (passState simpleSt (EvalPeepholeONNX id 40 simpleSt true)) rfl 1 (1, tF [1, 1, 1] [5]) rfl

/-- C2: for every matched and validated (Conv, BatchNormalization) pair, the
folder computes scaleFactor = bnScale / sqrt(bnVar + epsilon) componentwise,
the new weight satisfies newWeight[j] = oldWeight[j] * scaleFactor[channel of j]
for every flat index j, and the new bias equals (oldBias - bnMean) * scaleFactor
+ bnBias when the convolution has 3 inputs, and bnBias - bnMean * scaleFactor
otherwise. -/
theorem C2_folding_arithmetic (sq : Int → Int) (st : State)
    (cur bn out0 bnOut0 v0 : Nat) (convVals bnVals : List Tensor) (eps : Int)
    (hm : matchFusion st cur = MatchRes.fire bn out0 bnOut0 v0 convVals bnVals eps) :
    getValues st cur = some convVals ∧ getValues st bn = some bnVals ∧
    (∀ i a v, (bnVals.getD 0 dT).data.get? i = some a →
      (bnVals.getD 3 dT).data.get? i = some v →
      (foldScale sq (bnVals.getD 0 dT) (bnVals.getD 3 dT) eps).data.get? i =
        some (a / sq (v + eps))) ∧
    (∀ j x sv, (convVals.getD 0 dT).data.get? j = some x →
      j / ((convVals.getD 0 dT).shape.drop 1).prod < (convVals.getD 0 dT).size0 →
      (foldScale sq (bnVals.getD 0 dT) (bnVals.getD 3 dT) eps).data.get?
        (j / ((convVals.getD 0 dT).shape.drop 1).prod) = some sv →
      (foldedWeight sq convVals bnVals eps).data.get? j = some (x * sv)) ∧
    ((nodeInputs st cur).length = 3 →
      ∀ j ob m sv bb, (convVals.getD 1 dT).data.get? j = some ob →
        (bnVals.getD 2 dT).data.get? j = some m →
        (foldScale sq (bnVals.getD 0 dT) (bnVals.getD 3 dT) eps).data.get? j = some sv →
        (bnVals.getD 1 dT).data.get? j = some bb →
        (foldedBias sq convVals bnVals eps (nodeInputs st cur).length).data.get? j =
          some ((ob - m) * sv + bb)) ∧
    ((nodeInputs st cur).length ≠ 3 →
      ∀ j m sv bb, (bnVals.getD 2 dT).data.get? j = some m →
        (foldScale sq (bnVals.getD 0 dT) (bnVals.getD 3 dT) eps).data.get? j = some sv →
        (bnVals.getD 1 dT).data.get? j = some bb →
        (foldedBias sq convVals bnVals eps (nodeInputs st cur).length).data.get? j =
          some (bb - m * sv)) := by
  obtain ⟨_, _, _, _, _, hgc, hgb, _, _, _, _, _⟩ :=
    matchFusion_fire_inv st cur bn out0 bnOut0 v0 convVals bnVals eps hm
  refine ⟨hgc, hgb, ?_, ?_, ?_, ?_⟩
  · intro i a v ha hv
    exact foldScale_spec sq (bnVals.getD 0 dT) (bnVals.getD 3 dT) eps i a v ha hv
  · intro j x sv hx hch hsv
    show (scaleChannels (convVals.getD 0 dT)
      (foldScale sq (bnVals.getD 0 dT) (bnVals.getD 3 dT) eps)).data.get? j = some (x * sv)
    have h := scaleChannels_spec (convVals.getD 0 dT)
      (foldScale sq (bnVals.getD 0 dT) (bnVals.getD 3 dT) eps) j x hx hch
    rw [getD_of_get? _ _ _ hsv] at h
    exact h
  · intro hlen j ob m sv bb h1 h2 h3 h4
    show (foldBias convVals (nodeInputs st cur).length
      (foldScale sq (bnVals.getD 0 dT) (bnVals.getD 3 dT) eps)
      (bnVals.getD 1 dT) (bnVals.getD 2 dT)).data.get? j = _
    rw [hlen]
    exact foldBias_bias_spec convVals
      (foldScale sq (bnVals.getD 0 dT) (bnVals.getD 3 dT) eps)
      (bnVals.getD 1 dT) (bnVals.getD 2 dT) j ob m sv bb h1 h2 h3 h4
  · intro hlen j m sv bb h1 h2 h3
    exact foldBias_nobias_spec convVals
      (foldScale sq (bnVals.getD 0 dT) (bnVals.getD 3 dT) eps)
      (bnVals.getD 1 dT) (bnVals.getD 2 dT) (nodeInputs st cur).length j m sv bb hlen h1 h2 h3

theorem C2_witness :
    (foldScale id (tF [1] [3]) (tF [1] [1]) 0).data.get? 0 = some (3 / id (1 + 0)) ∧
    (foldedWeight id [tF [1, 1, 1] [5]]
      [tF [1] [3], tF [1] [7], tF [1] [2], tF [1] [1]] 0).data.get? 0 = some (5 * 3) ∧
    (foldedBias id [tF [1, 1, 1] [5]]
      [tF [1] [3], tF [1] [7], tF [1] [2], tF [1] [1]] 0
      (nodeInputs simpleSt 0).length).data.get? 0 = some (7 - 2 * 3) := by
  have h := C2_folding_arithmetic id simpleSt 0 1 6 7 0
    [tF [1, 1, 1] [5]] [tF [1] [3], tF [1] [7], tF [1] [2], tF [1] [1]] 0 rfl
  refine ⟨h.2.2.1 0 3 1 rfl rfl, ?_, ?_⟩
  · exact h.2.2.2.1 0 5 3 rfl (by decide) (by decide)
  · exact h.2.2.2.2.2 (by decide) 0 2 3 7 (by decide) (by decide) (by decide)

theorem simpleSt_integrity : Integrity simpleSt := by
  intro v vd h
  have hm := alookup_mem _ _ _ h
  simp only [simpleSt, List.mem_cons, List.not_mem_nil, or_false, Prod.mk.injEq] at hm
  rcases hm with ⟨hv, hd⟩ | ⟨hv, hd⟩ | ⟨hv, hd⟩ | ⟨hv, hd⟩ | ⟨hv, hd⟩ | ⟨hv, hd⟩ |
    ⟨hv, hd⟩ | ⟨hv, hd⟩ <;> subst hv <;> subst hd <;> decide

/-- C3: on every successful fusion the rewriter creates a new node of kind
Conv with exactly one output, inputs wired in order as the convolution's
original input 0, the new weight value, and the new bias value, with all
attributes copied from the original Conv; the type of the normalization's
output is copied onto the new output; and the new node lands in the block's
node list exactly where the normalization node was (i.e. immediately before
it, after which the normalization and original convolution are removed). -/
theorem C3_new_node_wiring (sq : Int → Int) (st : State)
    (b cur bn out0 bnOut0 v0 : Nat) (convVals bnVals : List Tensor) (eps : Int)
    (p : Nat) (l1 l2 : List Nat)
    (hwf : WfB st = true) (hInt : Integrity st)
    (hk : kindOf st cur = Kind.conv)
    (hm : matchFusion st cur = MatchRes.fire bn out0 bnOut0 v0 convVals bnVals eps)
    (hvb : v0 ≠ bnOut0)
    (hblk : blockNodes st p = l1 ++ bn :: l2)
    (hn1 : ¬ bn ∈ l1) (hn2 : ¬ bn ∈ l2) :
    alookup (applyFusion sq b cur bn bnOut0 v0 convVals bnVals eps st).nodes st.freshNode =
      some ⟨Kind.conv, [v0, st.freshValue + 1, st.freshValue + 1 + 1], [st.freshValue],
        nodeAttrs st cur, []⟩ ∧
    valueType (applyFusion sq b cur bn bnOut0 v0 convVals bnVals eps st) st.freshValue =
      valueType st bnOut0 ∧
    blockNodes (applyFusion sq b cur bn bnOut0 v0 convVals bnVals eps st) p =
      (l1 ++ st.freshNode :: l2).filter (· ≠ cur) := by
  have hB := bounds_of_wfB st hwf
  obtain ⟨cnd, bnd, hcur, hbn, hck, hbk, hbc, hv0, hbo, hocur, hobn⟩ :=
    fire_facts st cur bn out0 bnOut0 v0 convVals bnVals eps hk hm hB
  have hkeys : ∀ q ∈ st.nodes, q.1 < st.freshNode := fun q hq => (hB.1 q hq).1
  refine ⟨?_, ?_, ?_⟩
  · exact applyFusion_newNode sq b cur bn bnOut0 v0 convVals bnVals eps st cnd bnd
      hcur hbn hkeys hB.2 hInt hvb hbo
  · exact (applyFusion_types sq b cur bn bnOut0 v0 convVals bnVals eps st cnd bnd
      hcur hbn hkeys hocur hobn hbc).1
  · have hbp : ∃ bd, alookup st.blocksT p = some bd ∧ bd.nodes = l1 ++ bn :: l2 := by
      unfold blockNodes at hblk
      cases he : alookup st.blocksT p with
      | none =>
        rw [he] at hblk
        simp at hblk
      | some bd =>
        rw [he] at hblk
        exact ⟨bd, rfl, hblk⟩
    obtain ⟨bd, hbd, hbdn⟩ := hbp
    have hmap := applyFusion_blockNodes sq b cur bn bnOut0 v0 convVals bnVals eps st cnd bnd
      hcur hbn hkeys hbc p
    rw [hbd] at hmap
    simp only [Option.map_some'] at hmap
    have hbnlt : bn < st.freshNode := hkeys (bn, bnd) (alookup_mem _ _ _ hbn)
    have hfilt : (insertBeforeList bd.nodes bn st.freshNode).filter (· ≠ bn) =
        l1 ++ st.freshNode :: l2 := by
      rw [hbdn, insertBeforeList_decomp l1 l2 bn st.freshNode hn1]
      rw [List.filter_append, filter_ne_of_not_mem l1 bn hn1]
      have h1 : (st.freshNode :: bn :: l2).filter (· ≠ bn) = st.freshNode :: l2 := by
        rw [List.filter_cons_of_pos, List.filter_cons_of_neg, filter_ne_of_not_mem l2 bn hn2]
        · simp
        · simp
          omega
      rw [h1]
    rw [hfilt] at hmap
    unfold blockNodes
    cases he' : alookup (applyFusion sq b cur bn bnOut0 v0 convVals bnVals eps st).blocksT p with
    | none =>
      rw [he'] at hmap
      cases hmap
    | some bd' =>
      rw [he'] at hmap
      simp only [Option.map_some'] at hmap
      exact Option.some.inj hmap

theorem C3_witness :
    WfB simpleSt = true ∧
    (alookup (applyFusion id 0 0 1 7 0 [tF [1, 1, 1] [5]]
        [tF [1] [3], tF [1] [7], tF [1] [2], tF [1] [1]] 0 simpleSt).nodes
        simpleSt.freshNode =
      some ⟨Kind.conv, [0, simpleSt.freshValue + 1, simpleSt.freshValue + 1 + 1],
        [simpleSt.freshValue], nodeAttrs simpleSt 0, []⟩ ∧
    valueType (applyFusion id 0 0 1 7 0 [tF [1, 1, 1] [5]]
        [tF [1] [3], tF [1] [7], tF [1] [2], tF [1] [1]] 0 simpleSt)
        simpleSt.freshValue = valueType simpleSt 7 ∧
    blockNodes (applyFusion id 0 0 1 7 0 [tF [1, 1, 1] [5]]
        [tF [1] [3], tF [1] [7], tF [1] [2], tF [1] [1]] 0 simpleSt) 0 =
      ([0] ++ simpleSt.freshNode :: [2]).filter (· ≠ 0)) :=
  ⟨by decide, C3_new_node_wiring id simpleSt 0 0 1 6 7 0 [tF [1, 1, 1] [5]]
    [tF [1] [3], tF [1] [7], tF [1] [2], tF [1] [1]] 0 0 [0] [2]
    (by decide) simpleSt_integrity rfl rfl (by decide) rfl (by decide) (by decide)⟩

/-- C4 (corrected): on a successful fusion the new weight value is registered
as an input of the graph's root block, but the new bias value is registered as
an input of the block hosting the fusion — which is the root block only for
top-level fusions, so for a fusion inside a nested sub-block the bias is NOT a
graph-level input. Both values do get fresh-keyed Parameter Binding Table
entries and types inferred from the bound tensor's shape and dtype. -/
theorem C4_corrected_param_registration (sq : Int → Int) (st : State)
    (b cur bn out0 bnOut0 v0 : Nat) (convVals bnVals : List Tensor) (eps : Int)
    (rbd bbd : BlockData)
    (hwf : WfB st = true)
    (hk : kindOf st cur = Kind.conv)
    (hm : matchFusion st cur = MatchRes.fire bn out0 bnOut0 v0 convVals bnVals eps)
    (hbne : b ≠ st.rootBlock)
    (hroot : alookup st.blocksT st.rootBlock = some rbd)
    (hbb : alookup st.blocksT b = some bbd) :
    blockBInputs (applyFusion sq b cur bn bnOut0 v0 convVals bnVals eps st) st.rootBlock =
      rbd.binputs ++ [st.freshValue + 1] ∧
    blockBInputs (applyFusion sq b cur bn bnOut0 v0 convVals bnVals eps st) b =
      bbd.binputs ++ [st.freshValue + 1 + 1] ∧
    alookup (applyFusion sq b cur bn bnOut0 v0 convVals bnVals eps st).vmap
        (st.freshValue + 1) =
      some (st.freshValue + 1, foldedWeight sq convVals bnVals eps) ∧
    alookup (applyFusion sq b cur bn bnOut0 v0 convVals bnVals eps st).vmap
        (st.freshValue + 1 + 1) =
      some (st.freshValue + 1 + 1,
        foldedBias sq convVals bnVals eps (nodeInputs st cur).length) ∧
    valueType (applyFusion sq b cur bn bnOut0 v0 convVals bnVals eps st)
        (st.freshValue + 1) =
      some ((foldedWeight sq convVals bnVals eps).shape,
        (foldedWeight sq convVals bnVals eps).dtype) ∧
    valueType (applyFusion sq b cur bn bnOut0 v0 convVals bnVals eps st)
        (st.freshValue + 1 + 1) =
      some ((foldedBias sq convVals bnVals eps (nodeInputs st cur).length).shape,
        (foldedBias sq convVals bnVals eps (nodeInputs st cur).length).dtype) := by
  have hB := bounds_of_wfB st hwf
  obtain ⟨cnd, bnd, hcur, hbn, hck, hbk, hbc, hv0, hbo, hocur, hobn⟩ :=
    fire_facts st cur bn out0 bnOut0 v0 convVals bnVals eps hk hm hB
  have hkeys : ∀ q ∈ st.nodes, q.1 < st.freshNode := fun q hq => (hB.1 q hq).1
  have hwv : alookup st.vmap (st.freshValue + 1) = none := by
    rw [alookup_none_iff]
    intro q hq
    have := wfB_vmap_bound st hwf q hq
    omega
  have hbvm : alookup st.vmap (st.freshValue + 1 + 1) = none := by
    rw [alookup_none_iff]
    intro q hq
    have := wfB_vmap_bound st hwf q hq
    omega
  have P := applyFusion_params_blocks sq b cur bn bnOut0 v0 convVals bnVals eps st cnd bnd
    hcur hbn hkeys hbc hwv hbvm
  have T := applyFusion_types sq b cur bn bnOut0 v0 convVals bnVals eps st cnd bnd
    hcur hbn hkeys hocur hobn hbc
  refine ⟨?_, ?_, P.1, P.2.1, T.2.1, T.2.2⟩
  · have hR := P.2.2.2.1 rbd hbne hroot
    unfold blockBInputs
    rw [hR]
  · have hb2 := P.2.2.2.2 bbd hbne hbb
    unfold blockBInputs
    rw [hb2]

theorem C4_witness :
    WfB nestedSt = true ∧
    (blockBInputs (applyFusion id 1 1 2 7 0 [tF [1, 1, 1] [5]]
        [tF [1] [3], tF [1] [7], tF [1] [2], tF [1] [1]] 0 nestedSt) nestedSt.rootBlock =
      [0, 1, 2, 3, 4, 5] ++ [nestedSt.freshValue + 1] ∧
    blockBInputs (applyFusion id 1 1 2 7 0 [tF [1, 1, 1] [5]]
        [tF [1] [3], tF [1] [7], tF [1] [2], tF [1] [1]] 0 nestedSt) 1 =
      [] ++ [nestedSt.freshValue + 1 + 1] ∧
    alookup (applyFusion id 1 1 2 7 0 [tF [1, 1, 1] [5]]
        [tF [1] [3], tF [1] [7], tF [1] [2], tF [1] [1]] 0 nestedSt).vmap
        (nestedSt.freshValue + 1) =
      some (nestedSt.freshValue + 1,
        foldedWeight id [tF [1, 1, 1] [5]] [tF [1] [3], tF [1] [7], tF [1] [2], tF [1] [1]] 0) ∧
    alookup (applyFusion id 1 1 2 7 0 [tF [1, 1, 1] [5]]
        [tF [1] [3], tF [1] [7], tF [1] [2], tF [1] [1]] 0 nestedSt).vmap
        (nestedSt.freshValue + 1 + 1) =
      some (nestedSt.freshValue + 1 + 1,
        foldedBias id [tF [1, 1, 1] [5]] [tF [1] [3], tF [1] [7], tF [1] [2], tF [1] [1]] 0
          (nodeInputs nestedSt 1).length) ∧
    valueType (applyFusion id 1 1 2 7 0 [tF [1, 1, 1] [5]]
        [tF [1] [3], tF [1] [7], tF [1] [2], tF [1] [1]] 0 nestedSt)
        (nestedSt.freshValue + 1) =
      some ((foldedWeight id [tF [1, 1, 1] [5]]
          [tF [1] [3], tF [1] [7], tF [1] [2], tF [1] [1]] 0).shape,
        (foldedWeight id [tF [1, 1, 1] [5]]
          [tF [1] [3], tF [1] [7], tF [1] [2], tF [1] [1]] 0).dtype) ∧
    valueType (applyFusion id 1 1 2 7 0 [tF [1, 1, 1] [5]]
        [tF [1] [3], tF [1] [7], tF [1] [2], tF [1] [1]] 0 nestedSt)
        (nestedSt.freshValue + 1 + 1) =
      some ((foldedBias id [tF [1, 1, 1] [5]]
          [tF [1] [3], tF [1] [7], tF [1] [2], tF [1] [1]] 0 (nodeInputs nestedSt 1).length).shape,
        (foldedBias id [tF [1, 1, 1] [5]]
          [tF [1] [3], tF [1] [7], tF [1] [2], tF [1] [1]] 0 (nodeInputs nestedSt 1).length).dtype)) :=
  ⟨by decide, C4_corrected_param_registration id nestedSt 1 1 2 6 7 0 [tF [1, 1, 1] [5]]
    [tF [1] [3], tF [1] [7], tF [1] [2], tF [1] [1]] 0
    ⟨[0, 1, 2, 3, 4, 5], [0]⟩ ⟨[], [1, 2]⟩
    (by decide) rfl rfl (by decide) rfl rfl⟩

def nested1 : State := passState nestedSt (EvalPeepholeONNX id 20 nestedSt true)

theorem C4_counterexample :
    WfB nestedSt = true ∧
    (EvalPeepholeONNX id 20 nestedSt true = PassResult.ok nested1 ∧
    alookup nested1.vmap 10 = some (10, tF [1] [1]) ∧
    memB 10 (blockBInputs nested1 1) = true ∧
    memB 10 (blockBInputs nested1 nested1.rootBlock) = false) := by
  refine ⟨by decide, rfl, by decide, by decide, by decide⟩

/-- C5: after every successful fusion, every use of the normalization's output
value at a surviving node has been redirected to the new Conv node's output
value, both the normalization node and the original convolution node are
destroyed, and use-list integrity holds in the rewritten graph: every
remaining value's recorded use list is exactly (up to permutation) the list of
(node, input position) places where it occurs as an input. -/
theorem C5_redirect_destroy_integrity (sq : Int → Int) (st : State)
    (b cur bn out0 bnOut0 v0 : Nat) (convVals bnVals : List Tensor) (eps : Int)
    (hwf : WfB st = true) (hInt : Integrity st)
    (hk : kindOf st cur = Kind.conv)
    (hm : matchFusion st cur = MatchRes.fire bn out0 bnOut0 v0 convVals bnVals eps)
    (hvb : v0 ≠ bnOut0) :
    alookup (applyFusion sq b cur bn bnOut0 v0 convVals bnVals eps st).nodes bn = none ∧
    alookup (applyFusion sq b cur bn bnOut0 v0 convVals bnVals eps st).nodes cur = none ∧
    (∀ p ∈ valueUses st bnOut0, p.1 ≠ bn → p.1 ≠ cur →
      inputAt (applyFusion sq b cur bn bnOut0 v0 convVals bnVals eps st) p.1 p.2 =
        some st.freshValue) ∧
    Integrity (applyFusion sq b cur bn bnOut0 v0 convVals bnVals eps st) := by
  have hB := bounds_of_wfB st hwf
  obtain ⟨cnd, bnd, hcur, hbn, hck, hbk, hbc, hv0, hbo, hocur, hobn⟩ :=
    fire_facts st cur bn out0 bnOut0 v0 convVals bnVals eps hk hm hB
  have I := applyFusion_integrity sq b cur bn bnOut0 v0 convVals bnVals eps st cnd bnd
    hcur hbn hB hInt hv0 hvb hbo
  exact ⟨(applyFusion_destroyed sq b cur bn bnOut0 v0 convVals bnVals eps st).1,
    (applyFusion_destroyed sq b cur bn bnOut0 v0 convVals bnVals eps st).2, I.2, I.1⟩

theorem C5_witness :
    WfB simpleSt = true ∧
    (alookup (applyFusion id 0 0 1 7 0 [tF [1, 1, 1] [5]]
        [tF [1] [3], tF [1] [7], tF [1] [2], tF [1] [1]] 0 simpleSt).nodes 1 = none ∧
    alookup (applyFusion id 0 0 1 7 0 [tF [1, 1, 1] [5]]
        [tF [1] [3], tF [1] [7], tF [1] [2], tF [1] [1]] 0 simpleSt).nodes 0 = none ∧
    inputAt (applyFusion id 0 0 1 7 0 [tF [1, 1, 1] [5]]
        [tF [1] [3], tF [1] [7], tF [1] [2], tF [1] [1]] 0 simpleSt) 2 0 =
      some simpleSt.freshValue) := by
  have h := C5_redirect_destroy_integrity id simpleSt 0 0 1 6 7 0 [tF [1, 1, 1] [5]]
    [tF [1] [3], tF [1] [7], tF [1] [2], tF [1] [1]] 0
    (by decide) simpleSt_integrity rfl rfl (by decide)
  exact ⟨by decide, h.1, h.2.1,
    h.2.2.1 (2, 0) (by decide) (by decide) (by decide)⟩

/-- C6 (corrected in scope): every failed *matcher or numeric/shape
precondition* (non-Conv candidate, output fan-out not exactly one, consumer
not a BatchNormalization, output-arity mismatch, channel-count mismatch on the
resolved conv tensors, wrong normalization tensor count, failed dtype / rank /
size preconditions) is a silent skip: the matcher returns `skip` and the
rewrite step returns the state unchanged with no error.  (Unresolved inputs
and a missing `epsilon` attribute are NOT silent skips in the code: they throw
— see the counterexample.) -/
theorem C6_corrected_silent_skip (sq : Int → Int) (st : State) (b cur out0 : Nat) :
    (kindOf st cur ≠ Kind.conv → fuseAt sq b cur st = some (st, none)) ∧
    (kindOf st cur = Kind.conv → matchFusion st cur = MatchRes.skip →
      fuseAt sq b cur st = some (st, none)) ∧
    ((nodeOutputs st cur).head? = some out0 → (valueUses st out0).length ≠ 1 →
      matchFusion st cur = MatchRes.skip) ∧
    (∀ bn i, (nodeOutputs st cur).head? = some out0 → valueUses st out0 = [(bn, i)] →
      kindOf st bn ≠ Kind.batchNorm → matchFusion st cur = MatchRes.skip) ∧
    (∀ bn i, (nodeOutputs st cur).head? = some out0 → valueUses st out0 = [(bn, i)] →
      kindOf st bn = Kind.batchNorm →
      (nodeOutputs st cur).length ≠ (nodeOutputs st bn).length →
      matchFusion st cur = MatchRes.skip) ∧
    (∀ bn i eps convVals, (nodeOutputs st cur).head? = some out0 →
      valueUses st out0 = [(bn, i)] → kindOf st bn = Kind.batchNorm →
      (nodeOutputs st cur).length = (nodeOutputs st bn).length →
      attrF st bn "epsilon" = some eps → getValues st cur = some convVals →
      (convVals.length < 1 ∨ ((nodeInputs st cur).length = 3 ∧ convVals.length ≠ 2)) →
      matchFusion st cur = MatchRes.skip) ∧
    (∀ bn i eps convVals bnVals, (nodeOutputs st cur).head? = some out0 →
      valueUses st out0 = [(bn, i)] → kindOf st bn = Kind.batchNorm →
      (nodeOutputs st cur).length = (nodeOutputs st bn).length →
      attrF st bn "epsilon" = some eps → getValues st cur = some convVals →
      ¬ (convVals.length < 1 ∨ ((nodeInputs st cur).length = 3 ∧ convVals.length ≠ 2)) →
      getValues st bn = some bnVals → bnVals.length ≠ 4 →
      matchFusion st cur = MatchRes.skip) ∧
    (∀ bn i eps convVals bnVals, (nodeOutputs st cur).head? = some out0 →
      valueUses st out0 = [(bn, i)] → kindOf st bn = Kind.batchNorm →
      (nodeOutputs st cur).length = (nodeOutputs st bn).length →
      attrF st bn "epsilon" = some eps → getValues st cur = some convVals →
      ¬ (convVals.length < 1 ∨ ((nodeInputs st cur).length = 3 ∧ convVals.length ≠ 2)) →
      getValues st bn = some bnVals → bnVals.length = 4 →
      precondOk (convVals.getD 0 dT) (bnVals.getD 0 dT) (bnVals.getD 1 dT)
        (bnVals.getD 2 dT) (bnVals.getD 3 dT) = false →
      matchFusion st cur = MatchRes.skip) := by
  refine ⟨?_, ?_, ?_, ?_, ?_, ?_, ?_, ?_⟩
  · intro hk
    unfold fuseAt
    rw [if_neg hk]
  · intro hk hm
    unfold fuseAt
    rw [if_pos hk, hm]
  · intro h1 h2
    simp only [matchFusion, h1]
    cases hu : valueUses st out0 with
    | nil => rfl
    | cons p rest =>
      cases rest with
      | nil =>
        obtain ⟨a, i⟩ := p
        rw [hu] at h2
        simp at h2
      | cons q rest2 => rfl
  · intro bn i h1 hu hk2
    simp only [matchFusion, h1, hu]
    rw [if_pos hk2]
  · intro bn i h1 hu hk2 hlen
    simp only [matchFusion, h1, hu]
    rw [if_neg (fun hc => hc hk2), if_pos hlen]
  · intro bn i eps convVals h1 hu hk2 hlen heps hgv hbad
    simp only [matchFusion, h1, hu, heps, hgv]
    rw [if_neg (fun hc => hc hk2), if_neg (fun hc => hc hlen), if_pos hbad]
  · intro bn i eps convVals bnVals h1 hu hk2 hlen heps hgv hgood hgvb hlen4
    simp only [matchFusion, h1, hu, heps, hgv, hgvb]
    rw [if_neg (fun hc => hc hk2), if_neg (fun hc => hc hlen), if_neg hgood, if_pos hlen4]
  · intro bn i eps convVals bnVals h1 hu hk2 hlen heps hgv hgood hgvb hlen4 hpre
    simp only [matchFusion, h1, hu, heps, hgv, hgvb, hpre]
    rw [if_neg (fun hc => hc hk2), if_neg (fun hc => hc hlen), if_neg hgood,
      if_neg (fun hc => hc hlen4)]
    simp

theorem C6_witness :
    (kindOf c6St 0 = Kind.conv ∧ matchFusion c6St 0 = MatchRes.skip ∧
      kindOf c6St 1 ≠ Kind.batchNorm ∧ (nodeOutputs c6St 0).head? = some 2 ∧
      valueUses c6St 2 = [(1, 0)]) ∧
    (matchFusion c6St 0 = MatchRes.skip ∧ fuseAt id 0 0 c6St = some (c6St, none)) := by
  refine ⟨⟨rfl, rfl, by decide, rfl, rfl⟩, ?_, ?_⟩
  · exact (C6_corrected_silent_skip id c6St 0 0 2).2.2.2.1 1 0 rfl rfl (by decide)
  · exact (C6_corrected_silent_skip id c6St 0 0 2).2.1 rfl
      ((C6_corrected_silent_skip id c6St 0 0 2).2.2.2.1 1 0 rfl rfl (by decide))

theorem C6_counterexample :
    kindOf noValSt 1 = Kind.conv ∧
    getValues noValSt 1 = none ∧
    matchFusion noValSt 1 = MatchRes.err ∧
    fuseAt id 0 1 noValSt = none ∧
    EvalPeepholeONNX id 40 noValSt true = PassResult.err := by
  refine ⟨rfl, rfl, rfl, rfl, rfl⟩

/-- C7 (corrected): per-candidate matcher/precondition failures are local
skips and never abort the traversal, but only on graphs whose nodes satisfy
the basic well-formedness the code implicitly assumes (`SafeB`: every Conv has
an output and at least one input, every BatchNormalization has an `epsilon`
float attribute and an output, every Constant carries a `value` tensor).
Under that assumption — plus structural bounds — the pass never throws, for
either flag value.  Without it the pass CAN fault while a Conv's single
consumer is a BatchNormalization (see the counterexample: a missing `epsilon`
attribute throws instead of skipping). -/
theorem C7_corrected_no_throw (sq : Int → Int) (fuel : Nat) (st : State) (allow : Bool)
    (hS : SafeB st = true) (hwf : WfB st = true) :
    EvalPeepholeONNX sq fuel st allow ≠ PassResult.err := by
  cases allow with
  | false =>
    rw [evalPeephole_false_eq]
    intro hc
    cases hc
  | true =>
    rw [evalPeephole_true_eq]
    exact (fuseRun_safe sq fuel (WalkTask.block st.rootBlock) st hS (bounds_of_wfB st hwf)).1

theorem C7_witness :
    SafeB simpleSt = true ∧ WfB simpleSt = true ∧
    EvalPeepholeONNX id 40 simpleSt true ≠ PassResult.err :=
  ⟨by decide, by decide, C7_corrected_no_throw id 40 simpleSt true (by decide) (by decide)⟩

theorem C7_counterexample :
    kindOf noEpsSt 0 = Kind.conv ∧
    kindOf noEpsSt 1 = Kind.batchNorm ∧
    valueUses noEpsSt 2 = [(1, 0)] ∧
    (nodeOutputs noEpsSt 0).head? = some 2 ∧
    attrF noEpsSt 1 "epsilon" = none ∧
    matchFusion noEpsSt 0 = MatchRes.err ∧
    EvalPeepholeONNX id 40 noEpsSt true = PassResult.err := by
  refine ⟨rfl, rfl, rfl, rfl, rfl, rfl, rfl⟩

/-- C8: the folding arithmetic operates on clones of the resolved tensors
(`foldedWeight` and `foldedBias` are functions of `.clone` copies), and a
fusion never mutates the originals: every pre-existing Parameter Binding
Table entry survives unchanged, and every surviving node — in particular a
Constant node carrying its tensor in its attributes — keeps its kind,
outputs and attributes unchanged. -/
theorem C8_no_in_place_mutation (sq : Int → Int) (st : State)
    (b cur bn out0 bnOut0 v0 : Nat) (convVals bnVals : List Tensor) (eps : Int)
    (hwf : WfB st = true)
    (hk : kindOf st cur = Kind.conv)
    (hm : matchFusion st cur = MatchRes.fire bn out0 bnOut0 v0 convVals bnVals eps) :
    getValues st cur = some convVals ∧ getValues st bn = some bnVals ∧
    foldedWeight sq convVals bnVals eps =
      scaleChannels ((convVals.getD 0 dT).clone)
        (foldScale sq ((bnVals.getD 0 dT).clone) ((bnVals.getD 3 dT).clone) eps) ∧
    (∀ k e, alookup st.vmap k = some e →
      alookup (applyFusion sq b cur bn bnOut0 v0 convVals bnVals eps st).vmap k = some e) ∧
    (∀ m nd, m ≠ bn → m ≠ cur → alookup st.nodes m = some nd →
      ∃ nd', alookup (applyFusion sq b cur bn bnOut0 v0 convVals bnVals eps st).nodes m =
          some nd' ∧
        nd'.kind = nd.kind ∧ nd'.outputs = nd.outputs ∧ nd'.attrs = nd.attrs) := by
  have hB := bounds_of_wfB st hwf
  obtain ⟨cnd, bnd, hcur, hbn, hck, hbk, hbc, hv0, hbo, hocur, hobn⟩ :=
    fire_facts st cur bn out0 bnOut0 v0 convVals bnVals eps hk hm hB
  obtain ⟨f1, f2, f3, f4, f5, fgc, fgb, f8, f9, f10, f11, f12⟩ :=
    matchFusion_fire_inv st cur bn out0 bnOut0 v0 convVals bnVals eps hm
  refine ⟨fgc, fgb, rfl, ?_, ?_⟩
  · intro k e he
    exact applyFusion_vmap_preserve sq b cur bn bnOut0 v0 convVals bnVals eps st k e he
  · intro m nd hm1 hm2 hnd
    have hm3 : m < st.freshNode := (hB.1 (m, nd) (alookup_mem _ _ _ hnd)).1
    have hfr := applyFusion_frame sq b cur bn bnOut0 v0 convVals bnVals eps st m hm1 hm2 hm3
    rw [hnd] at hfr
    cases he' : alookup (applyFusion sq b cur bn bnOut0 v0 convVals bnVals eps st).nodes m with
    | none =>
      rw [he'] at hfr
      cases hfr
    | some nd' =>
      rw [he'] at hfr
      simp only [Option.map_some'] at hfr
      have hsh := Option.some.inj hfr
      exact ⟨nd', rfl, congrArg (fun t => t.1) hsh,
        congrArg (fun t => t.2.1) hsh, congrArg (fun t => t.2.2.1) hsh⟩

theorem C8_witness :
    WfB simpleSt = true ∧
    (∃ nd', alookup (applyFusion id 0 0 1 7 0 [tF [1, 1, 1] [5]]
        [tF [1] [3], tF [1] [7], tF [1] [2], tF [1] [1]] 0 simpleSt).nodes 2 = some nd' ∧
      nd'.kind = Kind.other 5 ∧ nd'.outputs = ([] : List Nat) ∧
      nd'.attrs = [("flag", AttrVal.fval 9)]) := by
  refine ⟨by decide, ?_⟩
  have h := C8_no_in_place_mutation id simpleSt 0 0 1 6 7 0 [tF [1, 1, 1] [5]]
    [tF [1] [3], tF [1] [7], tF [1] [2], tF [1] [1]] 0 (by decide) rfl rfl
  exact h.2.2.2.2 2 ⟨Kind.other 5, [7], [], [("flag", AttrVal.fval 9)], []⟩
    (by decide) (by decide) rfl

/-- C9 (corrected): the pass is NOT idempotent — a single run walks each
block's node list once, and a fusion can unlock a fresh match (e.g. when one
Conv feeds another Conv's weight slot) that the same run does not revisit, so
a second run can fuse further pairs (see the counterexample).  What does hold
is a strict progress property: every successful run either returns the state
unchanged or strictly decreases the number of nodes, so repeated runs reach a
fixed point. -/
theorem C9_corrected_progress_not_idempotent (sq : Int → Int) (fuel : Nat)
    (st st' : State) (allow : Bool) (hwf : WfB st = true)
    (h : EvalPeepholeONNX sq fuel st allow = PassResult.ok st') :
    st' = st ∨ st'.nodes.length < st.nodes.length := by
  cases allow with
  | false =>
    rw [evalPeephole_false_eq] at h
    exact Or.inl (Option.some.inj (congrArg (fun r => match r with
      | PassResult.ok s => some s | _ => none) h)).symm
  | true =>
    rw [evalPeephole_true_eq] at h
    exact (fuseRun_count sq fuel (WalkTask.block st.rootBlock) st
      (bounds_of_wfB st hwf) st' h).2

theorem C9_witness :
    WfB cascadeSt = true ∧
    (casc1 = cascadeSt ∨ casc1.nodes.length < cascadeSt.nodes.length) :=
  ⟨by decide,
    C9_corrected_progress_not_idempotent id 40 cascadeSt casc1 true (by decide) rfl⟩

theorem C9_counterexample :
    EvalPeepholeONNX id 40 cascadeSt true = PassResult.ok casc1 ∧
    EvalPeepholeONNX id 40 casc1 true = PassResult.ok casc2 ∧
    casc2.nodes.length < casc1.nodes.length ∧
    kindOf casc1 1 = Kind.conv ∧
    (matchFusion casc1 1 ≠ MatchRes.skip ∧ matchFusion casc1 1 ≠ MatchRes.err) := by
  refine ⟨rfl, rfl, by decide, by decide, by decide, by decide⟩

/-- C10: the tensor validated and folded as the convolution weight is the
first input, in input order, that resolves to a static tensor: resolution
walks the inputs in order, keeps resolved tensors in order and silently drops
unresolvable ones, so the head of the resolved list comes from the earliest
resolvable input.  Consequently, if the Conv's data input (position 0) itself
resolves, that data tensor — not the weight — is the tensor checked by
`precondOk` as `convW` and scaled by the folder. -/
theorem C10_first_static_input_is_weight (sq : Int → Int) (st : State)
    (cur bn out0 bnOut0 v0 : Nat) (convVals bnVals : List Tensor) (eps : Int)
    (hm : matchFusion st cur = MatchRes.fire bn out0 bnOut0 v0 convVals bnVals eps) :
    getValues st cur = some convVals ∧
    (∀ v vs, nodeInputs st cur = v :: vs →
      ∀ t, resolveValue st v = RVal.tensor t → convVals.head? = some t) ∧
    (∀ v vs, nodeInputs st cur = v :: vs →
      resolveValue st v = RVal.skip → resolveInputs st vs = some convVals) ∧
    precondOk (convVals.getD 0 dT) (bnVals.getD 0 dT) (bnVals.getD 1 dT)
      (bnVals.getD 2 dT) (bnVals.getD 3 dT) = true ∧
    foldedWeight sq convVals bnVals eps =
      scaleChannels ((convVals.getD 0 dT).clone)
        (foldScale sq ((bnVals.getD 0 dT).clone) ((bnVals.getD 3 dT).clone) eps) := by
  obtain ⟨h1, h2, h3, h4, h5, hgc, hgb, h8, h9, hpre, h11, h12⟩ :=
    matchFusion_fire_inv st cur bn out0 bnOut0 v0 convVals bnVals eps hm
  refine ⟨hgc, ?_, ?_, hpre, rfl⟩
  · intro v vs hin t hrv
    have hr : resolveInputs st (v :: vs) = some convVals := by
      rw [← hin]
      exact hgc
    simp only [resolveInputs, hrv] at hr
    cases hri : resolveInputs st vs with
    | none =>
      rw [hri] at hr
      cases hr
    | some l =>
      rw [hri] at hr
      simp only [Option.map_some'] at hr
      rw [← Option.some.inj hr]
      rfl
  · intro v vs hin hrv
    have hr : resolveInputs st (v :: vs) = some convVals := by
      rw [← hin]
      exact hgc
    simp only [resolveInputs, hrv] at hr
    exact hr

theorem C10_witness :
    nodeInputs c10St 0 = 1 :: [2] ∧
    resolveValue c10St 1 = RVal.tensor (tF [1, 1, 1] [4]) ∧
    alookup c10St.vmap 2 = some (2, tF [1, 1, 1] [5]) ∧
    [tF [1, 1, 1] [4], tF [1, 1, 1] [5]].head? = some (tF [1, 1, 1] [4]) := by
  refine ⟨rfl, rfl, rfl, ?_⟩
  exact (C10_first_static_input_is_weight id c10St 0 1 6 8 1
    [tF [1, 1, 1] [4], tF [1, 1, 1] [5]]
    [tF [1] [3], tF [1] [7], tF [1] [2], tF [1] [1]] 0 rfl).2.1 1 [2] rfl
    (tF [1, 1, 1] [4]) rfl
